import Mathlib

/-!
# gearbox: a shallow embedding of the storage, REST, apis, admission,
controller, watch and task packages

Go values are embedded as follows.

* `error` is `Option GoError`; `none` is the nil error.
* `int` is the 64-bit Go `int`: an `Int` kept in range with `wrap64`.
* `[]byte` is `List UInt8`; a nil slice is `none` of `Option (List UInt8)`.
* A storage model (`GormModelT`, a struct whose fields carry `gorm:"column:..."`
  tags) is a function from column name to the string held by the tagged field.
* The generated gorm/gen DAO the store talks to is a record of functions over
  an explicit database state (`Dao σ`); `memDao` is an in-memory table that
  implements it with the MySQL conventions the store relies on.
* A call that may panic ends in `controller.Ret`: it returns a value or panics
  with one. What a loop does to its collaborators (queue, event handler,
  message, result channel) is the list of the calls it makes, in order.
* A Go map is a list of bindings read with `List.lookup`; an assignment puts
  the binding in front.
-/

deriving instance DecidableEq for Except

namespace Gearbox

/-! ## strconv -/

/-- Wrap an integer into the signed 64-bit range, as Go `int` arithmetic does. -/
def wrap64 (i : Int) : Int :=
  (i + 2 ^ 63) % 2 ^ 64 - 2 ^ 63

/-- Value of an ASCII decimal digit. -/
def digitVal (c : Char) : Option Nat :=
  if 48 ≤ c.toNat ∧ c.toNat ≤ 57 then some (c.toNat - 48) else none

/-- Decimal value of a non-empty run of ASCII digits. -/
def parseDigits (cs : List Char) : Option Nat :=
  match cs with
  | [] => none
  | _ => cs.foldlM (fun n c => (digitVal c).map (fun d => n * 10 + d)) 0

/-- Decimal digits of a natural number, most significant first; `fuel` bounds
the number of digits produced after the first. -/
def natDigits : Nat → Nat → List Char → List Char
  | 0, n, acc => Char.ofNat (48 + n % 10) :: acc
  | fuel + 1, n, acc =>
    if n < 10 then Char.ofNat (48 + n) :: acc
    else natDigits fuel (n / 10) (Char.ofNat (48 + n % 10) :: acc)

/-- Go `strconv.Itoa` on a 64-bit `int`. -/
def Itoa (i : Int) : String :=
  match i with
  | Int.ofNat n => String.mk (natDigits 20 n [])
  | Int.negSucc n => String.mk ('-' :: natDigits 20 (n + 1) [])

/-- Go `strconv.Quote`, for the strings the library formats with `%q`: the
double quote, the backslash and the ASCII control characters are escaped,
every other character is kept. -/
def Quote (s : String) : String :=
  let hex (n : Nat) : Char := if n < 10 then Char.ofNat (48 + n) else Char.ofNat (87 + n)
  let esc (c : Char) : List Char :=
    if c = '"' then ['\\', '"']
    else if c = '\\' then ['\\', '\\']
    else if c.toNat = 7 then ['\\', 'a']
    else if c.toNat = 8 then ['\\', 'b']
    else if c.toNat = 12 then ['\\', 'f']
    else if c = '\n' then ['\\', 'n']
    else if c = '\r' then ['\\', 'r']
    else if c = '\t' then ['\\', 't']
    else if c.toNat = 11 then ['\\', 'v']
    else if c.toNat < 32 ∨ c.toNat = 127 then ['\\', 'x', hex (c.toNat / 16), hex (c.toNat % 16)]
    else [c]
  String.mk ('"' :: (s.toList.flatMap esc ++ ['"']))

/-! ## apis: object metadata and the Status envelope -/

namespace apis

def StatusFailure : String := "Failure"

def StatusSuccess : String := "Success"

/-- Go `apis.ObjectMeta`; the two times are kept as an offset from the zero time. -/
structure ObjectMeta where
  Kind : String := ""
  Key : String := ""
  ResourceVersion : String := ""
  CreateTime : Int := 0
  UpdateTime : Int := 0
deriving DecidableEq, Repr

/-- Go `apis.Status`, which embeds `ObjectMeta`. -/
structure Status where
  ObjectMeta : ObjectMeta
  Code : Int
  Status : String
  Reason : String
  Message : String
deriving DecidableEq, Repr

/-- Go `apis.ListOptions`. -/
structure ListOptions where
  Limit : Int
  Offset : Int
  Selector : String
deriving DecidableEq, Repr

/-- Go `apis.ObjectList[T]`. -/
structure ObjectList (α : Type) where
  Count : Int
  Continue : Bool
  Items : List α

end apis

/-! ## Go error values -/

/-- Go `storage.StatusError`. -/
structure storage.StatusError where
  ErrStatus : apis.Status
deriving DecidableEq, Repr

/-- Go `errors.StatusError`, the only type that implements `errors.APIStatus`. -/
structure errors.StatusError where
  ErrStatus : apis.Status
deriving DecidableEq, Repr

/-- The dynamic types of `error` values the library distinguishes. -/
inductive GoError where
  /-- A `storage.StatusError`. -/
  | storageStatus (e : storage.StatusError)
  /-- An `errors.StatusError` of the API layer. -/
  | apiStatus (e : errors.StatusError)
  /-- The sentinel `gorm.ErrRecordNotFound`. -/
  | recordNotFound
  /-- A `*mysql.MySQLError`. -/
  | mysql (Number : Nat) (Message : String)
  /-- Any other error value (`errors.New`, `fmt.Errorf`, `*strconv.NumError`). -/
  | other (msg : String)
deriving DecidableEq, Repr

/-- The `Error()` method of an error value. -/
def GoError.Error : GoError → String
  | .storageStatus s => s.ErrStatus.Message
  | .apiStatus s => s.ErrStatus.Message
  | .recordNotFound => "record not found"
  | .mysql n m => "Error " ++ Itoa (Int.ofNat n) ++ ": " ++ m
  | .other m => m

/-- Go `strconv.ParseInt(s, 10, bitSize)`: an optional sign, then one or more
ASCII digits, with a value in the signed `bitSize`-bit range. -/
def ParseInt (fn : String) (s : String) (bitSize : Nat) : Except GoError Int :=
  let syntaxErr := GoError.other ("strconv." ++ fn ++ ": parsing " ++ Quote s ++ ": invalid syntax")
  let rangeErr := GoError.other ("strconv." ++ fn ++ ": parsing " ++ Quote s ++ ": value out of range")
  match s.toList with
  | [] => .error syntaxErr
  | c :: rest =>
    let neg := c = '-'
    let ds := if c = '-' ∨ c = '+' then rest else c :: rest
    match parseDigits ds with
    | none => .error syntaxErr
    | some un =>
      let cutoff := 2 ^ (bitSize - 1)
      if ¬ neg ∧ un ≥ cutoff then .error rangeErr
      else if neg ∧ un > cutoff then .error rangeErr
      else .ok (if neg then - (Int.ofNat un) else Int.ofNat un)

/-- Go `strconv.Atoi` on a 64-bit platform. -/
def Atoi (s : String) : Except GoError Int :=
  ParseInt "Atoi" s 64

/-! ## storage: status errors -/

namespace storage

def ReasonNotFound : String := "NotFound"

def ReasonAlreadyExist : String := "AlreadyExist"

def ReasonConcurrentConflict : String := "ConfurrentConflict"

def NewNotFoundError (typeName key : String) : StatusError :=
  { ErrStatus :=
    { ObjectMeta := { Kind := "Status" }
      Status := apis.StatusFailure
      Code := 404
      Reason := ReasonNotFound
      Message := typeName ++ " " ++ Quote key ++ " not found" } }

def IsNotFoundError (err : Option GoError) : Bool :=
  match err with
  | some (.storageStatus e) => e.ErrStatus.Reason == ReasonNotFound
  | _ => false

def NewAlreadyExistError (typeName key : String) : StatusError :=
  { ErrStatus :=
    { ObjectMeta := { Kind := "Status" }
      Status := apis.StatusFailure
      Code := 409
      Reason := ReasonAlreadyExist
      Message := typeName ++ " " ++ Quote key ++ " already exist" } }

def IsAlreadyExistError (err : Option GoError) : Bool :=
  match err with
  | some (.storageStatus e) => e.ErrStatus.Reason == ReasonAlreadyExist
  | _ => false

def NewConcurrentConclictError : StatusError :=
  { ErrStatus :=
    { ObjectMeta := { Kind := "Status" }
      Status := apis.StatusFailure
      Code := 403
      Reason := ReasonConcurrentConflict
      Message := "the objectVersion in request not equals to the storage version, maybe concurrent conflict" } }

def IsConcurrentConclictError (err : Option GoError) : Bool :=
  match err with
  | some (.storageStatus e) => e.ErrStatus.Reason == ReasonConcurrentConflict
  | _ => false

/-- Go `storage.ListOptions`, generic in the requirement type. -/
structure ListOptions (ρ : Type) where
  Offset : Int
  Limit : Int
  Requirements : List ρ

end storage

/-! ## errors: the API error taxonomy -/

namespace errors

/-- Go `http.StatusText` on the codes the package uses. -/
def StatusText (code : Int) : String :=
  if code = 400 then "Bad Request"
  else if code = 403 then "Forbidden"
  else if code = 404 then "Not Found"
  else if code = 409 then "Conflict"
  else if code = 500 then "Internal Server Error"
  else ""

def StatusError.Status (s : StatusError) : apis.Status := s.ErrStatus

def getErrorCodeAndReason (err : Option GoError) : Int × String :=
  match err with
  | some (.apiStatus e) => (e.Status.Code, e.Status.Reason)
  | _ => (0, "")

def NewBadRequest (message : String) : StatusError :=
  { ErrStatus :=
    { ObjectMeta := { Kind := "Status" }
      Code := 400
      Status := apis.StatusFailure
      Reason := StatusText 400
      Message := message } }

def NewNotFound (kind key : String) : StatusError :=
  { ErrStatus :=
    { ObjectMeta := { Kind := "Status" }
      Code := 404
      Status := apis.StatusFailure
      Reason := StatusText 404
      Message := kind ++ " " ++ Quote key ++ " not found" } }

def NewForbidden (operate kind key message : String) : StatusError :=
  { ErrStatus :=
    { ObjectMeta := { Kind := "Status" }
      Code := 403
      Status := apis.StatusFailure
      Reason := StatusText 403
      Message := operate ++ " " ++ kind ++ " " ++ Quote key ++ " is forbidden: " ++ message } }

def NewConflict (err : GoError) : StatusError :=
  { ErrStatus :=
    { ObjectMeta := { Kind := "Status" }
      Code := 409
      Status := apis.StatusFailure
      Reason := StatusText 409
      Message := err.Error } }

def NewInternalError (err : GoError) : StatusError :=
  { ErrStatus :=
    { ObjectMeta := { Kind := "Status" }
      Code := 500
      Status := apis.StatusFailure
      Reason := StatusText 500
      Message := err.Error } }

def IsBadRequestError (err : Option GoError) : Bool :=
  (getErrorCodeAndReason err).1 == 400

def IsNotFoundError (err : Option GoError) : Bool :=
  (getErrorCodeAndReason err).1 == 404

def IsForbiddenError (err : Option GoError) : Bool :=
  (getErrorCodeAndReason err).1 == 403

def IsConflictError (err : Option GoError) : Bool :=
  (getErrorCodeAndReason err).1 == 409

def IsInternalError (err : Option GoError) : Bool :=
  (getErrorCodeAndReason err).1 == 500

end errors

/-! ## apis: RawExtension -/

namespace apis

/-- Go `apis.RawExtension`: `Object any` is `none` for the nil interface, `Raw`
is `none` for the nil slice. -/
structure RawExtension (α : Type) where
  Object : Option α
  Raw : Option (List UInt8)

/-- The bytes of the JSON literal `null`. -/
def nullBytes : List UInt8 := [110, 117, 108, 108]

/-- Go `append(raw[0:0], b...)`: the result is nil only when `raw` is nil and
`b` has no bytes. -/
def appendReset (raw : Option (List UInt8)) (b : List UInt8) : Option (List UInt8) :=
  match raw with
  | none => if b = [] then none else some b
  | some _ => some b

/-- Go `(*RawExtension).UnmarshalJSON` on a non-nil receiver: the receiver
after the call (the returned error is nil). -/
def RawExtension.UnmarshalJSON {α : Type} (re : RawExtension α) (b : List UInt8) : RawExtension α :=
  if b ≠ nullBytes then { re with Raw := appendReset re.Raw b } else re

/-- Go `RawExtension.MarshalJSON`; `jsonMarshal` is `encoding/json.Marshal` on
the held object. -/
def RawExtension.MarshalJSON {α : Type} (jsonMarshal : α → Except GoError (List UInt8))
    (re : RawExtension α) : Except GoError (List UInt8) :=
  match re.Raw, re.Object with
  | none, none => .ok nullBytes
  | none, some o =>
    match jsonMarshal o with
    | .error err => .error err
    | .ok raw => .ok raw
  | some raw, _ => .ok raw

end apis

/-! ## apis: Scheme -/

namespace apis

/-- The `reflect.Type` of a defined struct type. -/
structure RType where
  PkgPath : String
  Name : String
deriving DecidableEq, Repr

/-- Go `apis.Scheme`; a Go map is a list of bindings read with `List.lookup`. -/
structure Scheme where
  typeToKind : List (RType × String)
  KindToType : List (String × RType)

/-- An `apis.Object`: a pointer to a struct of dynamic type `rtype` that embeds
`ObjectMeta`. -/
structure Object where
  rtype : RType
  ObjectMeta : ObjectMeta
deriving DecidableEq, Repr

def Object.GetKey (o : Object) : String := o.ObjectMeta.Key

def Object.SetKey (o : Object) (key : String) : Object :=
  { o with ObjectMeta := { o.ObjectMeta with Key := key } }

def Object.GetKind (o : Object) : String := o.ObjectMeta.Kind

def Object.SetKind (o : Object) (kind : String) : Object :=
  { o with ObjectMeta := { o.ObjectMeta with Kind := kind } }

def Object.GetResourceVersion (o : Object) : String := o.ObjectMeta.ResourceVersion

/-- Go `(*Scheme).ObjectKind`: the pointer is dereferenced, then the type is
looked up. -/
def Scheme.ObjectKind (s : Scheme) (obj : Object) : Except GoError String :=
  match s.typeToKind.lookup obj.rtype with
  | some kind => .ok kind
  | none => .error (.other (Quote obj.rtype.Name ++ " not registered"))

end apis

/-! ## rest: error conversion, list paging -/

namespace rest

/-- Go `RestAPI.convertStorageError`. -/
def convertStorageError (scheme : apis.Scheme) (err : Option GoError) (obj : apis.Object) :
    Option GoError :=
  match scheme.ObjectKind obj with
  | .error e => some e
  | .ok kind =>
    match err with
    | none => none
    | some e0 =>
      if storage.IsNotFoundError (some e0) then some (.apiStatus (errors.NewNotFound kind obj.GetKey))
      else if storage.IsAlreadyExistError (some e0) then some (.apiStatus (errors.NewConflict e0))
      else if storage.IsConcurrentConclictError (some e0) then some (.apiStatus (errors.NewConflict e0))
      else some e0

/-- The status `Handler.Error` writes to the response (and whose `Code` it
writes as the HTTP header): the status of the error itself when it implements
`APIStatus`, that of an internal error otherwise. -/
def Handler.Error (err : GoError) : apis.Status :=
  match err with
  | .apiStatus apiStatus => apiStatus.Status
  | e => (errors.NewInternalError e).Status

/-- The part of a `RestAPI` that `GetList` uses: the selector parser, the
`GetList` of the store, the `FromStorage` of the converter, the scheme and the
API type. -/
structure RestAPI (ST ρ : Type) where
  scheme : apis.Scheme
  rtype : apis.RType
  Parse : String → Except GoError (List ρ)
  storeGetList : storage.ListOptions ρ → Except GoError (List ST × Int)
  FromStorage : ST → apis.Object → Except GoError apis.Object

/-- The loop of `RestAPI.GetList` that converts the rows and tags the kind. -/
def RestAPI.convertRows {ST ρ : Type} (r : RestAPI ST ρ) :
    List ST → List apis.Object → Except GoError (List apis.Object)
  | [], outs => .ok outs
  | storeobj :: more, outs =>
    match r.FromStorage storeobj { rtype := r.rtype, ObjectMeta := {} } with
    | .error err => .error err
    | .ok obj =>
      match r.scheme.ObjectKind obj with
      | .error err => .error err
      | .ok kind => r.convertRows more (outs ++ [obj.SetKind kind])

/-- Go `RestAPI.GetList`. -/
def RestAPI.GetList {ST ρ : Type} (r : RestAPI ST ρ) (opts : apis.ListOptions) :
    Except GoError (List apis.Object × Int) :=
  let offset := if opts.Offset ≤ 0 then 0 else opts.Offset
  let limit := if opts.Limit < 0 then 0 else opts.Limit
  match r.Parse opts.Selector with
  | .error err => .error err
  | .ok requirements =>
    match r.storeGetList { Offset := offset, Limit := limit, Requirements := requirements } with
    | .error err =>
      match convertStorageError r.scheme (some err) { rtype := r.rtype, ObjectMeta := {} } with
      | some e => .error e
      | none => .ok ([], 0)
    | .ok (storeObjs, count) =>
      match r.convertRows storeObjs [] with
      | .error err => .error err
      | .ok outs => .ok (outs, count)

/-- Go `Handler.List`: `offset` and `limit` are the raw query parameters,
`getList` is the `GetList` of the resource; the result is the entity written to the
response, a `Status` on failure. -/
def Handler.List {α : Type} (getList : apis.ListOptions → Except GoError (List α × Int))
    (offset limit selector : String) : Except apis.Status (apis.ObjectList α) :=
  match (if offset = "" then .ok 0 else Atoi offset) with
  | .error err => .error (Handler.Error err)
  | .ok offsetVal =>
    match (if limit = "" then .ok 10 else Atoi limit) with
    | .error err => .error (Handler.Error err)
    | .ok limitVal =>
      match getList { Offset := offsetVal, Limit := limitVal, Selector := selector } with
      | .error err => .error (Handler.Error err)
      | .ok (objs, cnt) =>
        .ok { Count := cnt, Items := objs,
              Continue := decide (wrap64 (offsetVal + limitVal) < cnt) }

end rest

/-! ## util: string fields of a storage model -/

/-- A storage model `GormModelT`: the string held by the field tagged with each
column name. The zero value holds the empty string everywhere. -/
abbrev Model := String → String

namespace util

/-- Go `util.GetStringField`; the field at the stored offset is named by its column. -/
def GetStringField (structptr : Model) (column : String) : String :=
  structptr column

/-- Go `util.SetStringField`; the field at the stored offset is named by its column. -/
def SetStringField (structptr : Model) (column val : String) : Model :=
  fun c => if c = column then val else structptr c

end util

/-! ## watch: events and the publisher -/

namespace watch

abbrev EventType := String

def EventTypeCreated : EventType := "Created"

def EventTypeUpdated : EventType := "Updated"

def EventTypeDeleted : EventType := "Deleted"

def EventTypeGeneric : EventType := "Generic"

def EventTypeError : EventType := "Error"

/-- Go `watch.Event[T]` as carried by the bus. -/
structure Event where
  Typ : EventType
  Obj : Model

/-- Go `watch.EventPublisher[T]`: `Publish` answers nil or an error; an event
reaches the bus only when the answer is nil. -/
structure EventPublisher where
  Publish : EventType → Model → Option GoError

/-- One call of `Publish`: the error returned and the events put on the bus. -/
def EventPublisher.run (p : EventPublisher) (eventType : EventType) (obj : Model) :
    Option GoError × List Event :=
  match p.Publish eventType obj with
  | some err => (some err, [])
  | none => (none, [{ Typ := eventType, Obj := obj }])

end watch

/-! ## storage/gorm: the DAO and the store -/

namespace gorm

/-- Go `gen.ResultInfo`. -/
structure ResultInfo where
  RowsAffected : Int
deriving DecidableEq, Repr

/-- The calls the store makes on a `Dao`, over a database state `σ`. A value
stands for a generated DO that implements both gen interfaces and whose field
getter knows the columns, so `NewDao` and `prepareGenDao` succeed. `conds` is
the `equalInput` built with `WithEqual` (a conjunction of `column = value`),
`columns` the argument of `Select` (no `Select` clause when empty) or of
`Returning`. -/
structure Dao (σ : Type) where
  First : List (String × String) → σ → Except GoError Model
  Create : Model → σ → Except GoError σ
  Updates : List (String × String) → List String → Model → σ → Except GoError (ResultInfo × σ)
  Delete : List (String × String) → List String → Model → σ →
    Except GoError (ResultInfo × Model × σ)

/-- Go `gorm.store`: the fields the CRUD operations read. -/
structure store (σ : Type) where
  dao : Dao σ
  typeName : String
  columns : List String
  keyFieldName : String
  rvFieldName : String
  pubwatcher : watch.EventPublisher
  onUpdate : List (Model → Model → Model × Model)
  onCreate : List (Model → Model)

/-- What a mutating store call leaves behind: the returned error, the caller
object after the call, the database state left by the statements of the call,
and the events put on the bus. -/
structure Outcome (σ : Type) where
  err : Option GoError
  obj : Model
  db : σ
  events : List watch.Event

/-- Go `store.Get`. -/
def store.Get {σ : Type} (s : store σ) (key : String) (db : σ) : Except GoError Model :=
  match s.dao.First [(s.keyFieldName, key)] db with
  | .error err =>
    if err = .recordNotFound then .error (.storageStatus (storage.NewNotFoundError s.typeName key))
    else .error err
  | .ok obj => .ok obj

/-- Go `store.Create`; the first component is the returned `out` (`none` for nil). -/
def store.Create {σ : Type} (s : store σ) (obj : Model) (db : σ) : Option Model × Outcome σ :=
  let obj1 := s.onCreate.foldl (fun o handler => handler o) obj
  let obj2 := if s.rvFieldName ≠ "" then util.SetStringField obj1 s.rvFieldName "1" else obj1
  match s.dao.Create obj2 db with
  | .error err =>
    match err with
    | .mysql 1062 _ =>
      (none, { err := some (.storageStatus (storage.NewAlreadyExistError s.typeName
                  (util.GetStringField obj2 s.keyFieldName))),
               obj := obj2, db := db, events := [] })
    | _ => (none, { err := some err, obj := obj2, db := db, events := [] })
  | .ok db1 =>
    let pub := s.pubwatcher.run watch.EventTypeCreated obj2
    (some obj2, { err := pub.1, obj := obj2, db := db1, events := pub.2 })

/-- The revision `modify` reads from the object (`rvInReq`): the revision
field when the store has a revision column, empty otherwise. -/
def store.rvInReq {σ : Type} (s : store σ) (obj : Model) : String :=
  if s.rvFieldName ≠ "" then util.GetStringField obj s.rvFieldName else ""

/-- The conditions of the DAO `modify` hands to `opFn`: the key, and the
requested revision when there is one. -/
def store.modifyDao {σ : Type} (s : store σ) (key : String) (obj : Model) :
    List (String × String) :=
  if s.rvFieldName ≠ "" ∧ s.rvInReq obj ≠ "" then
    [(s.keyFieldName, key)] ++ [(s.rvFieldName, s.rvInReq obj)]
  else [(s.keyFieldName, key)]

/-- Go `store.modify`; `opFn` also yields the object as it left it and the
database state after its statement. -/
def store.modify {σ : Type} (s : store σ) (key : String) (obj : Model) (db : σ)
    (opFn : List (String × String) → Model → σ → Except GoError ResultInfo × Model × σ) :
    Option GoError × Model × σ :=
  let origDao := [(s.keyFieldName, key)]
  let rvInReq := s.rvInReq obj
  match opFn (s.modifyDao key obj) obj db with
  | (.error err, obj1, db1) => (some err, obj1, db1)
  | (.ok result, obj1, db1) =>
    if result.RowsAffected ≠ 1 then
      match s.dao.First origDao db1 with
      | .error err =>
        if err = .recordNotFound then
          (some (.storageStatus (storage.NewNotFoundError s.typeName key)), obj1, db1)
        else (some err, obj1, db1)
      | .ok oldObj =>
        if rvInReq ≠ "" ∧ util.GetStringField oldObj s.rvFieldName ≠ rvInReq then
          (some (.storageStatus storage.NewConcurrentConclictError), obj1, db1)
        else (none, obj1, db1)
    else (none, obj1, db1)

/-- The closure `store.Update` hands to `modify`. -/
def store.updateOpFn {σ : Type} (s : store σ) (dao : List (String × String)) (obj : Model)
    (db : σ) : Except GoError ResultInfo × Model × σ :=
  let rv := if s.rvFieldName ≠ "" then util.GetStringField obj s.rvFieldName else ""
  if s.rvFieldName ≠ "" ∧ rv ≠ "" then
    match Atoi rv with
    | .error _ => (.error (.other "the revision must be number"), obj, db)
    | .ok i =>
      let resourceVersion := Itoa (wrap64 (i + 1))
      let obj1 := util.SetStringField obj s.rvFieldName resourceVersion
      match s.dao.Updates dao s.columns obj1 db with
      | .error err => (.error err, obj1, db)
      | .ok (result, db1) => (.ok result, obj1, db1)
  else
    match s.dao.Updates dao (s.columns.filter (fun col => col ≠ s.rvFieldName)) obj db with
    | .error err => (.error err, obj, db)
    | .ok (result, db1) => (.ok result, obj, db1)

/-- The `onUpdate` handlers, each called on the fetched row and the new object. -/
def store.runOnUpdate {σ : Type} (s : store σ) (oldObj obj : Model) : Model × Model :=
  s.onUpdate.foldl (fun p onUpdateHdl => onUpdateHdl p.1 p.2) (oldObj, obj)

/-- Go `store.Update`. -/
def store.Update {σ : Type} (s : store σ) (key : String) (obj : Model) (db : σ) : Outcome σ :=
  match s.dao.First [(s.keyFieldName, key)] db with
  | .error err => { err := some err, obj := obj, db := db, events := [] }
  | .ok oldObj =>
    let obj1 := (s.runOnUpdate oldObj obj).2
    match s.modify key obj1 db s.updateOpFn with
    | (some err, obj2, db1) => { err := some err, obj := obj2, db := db1, events := [] }
    | (none, obj2, db1) =>
      let pub := s.pubwatcher.run watch.EventTypeUpdated obj2
      { err := pub.1, obj := obj2, db := db1, events := pub.2 }

/-- The closure `store.Delete` hands to `modify`. -/
def store.deleteOpFn {σ : Type} (s : store σ) (dao : List (String × String)) (obj : Model)
    (db : σ) : Except GoError ResultInfo × Model × σ :=
  match s.dao.Delete dao s.columns obj db with
  | .error err => (.error err, obj, db)
  | .ok (result, obj1, db1) => (.ok result, obj1, db1)

/-- Go `store.Delete`; `obj` is `none` for a nil pointer. -/
def store.Delete {σ : Type} (s : store σ) (key : String) (obj : Option Model) (db : σ) :
    Outcome σ :=
  let obj0 : Model := match obj with
    | none => fun _ => ""
    | some o => o
  let obj1 := util.SetStringField obj0 s.keyFieldName key
  match s.modify key obj1 db s.deleteOpFn with
  | (some err, obj2, db1) => { err := some err, obj := obj2, db := db1, events := [] }
  | (none, obj2, db1) =>
    let pub := s.pubwatcher.run watch.EventTypeDeleted obj2
    { err := pub.1, obj := obj2, db := db1, events := pub.2 }

/-! ### An in-memory MySQL table behind the DAO -/

/-- Whether a row satisfies every `column = value` condition. -/
def matchesConds (conds : List (String × String)) (row : Model) : Bool :=
  conds.all (fun cv => row cv.1 == cv.2)

/-- A row after an UPDATE that assigns the columns `cols` from `obj`. -/
def assignColumns (cols : List String) (obj row : Model) : Model :=
  fun c => if c ∈ cols then obj c else row c

/-- Whether the key column holds pairwise distinct values (the unique index). -/
def uniqueKeys (keyColumn : String) (tbl : List Model) : Prop :=
  (tbl.map (fun row => row keyColumn)).Nodup

instance (keyColumn : String) (tbl : List Model) : Decidable (uniqueKeys keyColumn tbl) := by
  unfold uniqueKeys
  infer_instance

/-- A table of rows with a unique index on `keyColumn`, driven through the DAO
calls the way gorm drives MySQL: `First` answers `ErrRecordNotFound` when no
row matches; `Create` answers error 1062 on a duplicate key; `Updates` with
no `Select` clause assigns the non-zero fields (`fields` lists the columns of
the model), answers error 1062 when the assignment breaks the unique index and
reports as affected the rows it changed; `Delete` removes the matching rows
and, MySQL having no RETURNING clause, leaves the object as it was. -/
def memDao (keyColumn : String) (fields : List String) : Dao (List Model) where
  First conds tbl :=
    match tbl.find? (matchesConds conds) with
    | some row => .ok row
    | none => .error .recordNotFound
  Create obj tbl :=
    if tbl.any (fun row => row keyColumn == obj keyColumn) then
      .error (.mysql 1062 ("Duplicate entry " ++ obj keyColumn))
    else .ok (tbl ++ [obj])
  Updates conds columns obj tbl :=
    let cols := if columns = [] then fields.filter (fun c => obj c ≠ "") else columns
    let tbl1 := tbl.map (fun row => if matchesConds conds row then assignColumns cols obj row else row)
    if uniqueKeys keyColumn tbl1 then
      .ok ({ RowsAffected := Int.ofNat (tbl.countP (fun row =>
              matchesConds conds row && cols.any (fun c => obj c != row c))) }, tbl1)
    else .error (.mysql 1062 ("Duplicate entry " ++ obj keyColumn))
  Delete conds _ obj tbl :=
    .ok ({ RowsAffected := Int.ofNat (tbl.countP (matchesConds conds)) }, obj,
         tbl.filter (fun row => !matchesConds conds row))

end gorm

end Gearbox

namespace Gearbox

/-! ## admission: handlers and the chain -/

namespace admission

abbrev Operation := String

def Create : Operation := "CREATE"

def Update : Operation := "UPDATE"

def Delete : Operation := "DELETE"

def Connect : Operation := "CONNECT"

/-- Go `admission.Attribute`. -/
structure Attribute where
  Object : apis.Object
  Operation : Operation
  ResourceName : String
deriving DecidableEq, Repr

def Attribute.GetObject (a : Attribute) : apis.Object := a.Object

def Attribute.GetOperation (a : Attribute) : admission.Operation := a.Operation

def Attribute.GetResource (a : Attribute) : String := a.ResourceName

/-- A value of `admission.Interface`. `Admit` is `some` when the dynamic type of
the handler implements `MutationInterface`, `Validate` is `some` when it
implements `ValidationInterface`. A call is handed the attributes and answers
its error together with the object as the call left it (the attributes hold a
pointer to the object). -/
structure Handler where
  Handles : Operation → Bool
  Admit : Option (Attribute → Option GoError × apis.Object)
  Validate : Option (Attribute → Option GoError × apis.Object)

/-- A call made on a handler of the chain, named by the position of the handler. -/
inductive Call where
  | Validate (position : Nat)
  | Admit (position : Nat)
deriving DecidableEq, Repr

/-- What a run over the chain leaves: the returned error, the object after the
calls, and the calls made, in order. -/
structure Outcome where
  err : Option GoError
  Object : apis.Object
  calls : List Call
deriving DecidableEq, Repr

/-- Go `chainAdmissionHandler`. -/
abbrev chainAdmissionHandler := List Handler

/-- The `range` loop of `chainAdmissionHandler.Admit`, from the handler at
`position` on. -/
def chainAdmissionHandler.AdmitRange (position : Nat) :
    chainAdmissionHandler → Attribute → Outcome
  | [], a => { err := none, Object := a.Object, calls := [] }
  | handler :: more, a =>
    if !handler.Handles a.GetOperation then
      chainAdmissionHandler.AdmitRange (position + 1) more a
    else
      match handler.Admit with
      | some mutator =>
        match mutator a with
        | (some err, obj) => { err := some err, Object := obj, calls := [Call.Admit position] }
        | (none, obj) =>
          let r := chainAdmissionHandler.AdmitRange (position + 1) more { a with Object := obj }
          { r with calls := Call.Admit position :: r.calls }
      | none => chainAdmissionHandler.AdmitRange (position + 1) more a

/-- Go `chainAdmissionHandler.Admit`. -/
def chainAdmissionHandler.Admit (admissionHandler : chainAdmissionHandler) (a : Attribute) :
    Outcome :=
  chainAdmissionHandler.AdmitRange 0 admissionHandler a

/-- The `range` loop of `chainAdmissionHandler.Validate`, from the handler at
`position` on. -/
def chainAdmissionHandler.ValidateRange (position : Nat) :
    chainAdmissionHandler → Attribute → Outcome
  | [], a => { err := none, Object := a.Object, calls := [] }
  | handler :: more, a =>
    if !handler.Handles a.GetOperation then
      chainAdmissionHandler.ValidateRange (position + 1) more a
    else
      match handler.Validate with
      | some validator =>
        match validator a with
        | (some err, obj) => { err := some err, Object := obj, calls := [Call.Validate position] }
        | (none, obj) =>
          let r := chainAdmissionHandler.ValidateRange (position + 1) more { a with Object := obj }
          { r with calls := Call.Validate position :: r.calls }
      | none => chainAdmissionHandler.ValidateRange (position + 1) more a

/-- Go `chainAdmissionHandler.Validate`. -/
def chainAdmissionHandler.Validate (admissionHandler : chainAdmissionHandler) (a : Attribute) :
    Outcome :=
  chainAdmissionHandler.ValidateRange 0 admissionHandler a

/-- Go `chainAdmissionHandler.Handles`. -/
def chainAdmissionHandler.Handles (admissionHandler : chainAdmissionHandler)
    (operation : Operation) : Bool :=
  match admissionHandler with
  | [] => false
  | handler :: more =>
    if handler.Handles operation then true
    else chainAdmissionHandler.Handles more operation

/-! ### The chain as the specification words it -/

/-- The handlers that both report `Handles(operation)` and implement the
capability picked by `pick`, with their positions, in chain order. -/
def applicable (pick : Handler → Option (Attribute → Option GoError × apis.Object))
    (operation : Operation) (position : Nat) :
    chainAdmissionHandler → List (Nat × (Attribute → Option GoError × apis.Object))
  | [] => []
  | handler :: more =>
    match (if handler.Handles operation then pick handler else none) with
    | some fn => (position, fn) :: applicable pick operation (position + 1) more
    | none => applicable pick operation (position + 1) more

/-- Invoke the given calls in order, stop at the first one that returns an
error and return that error; return nil when none fails. -/
def invokeUntilError (mk : Nat → Call) :
    List (Nat × (Attribute → Option GoError × apis.Object)) → Attribute → Outcome
  | [], a => { err := none, Object := a.Object, calls := [] }
  | (position, fn) :: more, a =>
    match fn a with
    | (some err, obj) => { err := some err, Object := obj, calls := [mk position] }
    | (none, obj) =>
      let r := invokeUntilError mk more { a with Object := obj }
      { r with calls := mk position :: r.calls }

end admission

/-! ## rest: admission dispatch and Create -/

namespace rest

/-- Go `RestAPI.doAdmit`; `admits` is the chain `NewRestAPI` builds from the
handlers it is given, which is never nil and implements both capabilities. -/
def doAdmit (admits : admission.chainAdmissionHandler) (resourceName : String)
    (operation : admission.Operation) (obj : apis.Object) : admission.Outcome :=
  let attrs : admission.Attribute :=
    { Object := obj, Operation := operation, ResourceName := resourceName }
  if admits.Handles operation then
    let validation := admits.Validate attrs
    match validation.err with
    | some err => { err := some err, Object := validation.Object, calls := validation.calls }
    | none =>
      let mutation := admits.Admit { attrs with Object := validation.Object }
      { err := mutation.err, Object := mutation.Object,
        calls := validation.calls ++ mutation.calls }
  else { err := none, Object := obj, calls := [] }

/-- The dispatch as the specification words it, validate-all then mutate-all:
run the applicable validators in chain order until one fails; if one fails,
return its error and run no mutator; otherwise run the applicable mutators in
chain order, on the object the validators left, until one fails. -/
def validateAllThenMutateAll (admits : admission.chainAdmissionHandler) (resourceName : String)
    (operation : admission.Operation) (obj : apis.Object) : admission.Outcome :=
  let attrs : admission.Attribute :=
    { Object := obj, Operation := operation, ResourceName := resourceName }
  let validation := admission.invokeUntilError admission.Call.Validate
    (admission.applicable (fun h => h.Validate) operation 0 admits) attrs
  match validation.err with
  | some err => { err := some err, Object := validation.Object, calls := validation.calls }
  | none =>
    let mutation := admission.invokeUntilError admission.Call.Admit
      (admission.applicable (fun h => h.Admit) operation 0 admits)
      { attrs with Object := validation.Object }
    { err := mutation.err, Object := mutation.Object,
      calls := validation.calls ++ mutation.calls }

/-- A call `RestAPI.Create` makes on one of its collaborators. -/
inductive Call where
  | admission (c : admission.Call)
  | ToStorage
  | storeCreate
  | FromStorage
  | ObjectKind
deriving DecidableEq, Repr

/-- The part of a `RestAPI` that `Create` uses: the admission chain, the
converter, the `Create` of the store over a database state `σ` (which answers
an error or the stored object), the scheme and the resource name. -/
structure RestAPICreate (ST σ : Type) where
  scheme : apis.Scheme
  resourceName : String
  admits : admission.chainAdmissionHandler
  ToStorage : apis.Object → Except GoError ST
  FromStorage : ST → apis.Object → Except GoError apis.Object
  storeCreate : ST → σ → Except GoError ST × σ

/-- What `RestAPI.Create` leaves: the returned object (`none` for nil), the
returned error, the database state and the calls made on the collaborators. -/
structure CreateOutcome (σ : Type) where
  out : Option apis.Object
  err : Option GoError
  db : σ
  calls : List Call

/-- Go `RestAPI.Create`. -/
def RestAPICreate.Create {ST σ : Type} (r : RestAPICreate ST σ) (obj : apis.Object) (db : σ) :
    CreateOutcome σ :=
  if obj.GetKey = "" then
    { out := none, err := some (.apiStatus (errors.NewBadRequest "the key can\x27t be empty")),
      db := db, calls := [] }
  else
    let adm := doAdmit r.admits r.resourceName admission.Create obj
    let calls1 := adm.calls.map Call.admission
    match adm.err with
    | some err => { out := none, err := some err, db := db, calls := calls1 }
    | none =>
      match r.ToStorage adm.Object with
      | .error err => { out := none, err := some err, db := db, calls := calls1 ++ [Call.ToStorage] }
      | .ok storeObj =>
        match r.storeCreate storeObj db with
        | (.error err, db1) =>
          { out := none, err := convertStorageError r.scheme (some err) adm.Object, db := db1,
            calls := calls1 ++ [Call.ToStorage, Call.storeCreate, Call.ObjectKind] }
        | (.ok newStoreObj, db1) =>
          match r.FromStorage newStoreObj adm.Object with
          | .error err =>
            { out := none, err := some err, db := db1,
              calls := calls1 ++ [Call.ToStorage, Call.storeCreate, Call.FromStorage] }
          | .ok obj1 =>
            match r.scheme.ObjectKind obj1 with
            | .error err =>
              { out := none, err := some err, db := db1,
                calls := calls1 ++ [Call.ToStorage, Call.storeCreate, Call.FromStorage,
                  Call.ObjectKind] }
            | .ok kind =>
              { out := some (obj1.SetKind kind), err := none, db := db1,
                calls := calls1 ++ [Call.ToStorage, Call.storeCreate, Call.FromStorage,
                  Call.ObjectKind] }

end rest

end Gearbox

namespace Gearbox

/-! ## reconcile -/

namespace reconcile

/-- Go `reconcile.Result`; `RequeueAfter` is a `time.Duration`, a signed 64-bit
count of nanoseconds. -/
structure Result where
  Requeue : Bool := false
  RequeueAfter : Int := 0
deriving DecidableEq, Repr

/-- Go `reconcile.Request`. -/
structure Request where
  Kind : String := ""
  Key : String := ""
deriving DecidableEq, Repr

end reconcile

/-! ## rest: watch events -/

/-- Go `rest.Event` as the REST channel sends it: the object is never nil. -/
structure rest.Event where
  Typ : watch.EventType
  Obj : apis.Object
deriving DecidableEq, Repr

/-! ## controller: the reconcile loop -/

namespace controller

/-- How a Go call ends: it returns a value, or it panics with a value of `ρ`. -/
inductive Ret (ρ α : Type) where
  | ret (a : α)
  | panic (r : ρ)
deriving DecidableEq, Repr

/-- An item taken off the work queue (`interface{}`): a `reconcile.Request`,
or a value of another type. -/
inductive Item where
  | request (req : reconcile.Request)
  | other (tag : String)
deriving DecidableEq, Repr

/-- A call made on the rate limited queue. -/
inductive QueueCall where
  | Add (item : Item)
  | Forget (item : Item)
  | AddRateLimited (item : Item)
  | AddAfter (item : Item) (duration : Int)
  | Done (item : Item)
deriving DecidableEq, Repr

/-- Go `controller.controller`: the reconciler `Do` and the `RecoverPanic`
pointer (`none` for nil). -/
structure controller (ρ : Type) where
  Do : reconcile.Request → Ret ρ (reconcile.Result × Option GoError)
  RecoverPanic : Option Bool

/-- Go `controller.Reconcile`; `fmtV` renders a panic value the way the verb
`%v` does. The deferred function leaves the result at its zero value when it
turns a panic into an error. -/
def controller.Reconcile {ρ : Type} (fmtV : ρ → String) (ctl : controller ρ)
    (req : reconcile.Request) : Ret ρ (reconcile.Result × Option GoError) :=
  match ctl.Do req with
  | .ret out => .ret out
  | .panic r =>
    if ctl.RecoverPanic = some true then
      .ret ({}, some (.other ("panic: " ++ fmtV r ++ " [recovered]")))
    else .panic r

/-- Go `controller.reconcileHandler`: the calls made on the queue, or the panic
that escapes. -/
def controller.reconcileHandler {ρ : Type} (fmtV : ρ → String) (ctl : controller ρ)
    (obj : Item) : Ret ρ (List QueueCall) :=
  match obj with
  | .other tag => .ret [QueueCall.Forget (.other tag)]
  | .request req =>
    match ctl.Reconcile fmtV req with
    | .panic r => .panic r
    | .ret (result, err) =>
      if err ≠ none then .ret [QueueCall.AddRateLimited (.request req)]
      else if result.RequeueAfter > 0 then
        .ret [QueueCall.Forget obj, QueueCall.AddAfter (.request req) result.RequeueAfter]
      else if result.Requeue then .ret [QueueCall.AddRateLimited (.request req)]
      else .ret [QueueCall.Forget obj]

/-! ## controller: events, predicates and sources -/

/-- Go `controller.CreateEvent`; the object is `none` for a nil interface. -/
structure CreateEvent where
  Object : Option apis.Object := none
deriving DecidableEq, Repr

/-- Go `controller.UpdateEvent`. -/
structure UpdateEvent where
  ObjectNew : Option apis.Object := none
deriving DecidableEq, Repr

/-- Go `controller.DeleteEvent`. -/
structure DeleteEvent where
  Object : Option apis.Object := none
  DeleteStateUnknown : Bool := false
deriving DecidableEq, Repr

/-- Go `controller.GenericEvent`. -/
structure GenericEvent where
  Object : Option apis.Object := none
deriving DecidableEq, Repr

/-- A value of the interface `controller.Predicate`. -/
structure Predicate where
  Create : CreateEvent → Bool
  Delete : DeleteEvent → Bool
  Update : UpdateEvent → Bool
  Generic : GenericEvent → Bool

/-- A call made on the `EventHandler`. -/
inductive HandlerCall where
  | Create (e : CreateEvent)
  | Update (e : UpdateEvent)
  | Delete (e : DeleteEvent)
  | Generic (e : GenericEvent)
deriving DecidableEq, Repr

/-- The loop over the predicates in `source.Start`: `false` when a predicate
answers false and the loop leaves through `continue MAIN_LOOP`, `true` when the
loop runs to its end. -/
def source.predicatesPass {ε : Type} (method : Predicate → ε → Bool) :
    List Predicate → ε → Bool
  | [], _ => true
  | predicate :: more, evt =>
    if !method predicate evt then false
    else source.predicatesPass method more evt

/-- One round of the loop of `source.Start` on a received event: the calls made
on the event handler. -/
def source.handle (predicates : List Predicate) (evt : rest.Event) : List HandlerCall :=
  if evt.Obj.GetKey = "" then []
  else if evt.Typ = watch.EventTypeCreated then
    if source.predicatesPass (fun p => p.Create) predicates { Object := some evt.Obj } then
      [HandlerCall.Create { Object := some evt.Obj }]
    else []
  else if evt.Typ = watch.EventTypeUpdated then
    if source.predicatesPass (fun p => p.Update) predicates { ObjectNew := some evt.Obj } then
      [HandlerCall.Update { ObjectNew := some evt.Obj }]
    else []
  else if evt.Typ = watch.EventTypeDeleted then
    if source.predicatesPass (fun p => p.Delete) predicates { Object := some evt.Obj } then
      [HandlerCall.Delete { Object := some evt.Obj }]
    else []
  else []

/-- The loop of `source.Start` over the events received until the context is
done. -/
def source.run (predicates : List Predicate) (events : List rest.Event) : List HandlerCall :=
  events.flatMap (source.handle predicates)

/-- The loop over the predicates in `TimerSource.Start`: its `continue` carries
no label, so it only moves on to the next predicate. -/
def TimerSource.predicateLoop : List Predicate → GenericEvent → Unit
  | [], _ => ()
  | predicate :: more, evt =>
    if !predicate.Generic evt then TimerSource.predicateLoop more evt
    else TimerSource.predicateLoop more evt

/-- One tick of `TimerSource.Start`: the calls made on the event handler. -/
def TimerSource.tick (predicates : List Predicate) : List HandlerCall :=
  let evt : GenericEvent := {}
  match TimerSource.predicateLoop predicates evt with
  | () => [HandlerCall.Generic evt]

end controller

/-! ## strconv.ParseBool and the selector of the gorm store -/

/-- Go `strconv.ParseBool`. -/
def ParseBool (str : String) : Except GoError Bool :=
  if str = "1" ∨ str = "t" ∨ str = "T" ∨ str = "TRUE" ∨ str = "true" ∨ str = "True" then .ok true
  else if str = "0" ∨ str = "f" ∨ str = "F" ∨ str = "FALSE" ∨ str = "false" ∨ str = "False" then
    .ok false
  else .error (.other ("strconv.ParseBool: parsing " ++ Quote str ++ ": invalid syntax"))

/-- The comparison the specification words for boolean literals: the two texts
are equal once every ASCII letter is lowered. -/
def equalsIgnoreCase (s t : String) : Bool :=
  s.toList.map Char.toLower == t.toList.map Char.toLower

/-- Wrap an integer into the signed range of `bits` bits, as the Go conversion
to a narrower integer type does. -/
def wrapBits (bits : Nat) (i : Int) : Int :=
  (i + 2 ^ (bits - 1)) % 2 ^ bits - 2 ^ (bits - 1)

namespace selector

abbrev Operator := String

def DoesNotExist : Operator := "!"

def Equals : Operator := "="

def DoubleEquals : Operator := "=="

def In : Operator := "in"

def NotEquals : Operator := "!="

def NotIn : Operator := "notin"

def Exists : Operator := "exists"

def GreaterThan : Operator := "gt"

def LessThan : Operator := "lt"

/-- A `labels.Requirement`: key, operator and the values as the sorted list its
set yields. -/
structure Requirement where
  key : String
  operator : Operator
  strValues : List String
deriving DecidableEq, Repr

def Requirement.Key (r : Requirement) : String := r.key

def Requirement.Operator (r : Requirement) : selector.Operator := r.operator

/-- The list `Values().List()` yields. -/
def Requirement.Values (r : Requirement) : List String := r.strValues

/-- The value `Values().PopAny()` yields: some element of the set, the only one
for a requirement that holds a single value. -/
def Requirement.PopAny (r : Requirement) : Option String := r.strValues.head?

/-- The text `String()` yields for a requirement. -/
def Requirement.String (r : Requirement) : String :=
  let head := if r.operator = DoesNotExist then "!" ++ r.key else r.key
  let opText :=
    if r.operator = Equals then "="
    else if r.operator = DoubleEquals then "=="
    else if r.operator = NotEquals then "!="
    else if r.operator = In then " in "
    else if r.operator = NotIn then " notin "
    else if r.operator = GreaterThan then ">"
    else if r.operator = LessThan then "<"
    else ""
  if r.operator = Exists ∨ r.operator = DoesNotExist then head
  else
    let vals := ",".intercalate r.strValues
    if r.operator = In ∨ r.operator = NotIn then head ++ opText ++ "(" ++ vals ++ ")"
    else head ++ opText ++ vals

end selector

namespace gorm

/-- The dynamic type of a `field.OrderExpr` the field getter answers. -/
inductive FieldType where
  | String
  | Int
  | Int8
  | Int16
  | Int32
  | Int64
  | Bool
  | Float32
  | Float64
  | Time
  | Other
deriving DecidableEq, Repr

/-- A `field.Expr` built by one of the methods of a typed gen field on the
column it stands for. -/
inductive Expr (T : Type) where
  | Eq (column : String) (value : T)
  | Neq (column : String) (value : T)
  | In (column : String) (values : List T)
  | NotIn (column : String) (values : List T)
  | Gt (column : String) (value : T)
  | Lt (column : String) (value : T)
  | Is (column : String) (value : T)
deriving DecidableEq, Repr

/-- Go `atoi[T]` for the integer type of `bits` bits: `strconv.Atoi`, then the
conversion `T(v)`. -/
def atoi (bits : Nat) (s : String) : Except GoError Int :=
  match Atoi s with
  | .error err => .error err
  | .ok v => .ok (wrapBits bits v)

/-- The loop of `generateExprByField` that converts the values of an `in` or
`notin` requirement. -/
def convertValues {T : Type} (fromString : String → Except GoError T) :
    List String → Except GoError (List T)
  | [] => .ok []
  | value :: more =>
    match fromString value with
    | .error err => .error err
    | .ok v =>
      match convertValues fromString more with
      | .error err => .error err
      | .ok vs => .ok (v :: vs)

/-- Go `generateExprByField[T]` on the field of `column`. `isField` tells
whether the field implements `Field[T]`, `isBoolField` whether it implements
`BoolField`, and `tIsBool` whether `T` is `bool` (so that `Is` has the type
`func(T) field.Expr`). -/
def generateExprByField {T : Type} (requirement : selector.Requirement) (column : String)
    (isField isBoolField tIsBool : Bool) (fromString : String → Except GoError T) :
    Except GoError (Expr T) :=
  let fnmap : List selector.Operator :=
    if isBoolField then [selector.Equals]
    else if isField then
      [selector.Equals, selector.DoubleEquals, selector.In, selector.NotEquals, selector.NotIn,
        selector.GreaterThan, selector.LessThan]
    else []
  let op := requirement.Operator
  if op ∉ fnmap then
    .error (.other ("the underlying storage don\x27t support operator \x27" ++ op
      ++ "\x27 for \x27" ++ requirement.Key ++ "\x27"))
  else if op = selector.Equals ∨ op = selector.DoubleEquals ∨ op = selector.NotEquals
      ∨ op = selector.LessThan ∨ op = selector.GreaterThan then
    if isBoolField ∧ ¬ tIsBool then
      .error (.other ("invalid function for \x27" ++ op ++ "\x27"))
    else
      match requirement.PopAny with
      | none => .error (.other ("the value can\x27t be empty for operator \x27" ++ op ++ "\x27"))
      | some value =>
        match fromString value with
        | .error err => .error err
        | .ok v =>
          if isBoolField then .ok (Expr.Is column v)
          else if op = selector.NotEquals then .ok (Expr.Neq column v)
          else if op = selector.LessThan then .ok (Expr.Lt column v)
          else if op = selector.GreaterThan then .ok (Expr.Gt column v)
          else .ok (Expr.Eq column v)
  else if op = selector.In ∨ op = selector.NotIn then
    match convertValues fromString requirement.Values with
    | .error err => .error err
    | .ok result =>
      if op = selector.In then .ok (Expr.In column result) else .ok (Expr.NotIn column result)
  else if op = selector.Exists ∨ op = selector.DoesNotExist then .error (.other "")
  else .error (.other ("unknown operator \x27" ++ op ++ "\x27"))

/-- A condition `generateExpr` answers, by the type of its field. The float and
time types are `φ` and `τ`. -/
inductive Condition (φ τ : Type) where
  | string (e : Expr String)
  | int (bits : Nat) (e : Expr Int)
  | bool (e : Expr Bool)
  | float (bits : Nat) (e : Expr φ)
  | time (e : Expr τ)
deriving DecidableEq, Repr

/-- Go `gorm.Selector`: the field getter (by column name), the injected time
parser, and `strconv.ParseFloat` by bit size, which is taken as given. -/
structure Selector (φ τ : Type) where
  fieldGetter : String → Option FieldType
  parseToTime : String → Except GoError τ
  ParseFloat : String → Nat → Except GoError φ

/-- Go `Selector.generateExpr`. Among the gen field types only `field.Bool`
implements `BoolField`, and every other listed type implements `Field[T]` for
its own value type. -/
def Selector.generateExpr {φ τ : Type} (s : Selector φ τ) (requirement : selector.Requirement) :
    Except GoError (Condition φ τ) :=
  let fieldName := requirement.Key
  match s.fieldGetter fieldName with
  | none => .error (.other ("no such field \x27" ++ fieldName ++ "\x27"))
  | some targetField =>
    match targetField with
    | .String =>
      (generateExprByField requirement fieldName true false false
        (fun input => (.ok input : Except GoError String))).map Condition.string
    | .Int => (generateExprByField requirement fieldName true false false (atoi 64)).map
        (Condition.int 64)
    | .Int8 => (generateExprByField requirement fieldName true false false (atoi 8)).map
        (Condition.int 8)
    | .Int16 => (generateExprByField requirement fieldName true false false (atoi 16)).map
        (Condition.int 16)
    | .Int32 => (generateExprByField requirement fieldName true false false (atoi 32)).map
        (Condition.int 32)
    | .Int64 => (generateExprByField requirement fieldName true false false (atoi 64)).map
        (Condition.int 64)
    | .Bool => (generateExprByField requirement fieldName false true true ParseBool).map
        Condition.bool
    | .Float32 =>
      (generateExprByField requirement fieldName true false false
        (fun str => s.ParseFloat str 32)).map (Condition.float 32)
    | .Float64 =>
      (generateExprByField requirement fieldName true false false
        (fun str => s.ParseFloat str 64)).map (Condition.float 64)
    | .Time => (generateExprByField requirement fieldName true false false s.parseToTime).map
        Condition.time
    | .Other =>
      .error (.other ("don\x27t known how to apply the selector \x27" ++ requirement.String
        ++ "\x27 to the underlying storage"))

/-- Go `Selector.GenerateConditions`. -/
def Selector.GenerateConditions {φ τ : Type} (s : Selector φ τ) :
    List selector.Requirement → Except GoError (List (Condition φ τ))
  | [] => .ok []
  | requirement :: more =>
    match s.generateExpr requirement with
    | .error err => .error err
    | .ok expr =>
      match s.GenerateConditions more with
      | .error err => .error err
      | .ok conditions => .ok (expr :: conditions)

end gorm

end Gearbox

namespace Gearbox

/-! ## apis: registering types in the Scheme -/

namespace apis

/-- The `reflect.TypeOf` of a value handed to `AddKnownTypes`: a pointer whose
element type is `elem`, or a type that is not a pointer. -/
inductive KnownType where
  | pointer (elem : RType)
  | value (rtype : RType)
deriving DecidableEq, Repr

/-- The type a value stands for once a pointer is dereferenced. -/
def KnownType.elem : KnownType → RType
  | .pointer elem => elem
  | .value rtype => rtype

/-- Go `apis.NewScheme`. -/
def NewScheme : Scheme := { typeToKind := [], KindToType := [] }

/-- Go `(*Scheme).AddKnownTypes`: the returned error and the scheme the call
leaves. An assignment to a map puts the binding in front, where `List.lookup`
finds it first. -/
def Scheme.AddKnownTypes (s : Scheme) : List KnownType → Option GoError × Scheme
  | [] => (none, s)
  | t :: more =>
    match t with
    | .value _ => (some (.other "all types must be pointer"), s)
    | .pointer rt =>
      match s.KindToType.lookup rt.Name with
      | some _ => (some (.other ("type " ++ Quote rt.Name ++ " already added")), s)
      | none =>
        Scheme.AddKnownTypes
          { KindToType := (rt.Name, rt) :: s.KindToType
            typeToKind := (rt, rt.Name) :: s.typeToKind } more

/-- The schemes a program can hold: the one `NewScheme` makes, and the one any
call of `AddKnownTypes` leaves, whether it returns an error or not. -/
inductive Scheme.Reachable : Scheme → Prop
  | new : Scheme.Reachable NewScheme
  | add (s : Scheme) (types : List KnownType) :
      Scheme.Reachable s → Scheme.Reachable (s.AddKnownTypes types).2

/-- The two maps of a scheme agree: no kind name is bound twice, a type is
bound to a kind exactly when that kind is bound to the type, and the kind of a
type is its name. -/
structure Scheme.Consistent (s : Scheme) : Prop where
  once : (s.KindToType.map Prod.fst).Nodup
  inverse : ∀ rt kind, s.typeToKind.lookup rt = some kind ↔ s.KindToType.lookup kind = some rt
  named : ∀ rt kind, s.typeToKind.lookup rt = some kind → kind = rt.Name

end apis

/-! ## controller: PredicateFunc -/

namespace controller

/-- Go `controller.PredicateFunc`; a function field is `none` when it is nil. -/
structure PredicateFunc where
  CreateFunc : Option (CreateEvent → Bool) := none
  DeleteFunc : Option (DeleteEvent → Bool) := none
  UpdateFunc : Option (UpdateEvent → Bool) := none
  GenericFunc : Option (GenericEvent → Bool) := none

def PredicateFunc.Create (p : PredicateFunc) (evt : CreateEvent) : Bool :=
  match p.CreateFunc with
  | some fn => fn evt
  | none => false

def PredicateFunc.Delete (p : PredicateFunc) (evt : DeleteEvent) : Bool :=
  match p.DeleteFunc with
  | some fn => fn evt
  | none => false

def PredicateFunc.Update (p : PredicateFunc) (evt : UpdateEvent) : Bool :=
  match p.UpdateFunc with
  | some fn => fn evt
  | none => false

def PredicateFunc.Generic (p : PredicateFunc) (evt : GenericEvent) : Bool :=
  match p.GenericFunc with
  | some fn => fn evt
  | none => false

/-- A `PredicateFunc` as a value of the interface `Predicate`. -/
def PredicateFunc.toPredicate (p : PredicateFunc) : Predicate :=
  { Create := p.Create, Delete := p.Delete, Update := p.Update, Generic := p.Generic }

end controller

/-! ## watch: the typed channel -/

namespace watch

/-- A watermill `message.Message`: the payload and the metadata map. -/
structure Message where
  Payload : List UInt8
  Metadata : List (String × String)
deriving DecidableEq, Repr

/-- The value `msg.Metadata[key]`: the empty string when the key is absent. -/
def Message.Get (msg : Message) (key : String) : String :=
  match msg.Metadata.lookup key with
  | some value => value
  | none => ""

/-- Go `watch.Event[T]` as the typed channel sends it; `Obj` is `none` for a
nil pointer. -/
structure TypedEvent (T : Type) where
  Typ : EventType
  Obj : Option T
deriving DecidableEq, Repr

/-- What the goroutine of `ResultChan` does, in order: it sends an event on the
result channel, or it acknowledges the message. -/
inductive ChannelCall (T : Type) where
  | send (evt : TypedEvent T)
  | Ack
deriving DecidableEq, Repr

/-- One round of the loop of `channel.ResultChan` on a received message that is
not nil. `Unmarshal` is `json.Unmarshal(msg.Payload, &obj)` on a fresh `obj`:
the error and the object as the call left it. -/
def channel.handle {T : Type} (Unmarshal : List UInt8 → Option GoError × T) (msg : Message) :
    List (ChannelCall T) :=
  let decoded := Unmarshal msg.Payload
  let onError : List (ChannelCall T) :=
    if decoded.1 ≠ none then [ChannelCall.send { Typ := EventTypeError, Obj := none }] else []
  onError ++ [ChannelCall.send { Typ := msg.Get "Type", Obj := some decoded.2 }, ChannelCall.Ack]

/-- The loop of `channel.ResultChan` over the messages received; a nil message
ends the goroutine. -/
def channel.run {T : Type} (Unmarshal : List UInt8 → Option GoError × T) :
    List (Option Message) → List (ChannelCall T)
  | [] => []
  | none :: _ => []
  | some msg :: more => channel.handle Unmarshal msg ++ channel.run Unmarshal more

/-- The events among the calls of the channel, in the order they are sent. -/
def channel.events {T : Type} : List (ChannelCall T) → List (TypedEvent T)
  | [] => []
  | .send evt :: more => evt :: channel.events more
  | .Ack :: more => channel.events more

end watch

/-! ## task: the task hub -/

namespace task

abbrev TaskName := String

/-- Go `task.TaskConfig`. -/
structure TaskConfig where
  AckLate : Bool := false
deriving DecidableEq, Repr

/-- Go `task.TaskDescriber`; a call of `Func` on an input of type `ι` returns
an error (or nil) or panics with a value of `ρ`. -/
structure TaskDescriber (ρ ι : Type) where
  TaskName : TaskName
  Func : ι → controller.Ret ρ (Option GoError)
  Config : TaskConfig

/-- Go `task.EmitTaskRequest`. -/
structure EmitTaskRequest (ι : Type) where
  TaskName : TaskName
  Input : ι

/-- Go `task.taskhub`: the registry (a map read with `List.lookup`) and the
running flag. -/
structure taskhub (ρ ι : Type) where
  registry : List (TaskName × TaskDescriber ρ ι)
  running : Bool

/-- Go `taskhub.Register`: the returned name and error, and the hub after the
call. -/
def taskhub.Register {ρ ι : Type} (t : taskhub ρ ι) (desc : TaskDescriber ρ ι) :
    (TaskName × Option GoError) × taskhub ρ ι :=
  if t.running then
    (("", some (.other "the taskhub already running, register task is forbidden")), t)
  else
    match t.registry.lookup desc.TaskName with
    | some _ => (("", some (.other ("task " ++ Quote desc.TaskName ++ " duplicate"))), t)
    | none => ((desc.TaskName, none), { t with registry := (desc.TaskName, desc) :: t.registry })

/-- What a worker of `RunForever` does with a message, in order: it
acknowledges the message, it calls the task func, or the crash catcher hands a
recovered panic to the crash handlers. -/
inductive WorkerCall (ρ ι : Type) where
  | Ack
  | Func (input : ι)
  | Crash (r : ρ)
deriving DecidableEq, Repr

/-- One round of the worker loop of `taskhub.RunForever` on a received message.
`Scan` is `EmitTaskRequest.Scan` on the payload. The deferred calls run last
registered first, also when the task func panics: the late `Ack`, then the crash
catcher. -/
def taskhub.handleMessage {ρ ι : Type} (Scan : List UInt8 → Except GoError (EmitTaskRequest ι))
    (desc : TaskDescriber ρ ι) (payload : List UInt8) : List (WorkerCall ρ ι) :=
  match Scan payload with
  | .error _ => []
  | .ok req =>
    let early : List (WorkerCall ρ ι) := if !desc.Config.AckLate then [WorkerCall.Ack] else []
    let deferred : List (WorkerCall ρ ι) := if desc.Config.AckLate then [WorkerCall.Ack] else []
    match desc.Func req.Input with
    | .ret _ => early ++ [WorkerCall.Func req.Input] ++ deferred
    | .panic r => early ++ [WorkerCall.Func req.Input] ++ deferred ++ [WorkerCall.Crash r]

end task

end Gearbox

namespace Gearbox

/-! ## Sample values -/

namespace sample

/-- The bytes of the JSON object used in the extension test of the package. -/
def barFoo : List UInt8 := [123, 34, 98, 97, 114, 34, 58, 34, 102, 111, 111, 34, 125]

/-- An API type `Foo` of package `demo`. -/
def fooType : apis.RType := { PkgPath := "demo", Name := "Foo" }

/-- A scheme in which `Foo` is registered. -/
def fooScheme : apis.Scheme :=
  { typeToKind := [(fooType, "Foo")], KindToType := [("Foo", fooType)] }

/-- A scheme with no registered type. -/
def emptyScheme : apis.Scheme := { typeToKind := [], KindToType := [] }

/-- A `Foo` object with key `a`. -/
def fooObj : apis.Object := { rtype := fooType, ObjectMeta := { Key := "a" } }

/-- A `Foo` resource over a store that holds `rows` (their keys) and pages
them: the page is cut at the offset and limit it is given, the count is the
number of rows. -/
def pagedRest (rows : List String) : rest.RestAPI String Unit :=
  { scheme := fooScheme
    rtype := fooType
    Parse := fun _ => .ok []
    storeGetList := fun opts =>
      .ok ((rows.drop opts.Offset.toNat).take opts.Limit.toNat, Int.ofNat rows.length)
    FromStorage := fun row obj => .ok (obj.SetKey row) }

/-- A storage row with the columns `key`, `rv` and `data`. -/
def row (key rv data : String) : Model :=
  fun c => if c = "key" then key else if c = "rv" then rv else if c = "data" then data else ""

/-- A publisher that accepts every event. -/
def okPublisher : watch.EventPublisher := { Publish := fun _ _ => none }

/-- A store of `FooRow` over the in-memory table, keyed by `key`, with the
revision column `rv` and no handlers. -/
def fooStore : gorm.store (List Model) :=
  { dao := gorm.memDao "key" ["key", "rv", "data"]
    typeName := "FooRow"
    columns := ["key", "rv", "data"]
    keyFieldName := "key"
    rvFieldName := "rv"
    pubwatcher := okPublisher
    onUpdate := []
    onCreate := [] }

/-- A DAO over a table on which writes take no effect: reads answer as the
in-memory table does, every write reports zero rows and leaves the table. -/
def frozenDao : gorm.Dao (List Model) :=
  { First := (gorm.memDao "key" ["key", "rv", "data"]).First
    Create := fun _ tbl => .ok tbl
    Updates := fun _ _ _ tbl => .ok ({ RowsAffected := 0 }, tbl)
    Delete := fun _ _ obj tbl => .ok ({ RowsAffected := 0 }, obj, tbl) }

/-- The store `fooStore` over the frozen table. -/
def frozenStore : gorm.store (List Model) :=
  { fooStore with dao := frozenDao }

end sample

end Gearbox

namespace Gearbox

namespace sample

/-- A validator that handles every operation and accepts. -/
def passingValidator : admission.Handler :=
  { Handles := fun _ => true
    Admit := none
    Validate := some (fun a => (none, a.Object)) }

/-- A validator that handles every operation and rejects. -/
def rejectingValidator : admission.Handler :=
  { Handles := fun _ => true
    Admit := none
    Validate := some (fun a => (some (GoError.other "rejected"), a.Object)) }

/-- A mutator that handles every operation and sets the resource version. -/
def stampingMutator : admission.Handler :=
  { Handles := fun _ => true
    Admit := some (fun a =>
      (none, { a.Object with ObjectMeta := { a.Object.ObjectMeta with ResourceVersion := "9" } }))
    Validate := none }

/-- A mutator that only handles UPDATE. -/
def updateOnlyMutator : admission.Handler :=
  { Handles := fun operation => operation == admission.Update
    Admit := some (fun a => (some (GoError.other "no update"), a.Object))
    Validate := none }

/-- A chain of a mutator for UPDATE only, a validator and a mutator. -/
def mixedChain : admission.chainAdmissionHandler :=
  [updateOnlyMutator, passingValidator, stampingMutator]

/-- A chain of a mutator and, after it, a validator that rejects. -/
def rejectingChain : admission.chainAdmissionHandler :=
  [stampingMutator, rejectingValidator]

/-- The attributes of a CREATE of `fooObj`. -/
def createAttrs : admission.Attribute :=
  { Object := fooObj, Operation := admission.Create, ResourceName := "foos" }

/-- A `Foo` resource whose Create goes through the admission chain, a converter
that copies key and revision, and `fooStore`. -/
def fooCreate (admits : admission.chainAdmissionHandler) : rest.RestAPICreate Model (List Model) :=
  { scheme := fooScheme
    resourceName := "foos"
    admits := admits
    ToStorage := fun obj => .ok (row obj.GetKey obj.GetResourceVersion "")
    FromStorage := fun st obj =>
      .ok { obj with ObjectMeta :=
              { obj.ObjectMeta with Key := st "key", ResourceVersion := st "rv" } }
    storeCreate := fun st db =>
      match (fooStore.Create st db).2.err, (fooStore.Create st db).1 with
      | some err, _ => (.error err, (fooStore.Create st db).2.db)
      | none, some out => (.ok out, (fooStore.Create st db).2.db)
      | none, none => (.error (GoError.other "no object"), (fooStore.Create st db).2.db) }

/-- A `Foo` object with an empty key. -/
def keylessObj : apis.Object := { rtype := fooType, ObjectMeta := {} }

/-- A controller whose reconciler returns an error together with a delay. -/
def failingController : controller.controller String :=
  { Do := fun _ => .ret ({ RequeueAfter := 5 }, some (GoError.other "boom"))
    RecoverPanic := some true }

/-- A controller whose reconciler returns the given result and no error. -/
def resultController (result : reconcile.Result) : controller.controller String :=
  { Do := fun _ => .ret (result, none)
    RecoverPanic := some true }

/-- A controller whose reconciler panics with `oops`. -/
def panickingController (recoverPanic : Option Bool) : controller.controller String :=
  { Do := fun _ => .panic "oops"
    RecoverPanic := recoverPanic }

/-- A request for the key `a`. -/
def reqA : reconcile.Request := { Key := "a" }

/-- A predicate that lets every event through. -/
def alwaysPredicate : controller.Predicate :=
  { Create := fun _ => true, Delete := fun _ => true, Update := fun _ => true,
    Generic := fun _ => true }

/-- A predicate that lets no event through. -/
def neverPredicate : controller.Predicate :=
  { Create := fun _ => false, Delete := fun _ => false, Update := fun _ => false,
    Generic := fun _ => false }

/-- A selector over a model with the boolean column `flag` and the string
column `name`. -/
def flagSelector : gorm.Selector Unit Unit :=
  { fieldGetter := fun column =>
      if column = "flag" then some gorm.FieldType.Bool
      else if column = "name" then some gorm.FieldType.String
      else none
    parseToTime := fun _ => .ok ()
    ParseFloat := fun _ _ => .ok () }

end sample

end Gearbox

namespace Gearbox

namespace sample

/-- A selector over a model with the columns `tiny` (int8), `count` (int),
`name` (string), `flag` (bool) and `blob` (a field type the compiler does not
know). -/
def typedSelector : gorm.Selector Unit Unit :=
  { fieldGetter := fun column =>
      if column = "tiny" then some gorm.FieldType.Int8
      else if column = "count" then some gorm.FieldType.Int
      else if column = "name" then some gorm.FieldType.String
      else if column = "flag" then some gorm.FieldType.Bool
      else if column = "blob" then some gorm.FieldType.Other
      else none
    parseToTime := fun _ => .ok ()
    ParseFloat := fun _ _ => .ok () }

/-- An API type `Bar` of package `demo`. -/
def barType : apis.RType := { PkgPath := "demo", Name := "Bar" }

/-- A type named `Foo` of another package. -/
def otherFooType : apis.RType := { PkgPath := "other", Name := "Foo" }

/-- A task that returns nil on every input. -/
def okTask (ackLate : Bool) : task.TaskDescriber String Nat :=
  { TaskName := "demo:ok", Func := fun _ => .ret none, Config := { AckLate := ackLate } }

/-- A task that returns an error on every input. -/
def failingTask (ackLate : Bool) : task.TaskDescriber String Nat :=
  { TaskName := "demo:failing", Func := fun _ => .ret (some (GoError.other "boom")),
    Config := { AckLate := ackLate } }

/-- A task that panics with `oops` on every input. -/
def panickingTask (ackLate : Bool) : task.TaskDescriber String Nat :=
  { TaskName := "demo:panicking", Func := fun _ => .panic "oops",
    Config := { AckLate := ackLate } }

/-- A payload scanner: a payload of one byte `n` is the request for `demo:ok`
with input `n`, every other payload does not decode. -/
def byteScan (payload : List UInt8) : Except GoError (task.EmitTaskRequest Nat) :=
  match payload with
  | [b] => .ok { TaskName := "demo:ok", Input := b.toNat }
  | _ => .error (GoError.other "unexpected end of JSON input")

/-- A hub that is not running and holds `okTask`. -/
def idleHub : task.taskhub String Nat :=
  { registry := [("demo:ok", okTask false)], running := false }

/-- The hub `idleHub` once `RunForever` has set the running flag. -/
def runningHub : task.taskhub String Nat :=
  { idleHub with running := true }

/-- A decoder of watch payloads into numbers: a payload of one byte decodes to
its value, every other payload fails and leaves the object at zero. -/
def byteUnmarshal (payload : List UInt8) : Option GoError × Nat :=
  match payload with
  | [b] => (none, b.toNat)
  | _ => (some (GoError.other "unexpected end of JSON input"), 0)

/-- A watch message of type `Created` whose payload does not decode. -/
def brokenMessage : watch.Message :=
  { Payload := [], Metadata := [("Type", "Created")] }

/-- A watch message of type `Updated` whose payload decodes to 7. -/
def goodMessage : watch.Message :=
  { Payload := [7], Metadata := [("Type", "Updated")] }

/-- The zero `PredicateFunc`: no function is set. -/
def unsetPredicate : controller.PredicateFunc := {}

/-- A predicate that only sets its update function. -/
def updateOnlyPredicate : controller.PredicateFunc :=
  { UpdateFunc := some (fun _ => true) }

end sample

end Gearbox

namespace Gearbox

/-! ## RawExtension -/

/-- C6: unmarshalling a valid JSON value `b` (any byte string with at least one
byte) into a zero RawExtension and marshalling it again returns exactly `b`;
into a RawExtension that already holds something the same is true of every
such `b` other than the literal `null`. -/
theorem C6_rawextension_roundtrip {α : Type} (jsonMarshal : α → Except GoError (List UInt8))
    (b : List UInt8) (hb : b ≠ []) :
    apis.RawExtension.MarshalJSON jsonMarshal
        (apis.RawExtension.UnmarshalJSON { Object := none, Raw := none } b) = .ok b ∧
      (b ≠ apis.nullBytes → ∀ re : apis.RawExtension α,
        apis.RawExtension.MarshalJSON jsonMarshal (apis.RawExtension.UnmarshalJSON re b) = .ok b) := by
  constructor
  · by_cases hnull : b = apis.nullBytes
    · simp [apis.RawExtension.UnmarshalJSON, apis.RawExtension.MarshalJSON, hnull]
    · simp [apis.RawExtension.UnmarshalJSON, apis.RawExtension.MarshalJSON, apis.appendReset, hnull, hb]
  · intro hnull re
    cases hraw : re.Raw <;>
      simp [apis.RawExtension.UnmarshalJSON, apis.RawExtension.MarshalJSON, apis.appendReset,
        hnull, hb, hraw]

/-- Witness of C6 on the object of the package test and on the literal `null`. -/
theorem C6_rawextension_roundtrip_witness :
    (apis.RawExtension.MarshalJSON (fun _ : Unit => Except.ok [])
        (apis.RawExtension.UnmarshalJSON { Object := none, Raw := none } sample.barFoo)
        = .ok sample.barFoo ∧
      (sample.barFoo ≠ apis.nullBytes → ∀ re : apis.RawExtension Unit,
        apis.RawExtension.MarshalJSON (fun _ : Unit => Except.ok [])
          (apis.RawExtension.UnmarshalJSON re sample.barFoo) = .ok sample.barFoo)) ∧
    apis.RawExtension.MarshalJSON (fun _ : Unit => Except.ok [])
        (apis.RawExtension.UnmarshalJSON { Object := none, Raw := none } apis.nullBytes)
        = .ok apis.nullBytes :=
  ⟨C6_rawextension_roundtrip _ sample.barFoo (by decide),
   (C6_rawextension_roundtrip _ apis.nullBytes (by decide)).1⟩

/-- C7: MarshalJSON returns the Raw bytes unchanged whenever Raw is non-nil,
whatever Object holds; returns what the JSON encoder returns for Object when Raw
is nil and Object is not; and returns the literal `null` when both are nil. -/
theorem C7_marshal_cases {α : Type} (jsonMarshal : α → Except GoError (List UInt8)) :
    (∀ (raw : List UInt8) (obj : Option α),
        apis.RawExtension.MarshalJSON jsonMarshal { Object := obj, Raw := some raw } = .ok raw) ∧
      (∀ o : α,
        apis.RawExtension.MarshalJSON jsonMarshal { Object := some o, Raw := none } = jsonMarshal o) ∧
      apis.RawExtension.MarshalJSON jsonMarshal { Object := none, Raw := none }
        = .ok apis.nullBytes := by
  refine ⟨?_, ?_, ?_⟩
  · intro raw obj
    cases obj <;> rfl
  · intro o
    simp only [apis.RawExtension.MarshalJSON]
    cases jsonMarshal o <;> rfl
  · rfl

/-! ## REST error conversion -/

/-- The three storage predicates exclude one another: the reasons differ. -/
theorem storage_predicates_exclusive (err : Option GoError) :
    (storage.IsNotFoundError err = true → storage.IsAlreadyExistError err = false ∧
        storage.IsConcurrentConclictError err = false) ∧
      (storage.IsAlreadyExistError err = true → storage.IsNotFoundError err = false ∧
        storage.IsConcurrentConclictError err = false) ∧
      (storage.IsConcurrentConclictError err = true → storage.IsNotFoundError err = false ∧
        storage.IsAlreadyExistError err = false) := by
  rcases err with _ | e
  · simp [storage.IsNotFoundError, storage.IsAlreadyExistError, storage.IsConcurrentConclictError]
  · cases e <;>
      simp [storage.IsNotFoundError, storage.IsAlreadyExistError, storage.IsConcurrentConclictError,
        storage.ReasonNotFound, storage.ReasonAlreadyExist, storage.ReasonConcurrentConflict]
    all_goals
      refine ⟨?_, ?_, ?_⟩ <;> intro h <;> simp [h]

/-- C8 as stated fails: for an object whose type the scheme does not know,
an error that is none of the three storage kinds is not returned unchanged;
the lookup error of the scheme is returned in its place. -/
theorem C8_counterexample_unregistered_kind :
    storage.IsNotFoundError (some (GoError.other "boom")) = false ∧
      storage.IsAlreadyExistError (some (GoError.other "boom")) = false ∧
      storage.IsConcurrentConclictError (some (GoError.other "boom")) = false ∧
      rest.convertStorageError sample.emptyScheme (some (GoError.other "boom")) sample.fooObj
        = some (GoError.other "\"Foo\" not registered") ∧
      rest.convertStorageError sample.emptyScheme (some (GoError.other "boom")) sample.fooObj
        ≠ some (GoError.other "boom") := by
  decide

/-- C8 (amended): when the scheme knows the kind of `obj`, convertStorageError
maps a storage NotFound to the API NotFound (code 404) built from that kind and
the key of `obj`, maps a storage AlreadyExists or ConcurrentConflict to the API
Conflict (code 409) built from the error, and returns every other error,
nil included, unchanged; when the scheme does not know the kind it returns the
lookup error of the scheme. -/
theorem C8_convertStorageError (scheme : apis.Scheme) (obj : apis.Object) (kind : String)
    (hkind : scheme.ObjectKind obj = .ok kind) (err : Option GoError) :
    (storage.IsNotFoundError err = true →
        rest.convertStorageError scheme err obj
            = some (GoError.apiStatus (errors.NewNotFound kind obj.GetKey)) ∧
          (errors.NewNotFound kind obj.GetKey).Status.Code = 404) ∧
      (storage.IsAlreadyExistError err = true ∨ storage.IsConcurrentConclictError err = true →
        ∃ e, err = some e ∧
          rest.convertStorageError scheme err obj = some (GoError.apiStatus (errors.NewConflict e)) ∧
          (errors.NewConflict e).Status.Code = 409) ∧
      (storage.IsNotFoundError err = false → storage.IsAlreadyExistError err = false →
        storage.IsConcurrentConclictError err = false →
        rest.convertStorageError scheme err obj = err) ∧
      (∀ (scheme0 : apis.Scheme) (e : GoError), scheme0.ObjectKind obj = .error e →
        rest.convertStorageError scheme0 err obj = some e) := by
  have hex := storage_predicates_exclusive err
  refine ⟨?_, ?_, ?_, ?_⟩
  · intro h
    rcases err with _ | e
    · simp [storage.IsNotFoundError] at h
    · simp [rest.convertStorageError, hkind, h, errors.NewNotFound, errors.StatusError.Status]
  · intro h
    rcases err with _ | e
    · simp [storage.IsAlreadyExistError, storage.IsConcurrentConclictError] at h
    · refine ⟨e, rfl, ?_, rfl⟩
      rcases h with h | h
      · have h1 := (hex.2.1 h).1
        simp [rest.convertStorageError, hkind, h, h1]
      · have h1 := (hex.2.2 h).1
        simp [rest.convertStorageError, hkind, h, h1]
  · intro h1 h2 h3
    rcases err with _ | e
    · simp [rest.convertStorageError, hkind]
    · simp [rest.convertStorageError, hkind, h1, h2, h3]
  · intro scheme0 e he
    simp [rest.convertStorageError, he]

/-- Witness of C8 on a registered `Foo` and the storage NotFound error. -/
theorem C8_convertStorageError_witness :
    rest.convertStorageError sample.fooScheme
        (some (GoError.storageStatus (storage.NewNotFoundError "FooRow" "a"))) sample.fooObj
      = some (GoError.apiStatus (errors.NewNotFound "Foo" "a")) :=
  ((C8_convertStorageError sample.fooScheme sample.fooObj "Foo" (by decide)
      (some (GoError.storageStatus (storage.NewNotFoundError "FooRow" "a")))).1 (by decide)).1

/-- C9 as stated fails: the status sent for a stale revision has code 409 but
its reason is `Conflict`, not `ConcurrentConflict`. -/
theorem C9_counterexample_reason :
    (rest.convertStorageError sample.fooScheme
        (some (GoError.storageStatus storage.NewConcurrentConclictError)) sample.fooObj).map
          (fun e => ((rest.Handler.Error e).Code, (rest.Handler.Error e).Reason))
        = some (409, "Conflict") ∧
      "Conflict" ≠ "ConcurrentConflict" := by
  decide

/-- C9 (amended): when the store rejects an Update with its ConcurrentConflict
error and the scheme knows the kind of the object, the error handed to the
client is a Status of kind Status with HTTP code 409, status Failure, reason
`Conflict` and the message of the storage error. -/
theorem C9_stale_update_status (scheme : apis.Scheme) (obj : apis.Object) (kind : String)
    (hkind : scheme.ObjectKind obj = .ok kind) :
    ∃ e, rest.convertStorageError scheme
            (some (GoError.storageStatus storage.NewConcurrentConclictError)) obj = some e ∧
      (rest.Handler.Error e).Code = 409 ∧
      (rest.Handler.Error e).Reason = "Conflict" ∧
      (rest.Handler.Error e).Status = apis.StatusFailure ∧
      (rest.Handler.Error e).ObjectMeta.Kind = "Status" ∧
      (rest.Handler.Error e).Message =
        "the objectVersion in request not equals to the storage version, maybe concurrent conflict" := by
  refine ⟨GoError.apiStatus (errors.NewConflict
    (GoError.storageStatus storage.NewConcurrentConclictError)), ?_, ?_⟩
  · have h1 : storage.IsNotFoundError
        (some (GoError.storageStatus storage.NewConcurrentConclictError)) = false := by decide
    have h2 : storage.IsAlreadyExistError
        (some (GoError.storageStatus storage.NewConcurrentConclictError)) = false := by decide
    have h3 : storage.IsConcurrentConclictError
        (some (GoError.storageStatus storage.NewConcurrentConclictError)) = true := by decide
    simp [rest.convertStorageError, hkind, h1, h2, h3]
  · decide

/-- Witness of C9 on a registered `Foo`. -/
theorem C9_stale_update_status_witness :
    ∃ e, rest.convertStorageError sample.fooScheme
            (some (GoError.storageStatus storage.NewConcurrentConclictError)) sample.fooObj = some e ∧
      (rest.Handler.Error e).Code = 409 ∧
      (rest.Handler.Error e).Reason = "Conflict" ∧
      (rest.Handler.Error e).Status = apis.StatusFailure ∧
      (rest.Handler.Error e).ObjectMeta.Kind = "Status" ∧
      (rest.Handler.Error e).Message =
        "the objectVersion in request not equals to the storage version, maybe concurrent conflict" :=
  C9_stale_update_status sample.fooScheme sample.fooObj "Foo" (by decide)

/-! ## List paging -/

/-- C10 at a failing request: with one stored row, `offset=-1&limit=1` is
normalised by GetList to offset 0 and limit 1, the whole row set is returned
and 0 + 1 < 1 is false, yet the handler adds the raw values and answers
continue = true. -/
theorem C10_continue_uses_raw_offset :
    (rest.Handler.List (sample.pagedRest ["a"]).GetList "-1" "1" "").map
        (fun l => (l.Count, l.Continue, l.Items.map (fun o => o.GetKey)))
      = .ok (1, true, ["a"]) ∧
    ¬ ((0 : Int) + 1 < 1) := by
  decide

/-! ## Store: the shared protocol of Update and Delete -/

/-- What `modify` answers once the statement of `opFn` went through and did
not affect exactly one row, while the row is still found by its key and its
revision is the requested one or none was requested: no error. -/
theorem modify_rows_not_one_row_found {σ : Type} (s : gorm.store σ) (key : String)
    (obj obj1 row : Model) (db db1 : σ) (result : gorm.ResultInfo)
    (opFn : List (String × String) → Model → σ → Except GoError gorm.ResultInfo × Model × σ)
    (hop : opFn (s.modifyDao key obj) obj db = (.ok result, obj1, db1))
    (hrows : result.RowsAffected ≠ 1)
    (hfound : s.dao.First [(s.keyFieldName, key)] db1 = .ok row)
    (hrv : s.rvInReq obj = "" ∨ util.GetStringField row s.rvFieldName = s.rvInReq obj) :
    s.modify key obj db opFn = (none, obj1, db1) := by
  simp only [gorm.store.modify, hop, hfound]
  rw [if_pos hrows]
  rcases hrv with h | h
  · simp [h]
  · simp [h]

/-- C3 at a failing input: on an empty table Update answers the raw
`gorm.ErrRecordNotFound` of its first fetch, for which IsNotFoundError is
false, while Delete, and Get on the same fetch, answer the storage NotFound
error. -/
theorem C3_update_missing_key_raw_error :
    (sample.fooStore.Update "a" (sample.row "a" "1" "x") []).err = some GoError.recordNotFound ∧
      storage.IsNotFoundError (sample.fooStore.Update "a" (sample.row "a" "1" "x") []).err = false ∧
      storage.IsNotFoundError (sample.fooStore.Delete "a" none []).err = true ∧
      (match sample.fooStore.Get "a" [] with
        | .error e => storage.IsNotFoundError (some e)
        | .ok _ => false) = true := by
  decide

/-- C4 as stated fails: a blind Update (empty revision) that carries the very
content of the stored row changes nothing, so MySQL reports zero affected
rows; the row is still there, Update returns nil, and it publishes an Updated
event all the same. -/
theorem C4_counterexample_noop_update_publishes :
    (sample.fooStore.dao.Updates [("key", "a")] ["key", "data"] (sample.row "a" "" "y")
        [sample.row "a" "2" "y"]).toOption.map (fun r => r.1.RowsAffected) = some 0 ∧
      (sample.fooStore.dao.First [("key", "a")] [sample.row "a" "2" "y"]).toOption.map
        (fun r => r "rv") = some "2" ∧
      (sample.fooStore.Update "a" (sample.row "a" "" "y") [sample.row "a" "2" "y"]).err = none ∧
      (sample.fooStore.Update "a" (sample.row "a" "" "y") [sample.row "a" "2" "y"]).events.map
        (fun ev => ev.Typ) = [watch.EventTypeUpdated] := by
  decide

/-- C4 (amended): when the conditional UPDATE or DELETE went through without
affecting exactly one row (zero rows in particular) while the row with that
key is still found and its stored revision equals the requested one (or no
revision was requested), the Store operation goes on to publish: it returns
what the publisher returns, nil when publishing succeeds, and the Updated or
Deleted event is put on the bus. -/
theorem C4_rows_not_one_still_publishes {σ : Type} (s : gorm.store σ) (key : String) (db db1 : σ)
    (row obj2 : Model) (result : gorm.ResultInfo) (hrows : result.RowsAffected ≠ 1)
    (hfound : s.dao.First [(s.keyFieldName, key)] db1 = .ok row) :
    (∀ (obj oldObj : Model),
        s.dao.First [(s.keyFieldName, key)] db = .ok oldObj →
        s.updateOpFn (s.modifyDao key (s.runOnUpdate oldObj obj).2) (s.runOnUpdate oldObj obj).2 db
          = (.ok result, obj2, db1) →
        (s.rvInReq (s.runOnUpdate oldObj obj).2 = "" ∨
          util.GetStringField row s.rvFieldName = s.rvInReq (s.runOnUpdate oldObj obj).2) →
        (s.Update key obj db).err = s.pubwatcher.Publish watch.EventTypeUpdated obj2 ∧
          (s.pubwatcher.Publish watch.EventTypeUpdated obj2 = none →
            (s.Update key obj db).events.map (fun ev => ev.Typ) = [watch.EventTypeUpdated])) ∧
      (∀ (obj : Option Model) (obj1 : Model),
        obj1 = util.SetStringField (match obj with | none => fun _ => "" | some o => o)
                  s.keyFieldName key →
        s.deleteOpFn (s.modifyDao key obj1) obj1 db = (.ok result, obj2, db1) →
        (s.rvInReq obj1 = "" ∨ util.GetStringField row s.rvFieldName = s.rvInReq obj1) →
        (s.Delete key obj db).err = s.pubwatcher.Publish watch.EventTypeDeleted obj2 ∧
          (s.pubwatcher.Publish watch.EventTypeDeleted obj2 = none →
            (s.Delete key obj db).events.map (fun ev => ev.Typ) = [watch.EventTypeDeleted])) := by
  constructor
  · intro obj oldObj hfetch hop hrv
    have hm := modify_rows_not_one_row_found s key (s.runOnUpdate oldObj obj).2 obj2 row db db1
      result s.updateOpFn hop hrows hfound hrv
    simp only [gorm.store.Update, hfetch, hm, watch.EventPublisher.run]
    constructor
    · cases s.pubwatcher.Publish watch.EventTypeUpdated obj2 <;> rfl
    · intro hp
      simp [hp]
  · intro obj obj1 hobj1 hop hrv
    have hm := modify_rows_not_one_row_found s key obj1 obj2 row db db1
      result s.deleteOpFn hop hrows hfound hrv
    subst hobj1
    simp only [gorm.store.Delete, hm, watch.EventPublisher.run]
    constructor
    · cases s.pubwatcher.Publish watch.EventTypeDeleted obj2 <;> rfl
    · intro hp
      simp [hp]

/-- Witness of C4: the blind Update with unchanged content on the in-memory
table, and a Delete on a table whose writes take no effect. -/
theorem C4_rows_not_one_still_publishes_witness :
    ((sample.fooStore.Update "a" (sample.row "a" "" "y") [sample.row "a" "2" "y"]).err
        = sample.fooStore.pubwatcher.Publish watch.EventTypeUpdated (sample.row "a" "" "y") ∧
      (sample.fooStore.pubwatcher.Publish watch.EventTypeUpdated (sample.row "a" "" "y") = none →
        (sample.fooStore.Update "a" (sample.row "a" "" "y") [sample.row "a" "2" "y"]).events.map
          (fun ev => ev.Typ) = [watch.EventTypeUpdated])) ∧
    ((sample.frozenStore.Delete "a" none [sample.row "a" "2" "y"]).err
        = sample.frozenStore.pubwatcher.Publish watch.EventTypeDeleted
            (util.SetStringField (fun _ => "") "key" "a") ∧
      (sample.frozenStore.pubwatcher.Publish watch.EventTypeDeleted
            (util.SetStringField (fun _ => "") "key" "a") = none →
        (sample.frozenStore.Delete "a" none [sample.row "a" "2" "y"]).events.map
          (fun ev => ev.Typ) = [watch.EventTypeDeleted])) :=
  ⟨(C4_rows_not_one_still_publishes sample.fooStore "a" [sample.row "a" "2" "y"]
      [gorm.assignColumns ["key", "data"] (sample.row "a" "" "y") (sample.row "a" "2" "y")]
      (gorm.assignColumns ["key", "data"] (sample.row "a" "" "y") (sample.row "a" "2" "y"))
      (sample.row "a" "" "y") { RowsAffected := 0 } (by decide) rfl).1
      (sample.row "a" "" "y") (sample.row "a" "2" "y") rfl rfl (Or.inl rfl),
   (C4_rows_not_one_still_publishes sample.frozenStore "a" [sample.row "a" "2" "y"]
      [sample.row "a" "2" "y"] (sample.row "a" "2" "y") (util.SetStringField (fun _ => "") "key" "a")
      { RowsAffected := 0 } (by decide) rfl).2
      none _ rfl rfl (Or.inl rfl)⟩

end Gearbox
namespace Gearbox

/-! ## strconv facts -/

/-- A value returned by Atoi fits the signed 64-bit range. -/
theorem Atoi_range (s : String) (i : Int) (h : Atoi s = .ok i) : -2 ^ 63 ≤ i ∧ i < 2 ^ 63 := by
  unfold Atoi ParseInt at h
  simp only at h
  split at h
  · simp at h
  · split at h
    · simp at h
    · rename_i un hun
      split at h
      · simp at h
      · split at h
        · simp at h
        · rename_i h1 h2
          simp only [Except.ok.injEq] at h
          subst h
          simp only [not_and, not_le, gt_iff_lt, not_lt, decide_eq_true_eq] at h1 h2
          norm_num at h1 h2 ⊢
          split
          · rename_i hneg
            have := h2 hneg
            omega
          · rename_i hneg
            have := h1 hneg
            omega

/-- Atoi rejects the empty string. -/
theorem Atoi_ne_empty (s : String) (i : Int) (h : Atoi s = .ok i) : s ≠ "" := by
  intro hs
  subst hs
  have hempty : Atoi "" = .error (.other "strconv.Atoi: parsing \"\": invalid syntax") := by decide
  rw [hempty] at h
  cases h

/-- Adding one to a value below the largest `int` does not wrap. -/
theorem wrap64_succ (i : Int) (hlo : -2 ^ 63 ≤ i) (hhi : i < 2 ^ 63 - 1) :
    wrap64 (i + 1) = i + 1 := by
  unfold wrap64
  have h1 : (0 : Int) ≤ i + 1 + 2 ^ 63 := by omega
  have h2 : i + 1 + 2 ^ 63 < 2 ^ 64 := by omega
  rw [Int.emod_eq_of_lt h1 h2]
  omega

/-! ## The shared protocol: what modify keeps of opFn -/

/-- The object and the database state `modify` returns are those `opFn` left. -/
theorem modify_obj_db {σ : Type} (s : gorm.store σ) (key : String) (obj : Model) (db : σ)
    (opFn : List (String × String) → Model → σ → Except GoError gorm.ResultInfo × Model × σ) :
    (s.modify key obj db opFn).2 = (opFn (s.modifyDao key obj) obj db).2 := by
  simp only [gorm.store.modify]
  split
  · rename_i h
    rw [h]
  · rename_i h
    rw [h]
    split
    · split
      · split <;> rfl
      · split <;> rfl
    · rfl

/-- When `modify` returns no error the statement of `opFn` went through. -/
theorem modify_none_opFn_ok {σ : Type} (s : gorm.store σ) (key : String) (obj : Model) (db : σ)
    (opFn : List (String × String) → Model → σ → Except GoError gorm.ResultInfo × Model × σ)
    (h : (s.modify key obj db opFn).1 = none) :
    ∃ result, (opFn (s.modifyDao key obj) obj db).1 = .ok result := by
  simp only [gorm.store.modify] at h
  split at h
  · simp at h
  · rename_i result obj1 db1 hop
    exact ⟨result, by rw [hop]⟩

/-- Once the first fetch succeeded, the object and database state Update leaves
are those of `modify`, and Update returns no error only if `modify` did. -/
theorem Update_after_fetch {σ : Type} (s : gorm.store σ) (key : String) (obj oldObj : Model)
    (db : σ) (hfetch : s.dao.First [(s.keyFieldName, key)] db = .ok oldObj) :
    (s.Update key obj db).obj = (s.modify key (s.runOnUpdate oldObj obj).2 db s.updateOpFn).2.1 ∧
      (s.Update key obj db).db = (s.modify key (s.runOnUpdate oldObj obj).2 db s.updateOpFn).2.2 ∧
      ((s.Update key obj db).err = none →
        (s.modify key (s.runOnUpdate oldObj obj).2 db s.updateOpFn).1 = none) := by
  simp only [gorm.store.Update, hfetch]
  split
  · rename_i h
    rw [h]
    simp
  · rename_i h
    rw [h]
    simp

end Gearbox
namespace Gearbox

/-! ## The in-memory table -/

/-- The table an UPDATE of the in-memory table leaves when it goes through. -/
theorem memDao_Updates_ok (keyColumn : String) (fields : List String)
    (conds : List (String × String)) (cols : List String) (obj : Model) (tbl tbl1 : List Model)
    (res : gorm.ResultInfo)
    (h : (gorm.memDao keyColumn fields).Updates conds cols obj tbl = .ok (res, tbl1)) :
    tbl1 = tbl.map (fun row =>
      if gorm.matchesConds conds row then
        gorm.assignColumns (if cols = [] then fields.filter (fun c => obj c ≠ "") else cols) obj row
      else row) := by
  simp only [gorm.memDao] at h
  by_cases hc : cols = []
  · simp only [hc, if_true] at h ⊢
    split at h
    · simp only [Except.ok.injEq, Prod.mk.injEq] at h
      exact h.2.symm
    · simp at h
  · simp only [hc, if_false] at h ⊢
    split at h
    · simp only [Except.ok.injEq, Prod.mk.injEq] at h
      exact h.2.symm
    · simp at h

/-- The statement the closure of Update issues for a revision that parses. -/
theorem updateOpFn_parsed {σ : Type} (s : gorm.store σ) (dao : List (String × String))
    (obj : Model) (db : σ) (i : Int) (hrvcol : s.rvFieldName ≠ "")
    (hparse : Atoi (util.GetStringField obj s.rvFieldName) = .ok i) (hhi : i < 2 ^ 63 - 1) :
    s.updateOpFn dao obj db =
      match s.dao.Updates dao s.columns
          (util.SetStringField obj s.rvFieldName (Itoa (i + 1))) db with
      | .error err => (.error err, util.SetStringField obj s.rvFieldName (Itoa (i + 1)), db)
      | .ok (result, db1) =>
        (.ok result, util.SetStringField obj s.rvFieldName (Itoa (i + 1)), db1) := by
  have hne := Atoi_ne_empty _ _ hparse
  have hw := wrap64_succ i (Atoi_range _ _ hparse).1 hhi
  simp only [gorm.store.updateOpFn, if_pos hrvcol, hparse, hw]
  rw [if_pos ⟨hrvcol, hne⟩]

/-- The statement the closure of Update issues for an empty revision. -/
theorem updateOpFn_blind {σ : Type} (s : gorm.store σ) (dao : List (String × String))
    (obj : Model) (db : σ) (hempty : s.rvInReq obj = "") :
    s.updateOpFn dao obj db =
      match s.dao.Updates dao (s.columns.filter (fun col => col ≠ s.rvFieldName)) obj db with
      | .error err => (.error err, obj, db)
      | .ok (result, db1) => (.ok result, obj, db1) := by
  simp only [gorm.store.rvInReq] at hempty
  simp only [gorm.store.updateOpFn, hempty]
  rw [if_neg (by simp)]

end Gearbox
namespace Gearbox

/-! ## Store.Update: revision and written columns -/

/-- C1 as stated fails: the revision `9223372036854775808` is a non-empty
decimal integer, yet Update rejects it (it does not fit an `int`), leaves the
revision field of the object as it was and writes no column. -/
theorem C1_counterexample_revision_out_of_range :
    (sample.fooStore.Update "a" (sample.row "a" "9223372036854775808" "x")
        [sample.row "a" "9223372036854775808" "y"]).err
      = some (GoError.other "the revision must be number") ∧
    (sample.fooStore.Update "a" (sample.row "a" "9223372036854775808" "x")
        [sample.row "a" "9223372036854775808" "y"]).obj "rv" = "9223372036854775808" ∧
    (sample.fooStore.Update "a" (sample.row "a" "9223372036854775808" "x")
        [sample.row "a" "9223372036854775808" "y"]).db.map
          (fun row => (row "key", row "rv", row "data"))
      = [("a", "9223372036854775808", "y")] := by
  decide

/-- C1 (amended): for a store over the table with a revision column that is
one of its columns, once Update has fetched the row with the key, with `r` the
revision the object carries after the onUpdate handlers: if Atoi accepts `r`
with a value `i` below the largest `int`, Update sets the revision field of the
object to `Itoa (i + 1)` and, when it returns no error, the UPDATE has assigned
every column, the revision column included, on the rows with that key and
revision `r`; if `r` is empty, Update leaves the object as the handlers left it
and, when it returns no error, the UPDATE has assigned every column except the
revision column on the rows with that key, so every stored revision is
unchanged. -/
theorem C1_update_revision_and_columns (s : gorm.store (List Model)) (fields : List String)
    (hdao : s.dao = gorm.memDao s.keyFieldName fields)
    (hrvcol : s.rvFieldName ≠ "") (hcol : s.rvFieldName ∈ s.columns)
    (key : String) (obj oldObj : Model) (tbl : List Model)
    (hfetch : s.dao.First [(s.keyFieldName, key)] tbl = .ok oldObj) :
    (∀ i : Int,
        Atoi (util.GetStringField (s.runOnUpdate oldObj obj).2 s.rvFieldName) = .ok i →
        i < 2 ^ 63 - 1 →
        (s.Update key obj tbl).obj
            = util.SetStringField (s.runOnUpdate oldObj obj).2 s.rvFieldName (Itoa (i + 1)) ∧
          util.GetStringField (s.Update key obj tbl).obj s.rvFieldName = Itoa (i + 1) ∧
          ((s.Update key obj tbl).err = none →
            (s.Update key obj tbl).db = tbl.map (fun row =>
                if gorm.matchesConds [(s.keyFieldName, key), (s.rvFieldName,
                    util.GetStringField (s.runOnUpdate oldObj obj).2 s.rvFieldName)] row then
                  gorm.assignColumns s.columns (s.Update key obj tbl).obj row
                else row) ∧
              ∀ row : Model,
                gorm.assignColumns s.columns (s.Update key obj tbl).obj row s.rvFieldName
                  = Itoa (i + 1))) ∧
      (util.GetStringField (s.runOnUpdate oldObj obj).2 s.rvFieldName = "" →
        (s.Update key obj tbl).obj = (s.runOnUpdate oldObj obj).2 ∧
          ((s.Update key obj tbl).err = none →
            ∃ cols : List String,
              (∀ c ∈ s.columns, c ≠ s.rvFieldName → c ∈ cols) ∧ s.rvFieldName ∉ cols ∧
              (s.Update key obj tbl).db = tbl.map (fun row =>
                if gorm.matchesConds [(s.keyFieldName, key)] row then
                  gorm.assignColumns cols (s.runOnUpdate oldObj obj).2 row
                else row) ∧
              (s.Update key obj tbl).db.map (fun row => row s.rvFieldName)
                = tbl.map (fun row => row s.rvFieldName))) := by
  obtain ⟨hobj, hdb, herr⟩ := Update_after_fetch s key obj oldObj tbl hfetch
  have hm := modify_obj_db s key (s.runOnUpdate oldObj obj).2 tbl s.updateOpFn
  rw [hobj, hdb, hm]
  constructor
  · intro i hparse hhi
    have hne := Atoi_ne_empty _ _ hparse
    have hop := updateOpFn_parsed s (s.modifyDao key (s.runOnUpdate oldObj obj).2)
      (s.runOnUpdate oldObj obj).2 tbl i hrvcol hparse hhi
    have hobj2 : (s.updateOpFn (s.modifyDao key (s.runOnUpdate oldObj obj).2)
        (s.runOnUpdate oldObj obj).2 tbl).2.1
          = util.SetStringField (s.runOnUpdate oldObj obj).2 s.rvFieldName (Itoa (i + 1)) := by
      rw [hop]
      split <;> rfl
    refine ⟨hobj2, ?_, ?_⟩
    · rw [hobj2]
      simp [util.GetStringField, util.SetStringField]
    · intro hnone
      obtain ⟨result, hres⟩ := modify_none_opFn_ok _ _ _ _ _ (herr hnone)
      rw [hobj2]
      constructor
      · rw [hop] at hres ⊢
        have hdaoeq : s.modifyDao key (s.runOnUpdate oldObj obj).2
            = [(s.keyFieldName, key), (s.rvFieldName,
                util.GetStringField (s.runOnUpdate oldObj obj).2 s.rvFieldName)] := by
          simp only [gorm.store.modifyDao, gorm.store.rvInReq, if_pos hrvcol]
          rw [if_pos ⟨hrvcol, hne⟩]
          rfl
        rw [hdaoeq] at hres ⊢
        split at hres
        · simp at hres
        · rename_i res1 db1 hup
          rw [hdao] at hup
          have := memDao_Updates_ok _ _ _ _ _ _ _ _ hup
          have hcne : s.columns ≠ [] := List.ne_nil_of_mem hcol
          simp only [hcne, if_false] at this
          exact this
      · intro row
        simp [gorm.assignColumns, hcol, util.SetStringField]
  · intro hempty
    have hrv : s.rvInReq (s.runOnUpdate oldObj obj).2 = "" := by
      simp only [gorm.store.rvInReq, if_pos hrvcol]
      exact hempty
    have hop := updateOpFn_blind s (s.modifyDao key (s.runOnUpdate oldObj obj).2)
      (s.runOnUpdate oldObj obj).2 tbl hrv
    have hobj2 : (s.updateOpFn (s.modifyDao key (s.runOnUpdate oldObj obj).2)
        (s.runOnUpdate oldObj obj).2 tbl).2.1 = (s.runOnUpdate oldObj obj).2 := by
      rw [hop]
      split <;> rfl
    refine ⟨hobj2, ?_⟩
    intro hnone
    obtain ⟨result, hres⟩ := modify_none_opFn_ok _ _ _ _ _ (herr hnone)
    have hdaoeq : s.modifyDao key (s.runOnUpdate oldObj obj).2 = [(s.keyFieldName, key)] := by
      simp only [gorm.store.modifyDao, hrv]
      rw [if_neg (by simp)]
    rw [hop] at hres ⊢
    rw [hdaoeq] at hres ⊢
    split at hres
    · simp at hres
    · rename_i res1 db1 hup
      rw [hdao] at hup
      have hform := memDao_Updates_ok _ _ _ _ _ _ _ _ hup
      refine ⟨_, ?_, ?_, hform, ?_⟩
      · intro c hc hcne
        split
        · rename_i hnil
          have : c ∈ s.columns.filter (fun col => decide (col ≠ s.rvFieldName)) := by
            simp [List.mem_filter, hc, hcne]
          rw [hnil] at this
          simp at this
        · simp [List.mem_filter, hc, hcne]
      · split
        · simp only [List.mem_filter, not_and]
          intro _
          simp [util.GetStringField] at hempty
          simp [hempty]
        · simp [List.mem_filter]
      · have hnot : s.rvFieldName ∉ (if s.columns.filter (fun col => decide (col ≠ s.rvFieldName)) = []
            then fields.filter (fun c => decide ((s.runOnUpdate oldObj obj).2 c ≠ ""))
            else s.columns.filter (fun col => decide (col ≠ s.rvFieldName))) := by
          split
          · simp only [List.mem_filter, not_and]
            intro _
            simp [util.GetStringField] at hempty
            simp [hempty]
          · simp [List.mem_filter]
        show List.map (fun row => row s.rvFieldName) db1 = _
        rw [hform, List.map_map]
        apply List.map_congr_left
        intro row _
        simp only [Function.comp]
        split
        · simp only [gorm.assignColumns]
          rw [if_neg hnot]
        · rfl

end Gearbox
namespace Gearbox

/-- Witness of C1: revision `1` becomes `2`; a blind Update keeps the object. -/
theorem C1_update_revision_and_columns_witness :
    util.GetStringField (sample.fooStore.Update "a" (sample.row "a" "1" "x")
        [sample.row "a" "1" "y"]).obj sample.fooStore.rvFieldName = Itoa (1 + 1) ∧
      (sample.fooStore.Update "a" (sample.row "a" "" "z") [sample.row "a" "1" "y"]).obj
        = (sample.fooStore.runOnUpdate (sample.row "a" "1" "y") (sample.row "a" "" "z")).2 :=
  ⟨((C1_update_revision_and_columns sample.fooStore ["key", "rv", "data"] rfl (by decide)
        (by decide) "a" (sample.row "a" "1" "x") (sample.row "a" "1" "y")
        [sample.row "a" "1" "y"] rfl).1 1 (by decide) (by decide)).2.1,
   ((C1_update_revision_and_columns sample.fooStore ["key", "rv", "data"] rfl (by decide)
        (by decide) "a" (sample.row "a" "" "z") (sample.row "a" "1" "y")
        [sample.row "a" "1" "y"] rfl).2 rfl).1⟩

/-! ## Store.Update: stale revision -/

/-- With a unique key column, the row found by its key is the stored row. -/
theorem memDao_First_of_mem (keyColumn : String) (fields : List String) (tbl : List Model)
    (row : Model) (huniq : gorm.uniqueKeys keyColumn tbl) (hmem : row ∈ tbl) :
    (gorm.memDao keyColumn fields).First [(keyColumn, row keyColumn)] tbl = .ok row := by
  simp only [gorm.memDao]
  cases hfind : tbl.find? (gorm.matchesConds [(keyColumn, row keyColumn)]) with
  | none =>
    have := List.find?_eq_none.mp hfind row hmem
    simp [gorm.matchesConds] at this
  | some row1 =>
    have hp := List.find?_some hfind
    have hm1 := List.mem_of_find?_eq_some hfind
    simp [gorm.matchesConds] at hp
    have : row1 = row := List.inj_on_of_nodup_map huniq hm1 hmem hp
    rw [this]

/-- An UPDATE whose conditions no row satisfies affects zero rows and leaves
the table. -/
theorem memDao_Updates_no_match (keyColumn : String) (fields : List String)
    (conds : List (String × String)) (cols : List String) (obj : Model) (tbl : List Model)
    (huniq : gorm.uniqueKeys keyColumn tbl)
    (hno : ∀ row ∈ tbl, gorm.matchesConds conds row = false) :
    (gorm.memDao keyColumn fields).Updates conds cols obj tbl
      = .ok ({ RowsAffected := 0 }, tbl) := by
  have hmap : ∀ cs : List String, tbl.map (fun row =>
      if gorm.matchesConds conds row then gorm.assignColumns cs obj row else row) = tbl := by
    intro cs
    have : tbl.map (fun row =>
        if gorm.matchesConds conds row then gorm.assignColumns cs obj row else row)
        = tbl.map id := by
      apply List.map_congr_left
      intro row hrow
      simp [hno row hrow]
    rw [this, List.map_id]
  have hcount : ∀ cs : List String, tbl.countP (fun row =>
      gorm.matchesConds conds row && cs.any (fun c => obj c != row c)) = 0 := by
    intro cs
    rw [List.countP_eq_zero]
    intro row hrow
    simp [hno row hrow]
  simp only [gorm.memDao, hmap, hcount, if_pos huniq]
  rfl

/-- C2 as stated fails: the revision `abc` is non-empty and differs from the
stored revision `2`, yet the error Update returns is not a ConcurrentConflict:
the closure rejects a revision that is not a number. -/
theorem C2_counterexample_non_numeric_revision :
    (sample.fooStore.Update "a" (sample.row "a" "abc" "x") [sample.row "a" "2" "y"]).err
      = some (GoError.other "the revision must be number") ∧
    storage.IsConcurrentConclictError
      (sample.fooStore.Update "a" (sample.row "a" "abc" "x") [sample.row "a" "2" "y"]).err
      = false := by
  decide

/-- C2 (amended): on a table with unique keys that stores a row with the key,
an Update whose object carries, after the onUpdate handlers, a revision that
Atoi accepts and that differs from the revision of the stored row returns an
error for which IsConcurrentConclictError is true, publishes no event and
leaves the table as it was. -/
theorem C2_stale_revision_conflict (s : gorm.store (List Model)) (fields : List String)
    (hdao : s.dao = gorm.memDao s.keyFieldName fields) (hrvcol : s.rvFieldName ≠ "")
    (key : String) (obj row : Model) (tbl : List Model) (i : Int)
    (huniq : gorm.uniqueKeys s.keyFieldName tbl) (hmem : row ∈ tbl)
    (hkey : row s.keyFieldName = key)
    (hparse : Atoi (util.GetStringField (s.runOnUpdate row obj).2 s.rvFieldName) = .ok i)
    (hstale : util.GetStringField row s.rvFieldName
      ≠ util.GetStringField (s.runOnUpdate row obj).2 s.rvFieldName) :
    storage.IsConcurrentConclictError (s.Update key obj tbl).err = true ∧
      (s.Update key obj tbl).events = [] ∧
      (s.Update key obj tbl).db = tbl := by
  have hne := Atoi_ne_empty _ _ hparse
  have hfetch : s.dao.First [(s.keyFieldName, key)] tbl = .ok row := by
    rw [hdao, ← hkey]
    exact memDao_First_of_mem _ _ _ _ huniq hmem
  have hrv : s.rvInReq (s.runOnUpdate row obj).2
      = util.GetStringField (s.runOnUpdate row obj).2 s.rvFieldName := by
    simp only [gorm.store.rvInReq, if_pos hrvcol]
  have hdaoeq : s.modifyDao key (s.runOnUpdate row obj).2
      = [(s.keyFieldName, key), (s.rvFieldName,
          util.GetStringField (s.runOnUpdate row obj).2 s.rvFieldName)] := by
    simp only [gorm.store.modifyDao, hrv]
    rw [if_pos ⟨hrvcol, hne⟩]
    rfl
  have hno : ∀ row1 ∈ tbl, gorm.matchesConds [(s.keyFieldName, key), (s.rvFieldName,
      util.GetStringField (s.runOnUpdate row obj).2 s.rvFieldName)] row1 = false := by
    intro row1 hrow1
    by_cases hk : row1 s.keyFieldName = key
    · have heq : row1 = row := List.inj_on_of_nodup_map huniq hrow1 hmem (hk.trans hkey.symm)
      subst heq
      have hst : ¬ row1 s.rvFieldName
          = util.GetStringField (s.runOnUpdate row1 obj).2 s.rvFieldName := hstale
      simp [gorm.matchesConds, hst]
    · simp [gorm.matchesConds, hk]
  have hop : s.updateOpFn (s.modifyDao key (s.runOnUpdate row obj).2) (s.runOnUpdate row obj).2 tbl
      = (.ok { RowsAffected := 0 }, util.SetStringField (s.runOnUpdate row obj).2 s.rvFieldName
          (Itoa (wrap64 (i + 1))), tbl) := by
    simp only [gorm.store.updateOpFn, if_pos hrvcol, hparse]
    rw [if_pos ⟨hrvcol, hne⟩, hdaoeq, hdao]
    simp only [memDao_Updates_no_match _ _ _ _ _ _ huniq hno]
  have hmod : s.modify key (s.runOnUpdate row obj).2 tbl s.updateOpFn
      = (some (.storageStatus storage.NewConcurrentConclictError),
          util.SetStringField (s.runOnUpdate row obj).2 s.rvFieldName (Itoa (wrap64 (i + 1))),
          tbl) := by
    simp only [gorm.store.modify, hop, hfetch, hrv]
    rw [if_pos (by decide), if_pos ⟨hne, hstale⟩]
  have hupd : s.Update key obj tbl
      = { err := some (.storageStatus storage.NewConcurrentConclictError)
          obj := util.SetStringField (s.runOnUpdate row obj).2 s.rvFieldName
            (Itoa (wrap64 (i + 1)))
          db := tbl
          events := [] } := by
    rw [gorm.store.Update, hfetch]
    simp only [hmod]
  rw [hupd]
  exact ⟨rfl, rfl, rfl⟩

/-- Witness of C2: the stored revision is `2`, the object carries `1`. -/
theorem C2_stale_revision_conflict_witness :
    storage.IsConcurrentConclictError
        (sample.fooStore.Update "a" (sample.row "a" "1" "x") [sample.row "a" "2" "y"]).err = true ∧
      (sample.fooStore.Update "a" (sample.row "a" "1" "x") [sample.row "a" "2" "y"]).events = [] ∧
      (sample.fooStore.Update "a" (sample.row "a" "1" "x") [sample.row "a" "2" "y"]).db
        = [sample.row "a" "2" "y"] :=
  C2_stale_revision_conflict sample.fooStore ["key", "rv", "data"] rfl (by decide) "a"
    (sample.row "a" "1" "x") (sample.row "a" "2" "y") [sample.row "a" "2" "y"] 1
    (by decide) (List.mem_singleton.mpr rfl) rfl (by decide) (by decide)

end Gearbox
namespace Gearbox

/-! ## Store.Create -/

/-- C5: for a store with a revision column, whatever revision the input object
carries and whatever the onCreate handlers wrote, the object Create returns has
its revision field equal to `1` and is the object handed to the insert; on the
in-memory table, after a successful Create the returned object is stored and a
Get by its key yields it, revision `1` included. -/
theorem C5_create_sets_revision_one (s : gorm.store (List Model)) (obj : Model)
    (tbl : List Model) (hrvcol : s.rvFieldName ≠ "") :
    (∀ out : Model, (s.Create obj tbl).1 = some out →
        util.GetStringField out s.rvFieldName = "1" ∧
          out = util.SetStringField (s.onCreate.foldl (fun o handler => handler o) obj)
                  s.rvFieldName "1" ∧
          (s.Create obj tbl).2.obj = out) ∧
      (∀ fields : List String, s.dao = gorm.memDao s.keyFieldName fields →
        (s.Create obj tbl).2.err = none →
        ∃ out : Model, (s.Create obj tbl).1 = some out ∧
          out ∈ (s.Create obj tbl).2.db ∧
          s.Get (util.GetStringField out s.keyFieldName) (s.Create obj tbl).2.db = .ok out ∧
          util.GetStringField out s.rvFieldName = "1") := by
  constructor
  · intro out hout
    simp only [gorm.store.Create, if_pos hrvcol] at hout ⊢
    split at hout
    · split at hout <;> simp at hout
    · simp only [Option.some.injEq] at hout
      subst hout
      rename_i db1 hcreate
      simp [hcreate, util.GetStringField, util.SetStringField]
  · intro fields hdao hnone
    simp only [gorm.store.Create, if_pos hrvcol, hdao] at hnone ⊢
    simp only [gorm.memDao] at hnone ⊢
    split at hnone
    · rename_i herr
      split at herr
      · split at hnone <;> simp at hnone
      · simp at herr
    · rename_i db1 hcreate
      split at hcreate
      · simp at hcreate
      · rename_i hany
        simp only [Except.ok.injEq] at hcreate
        subst hcreate
        refine ⟨_, rfl, by simp, ?_, by simp [util.GetStringField, util.SetStringField]⟩
        simp only [gorm.store.Get, hdao, gorm.memDao]
        have hnone1 : tbl.find? (gorm.matchesConds [(s.keyFieldName,
            util.GetStringField (util.SetStringField
              (s.onCreate.foldl (fun o handler => handler o) obj) s.rvFieldName "1")
              s.keyFieldName)]) = none := by
          rw [List.find?_eq_none]
          intro row hrow hmatch
          apply hany
          rw [List.any_eq_true]
          refine ⟨row, hrow, ?_⟩
          simpa [gorm.matchesConds, util.GetStringField] using hmatch
        rw [List.find?_append, hnone1]
        simp [gorm.matchesConds, util.GetStringField]

/-- Witness of C5: creating `a` with a stale revision `7` on an empty table. -/
theorem C5_create_sets_revision_one_witness :
    (∀ out : Model, (sample.fooStore.Create (sample.row "a" "7" "x") []).1 = some out →
        util.GetStringField out sample.fooStore.rvFieldName = "1" ∧
          out = util.SetStringField
                  (sample.fooStore.onCreate.foldl (fun o handler => handler o)
                    (sample.row "a" "7" "x"))
                  sample.fooStore.rvFieldName "1" ∧
          (sample.fooStore.Create (sample.row "a" "7" "x") []).2.obj = out) ∧
      ∃ out : Model, (sample.fooStore.Create (sample.row "a" "7" "x") []).1 = some out ∧
        out ∈ (sample.fooStore.Create (sample.row "a" "7" "x") []).2.db ∧
        sample.fooStore.Get (util.GetStringField out sample.fooStore.keyFieldName)
          (sample.fooStore.Create (sample.row "a" "7" "x") []).2.db = .ok out ∧
        util.GetStringField out sample.fooStore.rvFieldName = "1" :=
  ⟨(C5_create_sets_revision_one sample.fooStore (sample.row "a" "7" "x") [] (by decide)).1,
   (C5_create_sets_revision_one sample.fooStore (sample.row "a" "7" "x") [] (by decide)).2
     ["key", "rv", "data"] rfl (by decide)⟩

end Gearbox

namespace Gearbox

/-! ## RestAPI.Create: the empty key -/

/-- C11: for every object whose key is the empty string, RestAPI.Create returns
the BadRequest error (code 400) and no object, makes no call on the admission
chain, the converter or the store, and leaves the database as it was. -/
theorem C11_create_rejects_empty_key {ST σ : Type} (r : rest.RestAPICreate ST σ)
    (obj : apis.Object) (db : σ) (hkey : obj.GetKey = "") :
    (r.Create obj db).err
        = some (GoError.apiStatus (errors.NewBadRequest "the key can\x27t be empty")) ∧
      errors.IsBadRequestError (r.Create obj db).err = true ∧
      (errors.NewBadRequest "the key can\x27t be empty").Status.Code = 400 ∧
      (r.Create obj db).out = none ∧
      (r.Create obj db).calls = [] ∧
      (r.Create obj db).db = db := by
  have hcreate : r.Create obj db
      = { out := none
          err := some (GoError.apiStatus (errors.NewBadRequest "the key can\x27t be empty"))
          db := db
          calls := [] } := by
    rw [rest.RestAPICreate.Create, if_pos hkey]
  rw [hcreate]
  exact ⟨rfl, rfl, rfl, rfl, rfl, rfl⟩

/-- Witness of C11: a keyless object on a resource whose chain would reject it. -/
theorem C11_create_rejects_empty_key_witness :
    ((sample.fooCreate [sample.rejectingValidator]).Create sample.keylessObj []).err
        = some (GoError.apiStatus (errors.NewBadRequest "the key can\x27t be empty")) ∧
      errors.IsBadRequestError
        ((sample.fooCreate [sample.rejectingValidator]).Create sample.keylessObj []).err = true ∧
      (errors.NewBadRequest "the key can\x27t be empty").Status.Code = 400 ∧
      ((sample.fooCreate [sample.rejectingValidator]).Create sample.keylessObj []).out = none ∧
      ((sample.fooCreate [sample.rejectingValidator]).Create sample.keylessObj []).calls = [] ∧
      ((sample.fooCreate [sample.rejectingValidator]).Create sample.keylessObj []).db = [] :=
  C11_create_rejects_empty_key (sample.fooCreate [sample.rejectingValidator]) sample.keylessObj []
    (by decide)

/-! ## The admission chain -/

/-- The loop of the chain over one capability runs the applicable handlers
until the first error. -/
theorem AdmitRange_eq_invoke (chain : admission.chainAdmissionHandler) (position : Nat)
    (a : admission.Attribute) :
    admission.chainAdmissionHandler.AdmitRange position chain a
      = admission.invokeUntilError admission.Call.Admit
          (admission.applicable (fun h => h.Admit) a.Operation position chain) a := by
  induction chain generalizing position a with
  | nil => rfl
  | cons handler more ih =>
    simp only [admission.chainAdmissionHandler.AdmitRange, admission.applicable,
      admission.Attribute.GetOperation]
    cases hh : handler.Handles a.Operation with
    | false => simpa using ih (position + 1) a
    | true =>
      cases hm : handler.Admit with
      | none => simpa using ih (position + 1) a
      | some mutator =>
        simp only [Bool.not_true, Bool.false_eq_true, if_false, if_true,
          admission.invokeUntilError]
        rcases hres : mutator a with ⟨err, obj⟩
        cases err with
        | some e => rfl
        | none =>
          simp only
          rw [ih (position + 1) { a with Object := obj }]

/-- The loop of the chain over the validators runs the applicable handlers
until the first error. -/
theorem ValidateRange_eq_invoke (chain : admission.chainAdmissionHandler) (position : Nat)
    (a : admission.Attribute) :
    admission.chainAdmissionHandler.ValidateRange position chain a
      = admission.invokeUntilError admission.Call.Validate
          (admission.applicable (fun h => h.Validate) a.Operation position chain) a := by
  induction chain generalizing position a with
  | nil => rfl
  | cons handler more ih =>
    simp only [admission.chainAdmissionHandler.ValidateRange, admission.applicable,
      admission.Attribute.GetOperation]
    cases hh : handler.Handles a.Operation with
    | false => simpa using ih (position + 1) a
    | true =>
      cases hm : handler.Validate with
      | none => simpa using ih (position + 1) a
      | some validator =>
        simp only [Bool.not_true, Bool.false_eq_true, if_false, if_true,
          admission.invokeUntilError]
        rcases hres : validator a with ⟨err, obj⟩
        cases err with
        | some e => rfl
        | none =>
          simp only
          rw [ih (position + 1) { a with Object := obj }]

/-- The calls of a run that stops at the first error are a prefix of the calls
on all the given handlers, and all of them when no error is returned. -/
theorem invokeUntilError_calls (mk : Nat → admission.Call)
    (fns : List (Nat × (admission.Attribute → Option GoError × apis.Object)))
    (a : admission.Attribute) :
    (∃ later, fns.map (fun p => mk p.1)
        = (admission.invokeUntilError mk fns a).calls ++ later) ∧
      ((admission.invokeUntilError mk fns a).err = none →
        (admission.invokeUntilError mk fns a).calls = fns.map (fun p => mk p.1)) := by
  induction fns generalizing a with
  | nil => exact ⟨⟨[], rfl⟩, fun _ => rfl⟩
  | cons p more ih =>
    rcases p with ⟨position, fn⟩
    simp only [admission.invokeUntilError]
    rcases hres : fn a with ⟨err, obj⟩
    cases err with
    | some e =>
      refine ⟨⟨more.map (fun p => mk p.1), by simp⟩, ?_⟩
      intro h
      simp at h
    | none =>
      obtain ⟨⟨later, hl⟩, hall⟩ := ih { a with Object := obj }
      refine ⟨⟨later, ?_⟩, ?_⟩
      · simp only [List.map_cons, List.cons_append]
        rw [hl]
      · intro h
        simp only [List.map_cons]
        rw [hall h]

/-- C12: for every chain and every attributes, chain.Admit (resp. Validate)
makes the calls and returns the result of this run: take, in chain order, the
handlers that both report Handles(operation) and implement the mutator (resp.
validator) interface, invoke them in that order, stop at the first one that
returns an error and return that error, return nil when none fails. The calls
made are thus a prefix of the calls on the applicable handlers, and all of them
when nil is returned. -/
theorem C12_chain_invokes_applicable_in_order (chain : admission.chainAdmissionHandler)
    (a : admission.Attribute) :
    chain.Admit a = admission.invokeUntilError admission.Call.Admit
        (admission.applicable (fun h => h.Admit) a.Operation 0 chain) a ∧
      chain.Validate a = admission.invokeUntilError admission.Call.Validate
        (admission.applicable (fun h => h.Validate) a.Operation 0 chain) a ∧
      (∃ later, (admission.applicable (fun h => h.Admit) a.Operation 0 chain).map
          (fun p => admission.Call.Admit p.1) = (chain.Admit a).calls ++ later) ∧
      ((chain.Admit a).err = none → (chain.Admit a).calls
        = (admission.applicable (fun h => h.Admit) a.Operation 0 chain).map
            (fun p => admission.Call.Admit p.1)) ∧
      (∃ later, (admission.applicable (fun h => h.Validate) a.Operation 0 chain).map
          (fun p => admission.Call.Validate p.1) = (chain.Validate a).calls ++ later) ∧
      ((chain.Validate a).err = none → (chain.Validate a).calls
        = (admission.applicable (fun h => h.Validate) a.Operation 0 chain).map
            (fun p => admission.Call.Validate p.1)) := by
  have hA : chain.Admit a = _ := AdmitRange_eq_invoke chain 0 a
  have hV : chain.Validate a = _ := ValidateRange_eq_invoke chain 0 a
  refine ⟨hA, hV, ?_, ?_, ?_, ?_⟩
  · rw [hA]
    exact (invokeUntilError_calls _ _ _).1
  · rw [hA]
    exact (invokeUntilError_calls _ _ _).2
  · rw [hV]
    exact (invokeUntilError_calls _ _ _).1
  · rw [hV]
    exact (invokeUntilError_calls _ _ _).2

/-- Witness of C12: on CREATE the chain skips the mutator that only handles
UPDATE and the validator, and calls the mutator at position 2. -/
theorem C12_chain_invokes_applicable_in_order_witness :
    ((admission.chainAdmissionHandler.Admit sample.mixedChain sample.createAttrs).err = none →
      (admission.chainAdmissionHandler.Admit sample.mixedChain sample.createAttrs).calls
        = (admission.applicable (fun h => h.Admit) sample.createAttrs.Operation 0
            sample.mixedChain).map (fun p => admission.Call.Admit p.1)) ∧
    (admission.chainAdmissionHandler.Admit sample.mixedChain sample.createAttrs).calls
      = [admission.Call.Admit 2] ∧
    (admission.chainAdmissionHandler.Validate sample.mixedChain sample.createAttrs).calls
      = [admission.Call.Validate 1] :=
  ⟨(C12_chain_invokes_applicable_in_order sample.mixedChain sample.createAttrs).2.2.2.1,
   by decide, by decide⟩

end Gearbox

namespace Gearbox

/-! ## RestAPI.doAdmit: validators before mutators -/

/-- Every call of a run that stops at the first error is built by `mk`. -/
theorem invokeUntilError_calls_map (mk : Nat → admission.Call)
    (fns : List (Nat × (admission.Attribute → Option GoError × apis.Object)))
    (a : admission.Attribute) :
    ∃ positions : List Nat, (admission.invokeUntilError mk fns a).calls = positions.map mk := by
  induction fns generalizing a with
  | nil => exact ⟨[], rfl⟩
  | cons p more ih =>
    rcases p with ⟨position, fn⟩
    simp only [admission.invokeUntilError]
    rcases hres : fn a with ⟨err, obj⟩
    cases err with
    | some e => exact ⟨[position], rfl⟩
    | none =>
      obtain ⟨positions, hp⟩ := ih { a with Object := obj }
      exact ⟨position :: positions, by simp [hp]⟩

/-- A chain that does not handle the operation has no applicable handler. -/
theorem applicable_nil_of_not_Handles
    (pick : admission.Handler → Option (admission.Attribute → Option GoError × apis.Object))
    (operation : admission.Operation) (position : Nat) (chain : admission.chainAdmissionHandler)
    (h : chain.Handles operation = false) :
    admission.applicable pick operation position chain = [] := by
  induction chain generalizing position with
  | nil => rfl
  | cons handler more ih =>
    simp only [admission.chainAdmissionHandler.Handles] at h
    cases hh : handler.Handles operation with
    | true => simp [hh] at h
    | false =>
      simp only [hh, Bool.false_eq_true, if_false] at h
      simp only [admission.applicable, hh, Bool.false_eq_true, if_false]
      exact ih (position + 1) h

/-- The dispatch of doAdmit is the run the specification words: all applicable
validators first, then all applicable mutators. -/
theorem doAdmit_eq_validateAllThenMutateAll (chain : admission.chainAdmissionHandler)
    (resourceName : String) (operation : admission.Operation) (obj : apis.Object) :
    rest.doAdmit chain resourceName operation obj
      = rest.validateAllThenMutateAll chain resourceName operation obj := by
  cases hH : chain.Handles operation with
  | false =>
    simp [rest.doAdmit, rest.validateAllThenMutateAll, hH,
      applicable_nil_of_not_Handles _ _ _ _ hH, admission.invokeUntilError]
  | true =>
    simp only [rest.doAdmit, rest.validateAllThenMutateAll, hH, if_true,
      admission.chainAdmissionHandler.Validate, admission.chainAdmissionHandler.Admit,
      ValidateRange_eq_invoke, AdmitRange_eq_invoke]

/-- C13: for every admission chain, operation and object, doAdmit is the run
validate-all, then mutate-all over the applicable handlers (those that report
Handles(operation) and implement the capability), and its calls are tied to
them: if a validator returns an error, doAdmit returns that error, its calls are
the calls of Validate on the applicable validators up to the failing one and no
Admit is called; if no validator fails, its calls are the calls of Validate on
every applicable validator, in chain order, followed by the calls of Admit on
the applicable mutators, in chain order, up to the first that fails, and on
every applicable mutator when doAdmit returns nil. -/
theorem C13_validate_all_then_mutate_all (chain : admission.chainAdmissionHandler)
    (resourceName : String) (operation : admission.Operation) (obj : apis.Object) :
    rest.doAdmit chain resourceName operation obj
        = rest.validateAllThenMutateAll chain resourceName operation obj ∧
      (∀ e : GoError,
        (chain.Validate { Object := obj, Operation := operation, ResourceName := resourceName }).err
          = some e →
        (rest.doAdmit chain resourceName operation obj).err = some e ∧
          (∃ later, (admission.applicable (fun h => h.Validate) operation 0 chain).map
              (fun p => admission.Call.Validate p.1)
            = (rest.doAdmit chain resourceName operation obj).calls ++ later) ∧
          ∀ position : Nat,
            admission.Call.Admit position ∉ (rest.doAdmit chain resourceName operation obj).calls) ∧
      ((chain.Validate { Object := obj, Operation := operation, ResourceName := resourceName }).err
          = none →
        ∃ mutated later,
          (admission.applicable (fun h => h.Admit) operation 0 chain).map
              (fun p => admission.Call.Admit p.1) = mutated ++ later ∧
          (rest.doAdmit chain resourceName operation obj).calls
            = (admission.applicable (fun h => h.Validate) operation 0 chain).map
                (fun p => admission.Call.Validate p.1) ++ mutated ∧
          ((rest.doAdmit chain resourceName operation obj).err = none → later = [])) ∧
      (∃ vs ms : List Nat, (rest.doAdmit chain resourceName operation obj).calls
        = vs.map admission.Call.Validate ++ ms.map admission.Call.Admit) := by
  have hV : chain.Validate { Object := obj, Operation := operation, ResourceName := resourceName }
      = admission.invokeUntilError admission.Call.Validate
          (admission.applicable (fun h => h.Validate) operation 0 chain)
          { Object := obj, Operation := operation, ResourceName := resourceName } :=
    ValidateRange_eq_invoke chain 0
      { Object := obj, Operation := operation, ResourceName := resourceName }
  have hEq := doAdmit_eq_validateAllThenMutateAll chain resourceName operation obj
  refine ⟨hEq, ?_⟩
  rw [hEq, hV]
  have hvcalls := invokeUntilError_calls admission.Call.Validate
    (admission.applicable (fun h => h.Validate) operation 0 chain)
    { Object := obj, Operation := operation, ResourceName := resourceName }
  obtain ⟨vs, hvs⟩ := invokeUntilError_calls_map admission.Call.Validate
    (admission.applicable (fun h => h.Validate) operation 0 chain)
    { Object := obj, Operation := operation, ResourceName := resourceName }
  cases hve : (admission.invokeUntilError admission.Call.Validate
      (admission.applicable (fun h => h.Validate) operation 0 chain)
      { Object := obj, Operation := operation, ResourceName := resourceName }).err with
  | some e0 =>
    have hspec : rest.validateAllThenMutateAll chain resourceName operation obj
        = { err := some e0
            Object := (admission.invokeUntilError admission.Call.Validate
              (admission.applicable (fun h => h.Validate) operation 0 chain)
              { Object := obj, Operation := operation, ResourceName := resourceName }).Object
            calls := (admission.invokeUntilError admission.Call.Validate
              (admission.applicable (fun h => h.Validate) operation 0 chain)
              { Object := obj, Operation := operation, ResourceName := resourceName }).calls } := by
      simp only [rest.validateAllThenMutateAll, hve]
    rw [hspec]
    refine ⟨?_, ?_, ⟨vs, [], by simp [hvs]⟩⟩
    · intro e he
      cases he
      refine ⟨rfl, hvcalls.1, ?_⟩
      intro position hmem
      simp only [hvs, List.mem_map] at hmem
      obtain ⟨i, _, hi⟩ := hmem
      cases hi
    · intro he
      cases he
  | none =>
    have hall := hvcalls.2 hve
    have hmcalls := invokeUntilError_calls admission.Call.Admit
      (admission.applicable (fun h => h.Admit) operation 0 chain)
      { Object := (admission.invokeUntilError admission.Call.Validate
          (admission.applicable (fun h => h.Validate) operation 0 chain)
          { Object := obj, Operation := operation, ResourceName := resourceName }).Object,
        Operation := operation, ResourceName := resourceName }
    obtain ⟨ms, hms⟩ := invokeUntilError_calls_map admission.Call.Admit
      (admission.applicable (fun h => h.Admit) operation 0 chain)
      { Object := (admission.invokeUntilError admission.Call.Validate
          (admission.applicable (fun h => h.Validate) operation 0 chain)
          { Object := obj, Operation := operation, ResourceName := resourceName }).Object,
        Operation := operation, ResourceName := resourceName }
    have hspec : rest.validateAllThenMutateAll chain resourceName operation obj
        = { err := (admission.invokeUntilError admission.Call.Admit
              (admission.applicable (fun h => h.Admit) operation 0 chain)
              { Object := (admission.invokeUntilError admission.Call.Validate
                  (admission.applicable (fun h => h.Validate) operation 0 chain)
                  { Object := obj, Operation := operation,
                    ResourceName := resourceName }).Object,
                Operation := operation, ResourceName := resourceName }).err
            Object := (admission.invokeUntilError admission.Call.Admit
              (admission.applicable (fun h => h.Admit) operation 0 chain)
              { Object := (admission.invokeUntilError admission.Call.Validate
                  (admission.applicable (fun h => h.Validate) operation 0 chain)
                  { Object := obj, Operation := operation,
                    ResourceName := resourceName }).Object,
                Operation := operation, ResourceName := resourceName }).Object
            calls := (admission.applicable (fun h => h.Validate) operation 0 chain).map
                (fun p => admission.Call.Validate p.1)
              ++ (admission.invokeUntilError admission.Call.Admit
              (admission.applicable (fun h => h.Admit) operation 0 chain)
              { Object := (admission.invokeUntilError admission.Call.Validate
                  (admission.applicable (fun h => h.Validate) operation 0 chain)
                  { Object := obj, Operation := operation,
                    ResourceName := resourceName }).Object,
                Operation := operation, ResourceName := resourceName }).calls } := by
      simp only [rest.validateAllThenMutateAll, hve, hall]
    rw [hspec]
    refine ⟨?_, ?_, ?_⟩
    · intro e he
      cases he
    · intro _
      obtain ⟨later, hlater⟩ := hmcalls.1
      refine ⟨_, later, hlater, rfl, ?_⟩
      intro herr
      have hfull := hmcalls.2 herr
      rw [hfull] at hlater
      exact List.self_eq_append_right.mp hlater
    · refine ⟨(admission.applicable (fun h => h.Validate) operation 0 chain).map Prod.fst, ms, ?_⟩
      simp only [hms, List.map_map]
      rfl

/-- Witness of C13: a mutator stands before a rejecting validator in the chain,
yet the validator runs first, its error is returned and Admit is never called;
on a chain whose validator accepts, the validator at position 1 runs before the
mutator at position 2. -/
theorem C13_validate_all_then_mutate_all_witness :
    (rest.doAdmit sample.rejectingChain "foos" admission.Create sample.fooObj).err
        = some (GoError.other "rejected") ∧
      (∀ position : Nat, admission.Call.Admit position ∉
        (rest.doAdmit sample.rejectingChain "foos" admission.Create sample.fooObj).calls) ∧
      (rest.doAdmit sample.rejectingChain "foos" admission.Create sample.fooObj).calls
        = [admission.Call.Validate 1] ∧
      (rest.doAdmit sample.mixedChain "foos" admission.Create sample.fooObj).calls
        = [admission.Call.Validate 1, admission.Call.Admit 2] :=
  ⟨((C13_validate_all_then_mutate_all sample.rejectingChain "foos" admission.Create
      sample.fooObj).2.1 (GoError.other "rejected") (by decide)).1,
   ((C13_validate_all_then_mutate_all sample.rejectingChain "foos" admission.Create
      sample.fooObj).2.1 (GoError.other "rejected") (by decide)).2.2,
   by decide, by decide⟩

/-! ## The API error taxonomy -/

/-- C14: each API error constructor yields a Status of kind `Status`, status
`Failure` and the HTTP code of its kind (400, 403, 404, 409, 500); each
predicate is true on the errors of its own constructor and false on those of
the other four, on nil and on every error that is not an API StatusError. -/
theorem C14_api_error_constructors_and_predicates (message operate kind key : String)
    (err : GoError) :
    ((errors.NewBadRequest message).Status.ObjectMeta.Kind = "Status" ∧
        (errors.NewBadRequest message).Status.Status = "Failure" ∧
        (errors.NewBadRequest message).Status.Code = 400) ∧
      ((errors.NewForbidden operate kind key message).Status.ObjectMeta.Kind = "Status" ∧
        (errors.NewForbidden operate kind key message).Status.Status = "Failure" ∧
        (errors.NewForbidden operate kind key message).Status.Code = 403) ∧
      ((errors.NewNotFound kind key).Status.ObjectMeta.Kind = "Status" ∧
        (errors.NewNotFound kind key).Status.Status = "Failure" ∧
        (errors.NewNotFound kind key).Status.Code = 404) ∧
      ((errors.NewConflict err).Status.ObjectMeta.Kind = "Status" ∧
        (errors.NewConflict err).Status.Status = "Failure" ∧
        (errors.NewConflict err).Status.Code = 409) ∧
      ((errors.NewInternalError err).Status.ObjectMeta.Kind = "Status" ∧
        (errors.NewInternalError err).Status.Status = "Failure" ∧
        (errors.NewInternalError err).Status.Code = 500) ∧
      (∀ e : Option GoError,
        e = some (.apiStatus (errors.NewBadRequest message)) →
          errors.IsBadRequestError e = true ∧ errors.IsForbiddenError e = false ∧
          errors.IsNotFoundError e = false ∧ errors.IsConflictError e = false ∧
          errors.IsInternalError e = false) ∧
      (∀ e : Option GoError,
        e = some (.apiStatus (errors.NewForbidden operate kind key message)) →
          errors.IsBadRequestError e = false ∧ errors.IsForbiddenError e = true ∧
          errors.IsNotFoundError e = false ∧ errors.IsConflictError e = false ∧
          errors.IsInternalError e = false) ∧
      (∀ e : Option GoError,
        e = some (.apiStatus (errors.NewNotFound kind key)) →
          errors.IsBadRequestError e = false ∧ errors.IsForbiddenError e = false ∧
          errors.IsNotFoundError e = true ∧ errors.IsConflictError e = false ∧
          errors.IsInternalError e = false) ∧
      (∀ e : Option GoError,
        e = some (.apiStatus (errors.NewConflict err)) →
          errors.IsBadRequestError e = false ∧ errors.IsForbiddenError e = false ∧
          errors.IsNotFoundError e = false ∧ errors.IsConflictError e = true ∧
          errors.IsInternalError e = false) ∧
      (∀ e : Option GoError,
        e = some (.apiStatus (errors.NewInternalError err)) →
          errors.IsBadRequestError e = false ∧ errors.IsForbiddenError e = false ∧
          errors.IsNotFoundError e = false ∧ errors.IsConflictError e = false ∧
          errors.IsInternalError e = true) ∧
      (∀ e : Option GoError, (∀ s : errors.StatusError, e ≠ some (.apiStatus s)) →
          errors.IsBadRequestError e = false ∧ errors.IsForbiddenError e = false ∧
          errors.IsNotFoundError e = false ∧ errors.IsConflictError e = false ∧
          errors.IsInternalError e = false) := by
  refine ⟨⟨rfl, rfl, rfl⟩, ⟨rfl, rfl, rfl⟩, ⟨rfl, rfl, rfl⟩, ⟨rfl, rfl, rfl⟩, ⟨rfl, rfl, rfl⟩,
    ?_, ?_, ?_, ?_, ?_, ?_⟩
  · intro e he
    subst he
    exact ⟨rfl, rfl, rfl, rfl, rfl⟩
  · intro e he
    subst he
    exact ⟨rfl, rfl, rfl, rfl, rfl⟩
  · intro e he
    subst he
    exact ⟨rfl, rfl, rfl, rfl, rfl⟩
  · intro e he
    subst he
    exact ⟨rfl, rfl, rfl, rfl, rfl⟩
  · intro e he
    subst he
    exact ⟨rfl, rfl, rfl, rfl, rfl⟩
  · intro e he
    rcases e with _ | e
    · exact ⟨rfl, rfl, rfl, rfl, rfl⟩
    · cases e with
      | apiStatus s => exact absurd rfl (he s)
      | storageStatus s => exact ⟨rfl, rfl, rfl, rfl, rfl⟩
      | recordNotFound => exact ⟨rfl, rfl, rfl, rfl, rfl⟩
      | mysql n m => exact ⟨rfl, rfl, rfl, rfl, rfl⟩
      | other m => exact ⟨rfl, rfl, rfl, rfl, rfl⟩

/-- Witness of C14: the storage NotFound error is not an API StatusError, so no
API predicate holds for it, although its own code is 404. -/
theorem C14_api_error_constructors_and_predicates_witness :
    errors.IsBadRequestError (some (GoError.storageStatus (storage.NewNotFoundError "FooRow" "a")))
        = false ∧
      errors.IsForbiddenError (some (GoError.storageStatus (storage.NewNotFoundError "FooRow" "a")))
        = false ∧
      errors.IsNotFoundError (some (GoError.storageStatus (storage.NewNotFoundError "FooRow" "a")))
        = false ∧
      errors.IsConflictError (some (GoError.storageStatus (storage.NewNotFoundError "FooRow" "a")))
        = false ∧
      errors.IsInternalError (some (GoError.storageStatus (storage.NewNotFoundError "FooRow" "a")))
        = false :=
  (C14_api_error_constructors_and_predicates "" "" "" "" (GoError.other "")).2.2.2.2.2.2.2.2.2.2
    (some (GoError.storageStatus (storage.NewNotFoundError "FooRow" "a")))
    (by intro s h; cases h)

end Gearbox

namespace Gearbox

/-! ## controller: the reconcile loop -/

/-- C15: for every request and every result, when the reconciler returns a
non-nil error, reconcileHandler makes exactly one call on the queue,
AddRateLimited(req); it calls neither Forget nor AddAfter, whatever the
RequeueAfter returned with the error. -/
theorem C15_error_retries_rate_limited {ρ : Type} (fmtV : ρ → String)
    (ctl : controller.controller ρ) (req : reconcile.Request) (result : reconcile.Result)
    (e : GoError) (hdo : ctl.Do req = .ret (result, some e)) :
    ctl.reconcileHandler fmtV (.request req)
        = .ret [controller.QueueCall.AddRateLimited (.request req)] ∧
      ∀ calls, ctl.reconcileHandler fmtV (.request req) = .ret calls →
        calls.length = 1 ∧
          (∀ item, controller.QueueCall.Forget item ∉ calls) ∧
          (∀ item duration, controller.QueueCall.AddAfter item duration ∉ calls) := by
  have h : ctl.reconcileHandler fmtV (.request req)
      = .ret [controller.QueueCall.AddRateLimited (.request req)] := by
    simp [controller.controller.reconcileHandler, controller.controller.Reconcile, hdo]
  refine ⟨h, ?_⟩
  intro calls hcalls
  rw [h] at hcalls
  cases hcalls
  simp

/-- Witness of C15: the reconciler returns an error together with RequeueAfter = 5. -/
theorem C15_error_retries_rate_limited_witness :
    sample.failingController.reconcileHandler id (.request sample.reqA)
        = .ret [controller.QueueCall.AddRateLimited (.request sample.reqA)] ∧
      ∀ calls, sample.failingController.reconcileHandler id (.request sample.reqA) = .ret calls →
        calls.length = 1 ∧
          (∀ item, controller.QueueCall.Forget item ∉ calls) ∧
          (∀ item duration, controller.QueueCall.AddAfter item duration ∉ calls) :=
  C15_error_retries_rate_limited id sample.failingController sample.reqA { RequeueAfter := 5 }
    (GoError.other "boom") rfl

/-- Counterexample to C16: with a nil error, Requeue set and a negative
RequeueAfter, reconcileHandler calls AddRateLimited and does not call Forget,
although RequeueAfter is neither positive nor zero. -/
theorem C16_counterexample_negative_delay :
    (sample.resultController { Requeue := true, RequeueAfter := -1 }).Do sample.reqA
        = .ret ({ Requeue := true, RequeueAfter := -1 }, none) ∧
      (sample.resultController { Requeue := true, RequeueAfter := -1 }).reconcileHandler id
          (.request sample.reqA)
        = .ret [controller.QueueCall.AddRateLimited (.request sample.reqA)] ∧
      (sample.resultController { Requeue := true, RequeueAfter := -1 }).reconcileHandler id
          (.request sample.reqA)
        ≠ .ret [controller.QueueCall.Forget (.request sample.reqA)] := by
  decide

/-- C16 (amended): for every request, when the reconciler returns a nil error,
reconcileHandler makes exactly these calls on the queue: Forget(req) then
AddAfter(req, d) when RequeueAfter = d > 0, whatever Requeue is;
AddRateLimited(req) alone when RequeueAfter is not positive and Requeue is true;
Forget(req) alone when RequeueAfter is not positive and Requeue is false. -/
theorem C16_nil_error_queue_calls {ρ : Type} (fmtV : ρ → String)
    (ctl : controller.controller ρ) (req : reconcile.Request) (result : reconcile.Result)
    (hdo : ctl.Do req = .ret (result, none)) :
    (result.RequeueAfter > 0 →
        ctl.reconcileHandler fmtV (.request req)
          = .ret [controller.QueueCall.Forget (.request req),
              controller.QueueCall.AddAfter (.request req) result.RequeueAfter]) ∧
      (result.RequeueAfter ≤ 0 → result.Requeue = true →
        ctl.reconcileHandler fmtV (.request req)
          = .ret [controller.QueueCall.AddRateLimited (.request req)]) ∧
      (result.RequeueAfter ≤ 0 → result.Requeue = false →
        ctl.reconcileHandler fmtV (.request req)
          = .ret [controller.QueueCall.Forget (.request req)]) := by
  refine ⟨?_, ?_, ?_⟩
  · intro hpos
    simp [controller.controller.reconcileHandler, controller.controller.Reconcile, hdo, hpos]
  · intro hle hre
    simp [controller.controller.reconcileHandler, controller.controller.Reconcile, hdo, hre]
    exact hle
  · intro hle hre
    simp [controller.controller.reconcileHandler, controller.controller.Reconcile, hdo, hre]
    exact hle

/-- Witness of C16: a delay of 7 with Requeue set gives Forget then AddAfter 7. -/
theorem C16_nil_error_queue_calls_witness :
    (sample.resultController { Requeue := true, RequeueAfter := 7 }).reconcileHandler id
        (.request sample.reqA)
      = .ret [controller.QueueCall.Forget (.request sample.reqA),
          controller.QueueCall.AddAfter (.request sample.reqA) 7] :=
  (C16_nil_error_queue_calls id (sample.resultController { Requeue := true, RequeueAfter := 7 })
    sample.reqA { Requeue := true, RequeueAfter := 7 } rfl).1 (by decide)

/-- C17: for every reconciler and request: if the reconciler panics with r and
RecoverPanic is enabled, Reconcile returns the zero result and the error
`panic: r [recovered]` and no panic escapes; if it panics with r and
RecoverPanic is nil or false, Reconcile panics with the same r; if it does not
panic, Reconcile returns its result and error unchanged. -/
theorem C17_reconcile_recovers_panic {ρ : Type} (fmtV : ρ → String)
    (ctl : controller.controller ρ) (req : reconcile.Request) :
    (∀ r, ctl.Do req = .panic r → ctl.RecoverPanic = some true →
        ctl.Reconcile fmtV req
          = .ret ({}, some (GoError.other ("panic: " ++ fmtV r ++ " [recovered]")))) ∧
      (∀ r, ctl.Do req = .panic r → ctl.RecoverPanic ≠ some true →
        ctl.Reconcile fmtV req = .panic r) ∧
      (∀ out, ctl.Do req = .ret out → ctl.Reconcile fmtV req = .ret out) := by
  refine ⟨?_, ?_, ?_⟩
  · intro r hdo hrec
    simp [controller.controller.Reconcile, hdo, hrec]
  · intro r hdo hrec
    simp [controller.controller.Reconcile, hdo, hrec]
  · intro out hdo
    simp [controller.controller.Reconcile, hdo]

/-- Witness of C17: a reconciler that panics with `oops`, with RecoverPanic
true, false and nil. -/
theorem C17_reconcile_recovers_panic_witness :
    (sample.panickingController (some true)).Reconcile id sample.reqA
        = .ret ({}, some (GoError.other "panic: oops [recovered]")) ∧
      (sample.panickingController (some false)).Reconcile id sample.reqA = .panic "oops" ∧
      (sample.panickingController none).Reconcile id sample.reqA = .panic "oops" ∧
      (sample.resultController { Requeue := true }).Reconcile id sample.reqA
        = .ret ({ Requeue := true }, none) :=
  ⟨(C17_reconcile_recovers_panic id (sample.panickingController (some true)) sample.reqA).1
      "oops" rfl rfl,
   (C17_reconcile_recovers_panic id (sample.panickingController (some false)) sample.reqA).2.1
      "oops" rfl (by decide),
   (C17_reconcile_recovers_panic id (sample.panickingController none) sample.reqA).2.1
      "oops" rfl (by decide),
   (C17_reconcile_recovers_panic id (sample.resultController { Requeue := true })
      sample.reqA).2.2 _ rfl⟩

/-! ## controller: sources and predicates -/

/-- The loop over the predicates of `source.Start` runs to its end exactly when
every predicate answers true. -/
theorem predicatesPass_iff {ε : Type} (method : controller.Predicate → ε → Bool)
    (predicates : List controller.Predicate) (evt : ε) :
    controller.source.predicatesPass method predicates evt = true
      ↔ ∀ p ∈ predicates, method p evt = true := by
  induction predicates with
  | nil => simp [controller.source.predicatesPass]
  | cons p more ih =>
    simp only [controller.source.predicatesPass, List.mem_cons, forall_eq_or_imp]
    cases hp : method p evt with
    | true => simpa using ih
    | false => simp

/-- C18: for every watch event of type Created, Updated or Deleted whose object
has a non-empty key and every list of predicates: if every predicate answers
true to its method of that kind, the source makes exactly one call on the event
handler, the method of that kind with the object of the event; if some
predicate answers false, the source makes no call on the handler. -/
theorem C18_source_predicates_conjunction (predicates : List controller.Predicate)
    (evt : rest.Event) (hkey : evt.Obj.GetKey ≠ "") :
    (evt.Typ = watch.EventTypeCreated →
        ((∀ p ∈ predicates, p.Create { Object := some evt.Obj } = true) →
          controller.source.handle predicates evt
            = [controller.HandlerCall.Create { Object := some evt.Obj }]) ∧
        ((∃ p ∈ predicates, p.Create { Object := some evt.Obj } = false) →
          controller.source.handle predicates evt = [])) ∧
      (evt.Typ = watch.EventTypeUpdated →
        ((∀ p ∈ predicates, p.Update { ObjectNew := some evt.Obj } = true) →
          controller.source.handle predicates evt
            = [controller.HandlerCall.Update { ObjectNew := some evt.Obj }]) ∧
        ((∃ p ∈ predicates, p.Update { ObjectNew := some evt.Obj } = false) →
          controller.source.handle predicates evt = [])) ∧
      (evt.Typ = watch.EventTypeDeleted →
        ((∀ p ∈ predicates, p.Delete { Object := some evt.Obj } = true) →
          controller.source.handle predicates evt
            = [controller.HandlerCall.Delete { Object := some evt.Obj }]) ∧
        ((∃ p ∈ predicates, p.Delete { Object := some evt.Obj } = false) →
          controller.source.handle predicates evt = [])) := by
  refine ⟨?_, ?_, ?_⟩
  · intro htyp
    constructor
    · intro hall
      have hpass := (predicatesPass_iff (fun p => p.Create) predicates
        { Object := some evt.Obj }).mpr hall
      simp only [controller.source.handle, if_neg hkey, if_pos htyp, hpass, if_true]
    · rintro ⟨p, hmem, hfalse⟩
      have hpass : controller.source.predicatesPass (fun p => p.Create) predicates
          { Object := some evt.Obj } = false := by
        cases h : controller.source.predicatesPass (fun p => p.Create) predicates
            { Object := some evt.Obj } with
        | false => rfl
        | true =>
          have := (predicatesPass_iff (fun p => p.Create) predicates _).mp h p hmem
          simp [hfalse] at this
      simp only [controller.source.handle, if_neg hkey, if_pos htyp, hpass]
      rfl
  · intro htyp
    have hne : evt.Typ ≠ watch.EventTypeCreated := by
      rw [htyp]
      decide
    constructor
    · intro hall
      have hpass := (predicatesPass_iff (fun p => p.Update) predicates
        { ObjectNew := some evt.Obj }).mpr hall
      simp only [controller.source.handle, if_neg hkey, if_neg hne, if_pos htyp, hpass, if_true]
    · rintro ⟨p, hmem, hfalse⟩
      have hpass : controller.source.predicatesPass (fun p => p.Update) predicates
          { ObjectNew := some evt.Obj } = false := by
        cases h : controller.source.predicatesPass (fun p => p.Update) predicates
            { ObjectNew := some evt.Obj } with
        | false => rfl
        | true =>
          have := (predicatesPass_iff (fun p => p.Update) predicates _).mp h p hmem
          simp [hfalse] at this
      simp only [controller.source.handle, if_neg hkey, if_neg hne, if_pos htyp, hpass]
      rfl
  · intro htyp
    have hne : evt.Typ ≠ watch.EventTypeCreated := by
      rw [htyp]
      decide
    have hne2 : evt.Typ ≠ watch.EventTypeUpdated := by
      rw [htyp]
      decide
    constructor
    · intro hall
      have hpass := (predicatesPass_iff (fun p => p.Delete) predicates
        { Object := some evt.Obj }).mpr hall
      simp only [controller.source.handle, if_neg hkey, if_neg hne, if_neg hne2, if_pos htyp,
        hpass, if_true]
    · rintro ⟨p, hmem, hfalse⟩
      have hpass : controller.source.predicatesPass (fun p => p.Delete) predicates
          { Object := some evt.Obj } = false := by
        cases h : controller.source.predicatesPass (fun p => p.Delete) predicates
            { Object := some evt.Obj } with
        | false => rfl
        | true =>
          have := (predicatesPass_iff (fun p => p.Delete) predicates _).mp h p hmem
          simp [hfalse] at this
      simp only [controller.source.handle, if_neg hkey, if_neg hne, if_neg hne2, if_pos htyp,
        hpass]
      rfl

/-- Witness of C18: an Updated event of `fooObj` passes two accepting predicates
and is dropped when a rejecting predicate follows an accepting one. -/
theorem C18_source_predicates_conjunction_witness :
    controller.source.handle [sample.alwaysPredicate, sample.alwaysPredicate]
        { Typ := watch.EventTypeUpdated, Obj := sample.fooObj }
      = [controller.HandlerCall.Update { ObjectNew := some sample.fooObj }] ∧
    controller.source.handle [sample.alwaysPredicate, sample.neverPredicate]
        { Typ := watch.EventTypeUpdated, Obj := sample.fooObj } = [] :=
  ⟨((C18_source_predicates_conjunction [sample.alwaysPredicate, sample.alwaysPredicate]
      { Typ := watch.EventTypeUpdated, Obj := sample.fooObj } (by decide)).2.1 rfl).1
      (by intro p hp; simp at hp; subst hp; rfl),
   ((C18_source_predicates_conjunction [sample.alwaysPredicate, sample.neverPredicate]
      { Typ := watch.EventTypeUpdated, Obj := sample.fooObj } (by decide)).2.1 rfl).2
      ⟨sample.neverPredicate, by simp, rfl⟩⟩

/-- C19 (code bug): on every tick and for every list of predicates, TimerSource
calls Generic on the event handler exactly once, also when a predicate answers
false to the Generic event: with the single predicate that answers false to
everything the handler is still called. -/
theorem C19_timer_fires_despite_predicates :
    (∀ predicates : List controller.Predicate,
        controller.TimerSource.tick predicates = [controller.HandlerCall.Generic {}]) ∧
      sample.neverPredicate.Generic {} = false ∧
      controller.TimerSource.tick [sample.neverPredicate] = [controller.HandlerCall.Generic {}] := by
  refine ⟨?_, rfl, rfl⟩
  intro predicates
  simp [controller.TimerSource.tick]

/-! ## The selector of the gorm store: boolean literals -/

/-- On a boolean column a requirement `key = v` compiles to what
`strconv.ParseBool` makes of `v`. -/
theorem generateExpr_bool {φ τ : Type} (s : gorm.Selector φ τ) (key v : String)
    (hfield : s.fieldGetter key = some gorm.FieldType.Bool) :
    s.generateExpr { key := key, operator := selector.Equals, strValues := [v] }
      = (ParseBool v).map (fun b => gorm.Condition.bool (gorm.Expr.Is key b)) := by
  simp only [gorm.Selector.generateExpr, selector.Requirement.Key, hfield]
  have hgen : gorm.generateExprByField
      { key := key, operator := selector.Equals, strValues := [v] } key false true true ParseBool
      = (ParseBool v).map (fun b => gorm.Expr.Is key b) := by
    simp [gorm.generateExprByField, selector.Requirement.Operator, selector.Requirement.PopAny,
      selector.Equals]
    cases ParseBool v <;> rfl
  rw [hgen]
  cases ParseBool v <;> rfl

/-- Counterexample to C20: the literal `1` is neither `true` nor `false` in any
case, yet it compiles to the condition `flag IS true`; the literal `tRuE` equals
`true` once case is ignored, yet its compilation fails. -/
theorem C20_counterexample_one_and_mixed_case :
    equalsIgnoreCase "1" "true" = false ∧ equalsIgnoreCase "1" "false" = false ∧
      sample.flagSelector.generateExpr
          { key := "flag", operator := selector.Equals, strValues := ["1"] }
        = .ok (gorm.Condition.bool (gorm.Expr.Is "flag" true)) ∧
      equalsIgnoreCase "tRuE" "true" = true ∧
      sample.flagSelector.generateExpr
          { key := "flag", operator := selector.Equals, strValues := ["tRuE"] }
        = .error (GoError.other "strconv.ParseBool: parsing \"tRuE\": invalid syntax") := by
  refine ⟨by decide, by decide, ?_, by decide, ?_⟩
  · rw [generateExpr_bool _ _ _ rfl]
    decide
  · rw [generateExpr_bool _ _ _ rfl]
    decide

/-- C20 (amended): for a boolean column and a requirement `key = v`, the
compilation succeeds with `key IS true` when v is one of 1, t, T, TRUE, true,
True, succeeds with `key IS false` when v is one of 0, f, F, FALSE, false,
False, and fails with the error of strconv.ParseBool for every other literal. -/
theorem C20_bool_literals {φ τ : Type} (s : gorm.Selector φ τ) (key v : String)
    (hfield : s.fieldGetter key = some gorm.FieldType.Bool) :
    (v ∈ ["1", "t", "T", "TRUE", "true", "True"] →
        s.generateExpr { key := key, operator := selector.Equals, strValues := [v] }
          = .ok (gorm.Condition.bool (gorm.Expr.Is key true))) ∧
      (v ∈ ["0", "f", "F", "FALSE", "false", "False"] →
        s.generateExpr { key := key, operator := selector.Equals, strValues := [v] }
          = .ok (gorm.Condition.bool (gorm.Expr.Is key false))) ∧
      (v ∉ ["1", "t", "T", "TRUE", "true", "True"] →
        v ∉ ["0", "f", "F", "FALSE", "false", "False"] →
        s.generateExpr { key := key, operator := selector.Equals, strValues := [v] }
          = .error (GoError.other
              ("strconv.ParseBool: parsing " ++ Quote v ++ ": invalid syntax"))) := by
  rw [generateExpr_bool s key v hfield]
  refine ⟨?_, ?_, ?_⟩
  · intro hmem
    simp only [List.mem_cons, List.mem_singleton, List.not_mem_nil, or_false] at hmem
    rw [ParseBool, if_pos hmem]
    rfl
  · intro hmem
    have hnot : ¬ (v = "1" ∨ v = "t" ∨ v = "T" ∨ v = "TRUE" ∨ v = "true" ∨ v = "True") := by
      simp only [List.mem_cons, List.mem_singleton, List.not_mem_nil, or_false] at hmem
      rcases hmem with h | h | h | h | h | h <;> (subst h; decide)
    simp only [List.mem_cons, List.mem_singleton, List.not_mem_nil, or_false] at hmem
    rw [ParseBool, if_neg hnot, if_pos hmem]
    rfl
  · intro h1 h2
    simp only [List.mem_cons, List.mem_singleton, List.not_mem_nil, or_false] at h1 h2
    rw [ParseBool, if_neg h1, if_neg h2]
    rfl

/-- Witness of C20: on the boolean column `flag`, `T` compiles to `flag IS true`,
`False` to `flag IS false`, and `yes` fails. -/
theorem C20_bool_literals_witness :
    sample.flagSelector.generateExpr
        { key := "flag", operator := selector.Equals, strValues := ["T"] }
      = .ok (gorm.Condition.bool (gorm.Expr.Is "flag" true)) ∧
    sample.flagSelector.generateExpr
        { key := "flag", operator := selector.Equals, strValues := ["False"] }
      = .ok (gorm.Condition.bool (gorm.Expr.Is "flag" false)) ∧
    sample.flagSelector.generateExpr
        { key := "flag", operator := selector.Equals, strValues := ["yes"] }
      = .error (GoError.other ("strconv.ParseBool: parsing " ++ Quote "yes" ++ ": invalid syntax")) :=
  ⟨(C20_bool_literals sample.flagSelector "flag" "T" rfl).1 (by decide),
   (C20_bool_literals sample.flagSelector "flag" "False" rfl).2.1 (by decide),
   (C20_bool_literals sample.flagSelector "flag" "yes" rfl).2.2 (by decide) (by decide)⟩

end Gearbox

namespace Gearbox

/-! ## The selector of the gorm store: integer literals -/

/-- A value inside the signed range of a width is kept by the conversion to
that width. -/
theorem wrapBits_of_fits (bits : Nat) (hbits : bits ∈ [8, 16, 32, 64]) (n : Int)
    (hlo : -2 ^ (bits - 1) ≤ n) (hhi : n < 2 ^ (bits - 1)) : wrapBits bits n = n := by
  simp only [List.mem_cons, List.mem_singleton, List.not_mem_nil, or_false] at hbits
  rcases hbits with h | h | h | h <;> subst h <;> simp only [wrapBits] <;> norm_num at hlo hhi ⊢ <;>
    omega

/-- The conversion to a width answers a value of the signed range of that width. -/
theorem wrapBits_range (bits : Nat) (hbits : bits ∈ [8, 16, 32, 64]) (n : Int) :
    -2 ^ (bits - 1) ≤ wrapBits bits n ∧ wrapBits bits n < 2 ^ (bits - 1) := by
  simp only [List.mem_cons, List.mem_singleton, List.not_mem_nil, or_false] at hbits
  rcases hbits with h | h | h | h <;> subst h <;> simp only [wrapBits] <;> norm_num <;> omega

/-- On a column whose field implements `Field[T]`, a requirement `key = v`
compiles to `Eq` on what the coercion makes of `v`. -/
theorem generateExprByField_equals_single {T : Type} (key v column : String) (tIsBool : Bool)
    (fromString : String → Except GoError T) :
    gorm.generateExprByField { key := key, operator := selector.Equals, strValues := [v] } column
        true false tIsBool fromString
      = (fromString v).map (fun value => gorm.Expr.Eq column value) := by
  simp [gorm.generateExprByField, selector.Requirement.Operator, selector.Requirement.PopAny,
    selector.Equals, selector.DoubleEquals, selector.In, selector.NotEquals, selector.NotIn,
    selector.GreaterThan, selector.LessThan]
  cases fromString v <;> rfl

/-- What the coercion of an integer column computes: for a column of width w
(int8, int16, int32, int64, and int with w = 64) a requirement `key = v` is
compiled through strconv.Atoi followed by the conversion to width w. It yields
the value of v when Atoi accepts v and the value fits the signed w-bit range,
and fails with the error of Atoi when Atoi rejects v; the conversion itself
never fails, it answers a value of the signed w-bit range, and for w = 64 the
coercion is Atoi itself. -/
theorem integer_coercion_by_width {φ τ : Type} (s : gorm.Selector φ τ) (key v : String)
    (ft : gorm.FieldType) (bits : Nat)
    (hft : (ft, bits) ∈ [(gorm.FieldType.Int, 64), (gorm.FieldType.Int8, 8),
      (gorm.FieldType.Int16, 16), (gorm.FieldType.Int32, 32), (gorm.FieldType.Int64, 64)])
    (hfield : s.fieldGetter key = some ft) :
    s.generateExpr { key := key, operator := selector.Equals, strValues := [v] }
        = (gorm.atoi bits v).map (fun n => gorm.Condition.int bits (gorm.Expr.Eq key n)) ∧
      (∀ n : Int, Atoi v = .ok n → -2 ^ (bits - 1) ≤ n → n < 2 ^ (bits - 1) →
        gorm.atoi bits v = .ok n) ∧
      (∀ n : Int, Atoi v = .ok n →
        gorm.atoi bits v = .ok (wrapBits bits n) ∧
          -2 ^ (bits - 1) ≤ wrapBits bits n ∧ wrapBits bits n < 2 ^ (bits - 1)) ∧
      (∀ e : GoError, Atoi v = .error e → gorm.atoi bits v = .error e) ∧
      (bits = 64 → gorm.atoi bits v = Atoi v) := by
  have hbits : bits ∈ [8, 16, 32, 64] := by
    simp only [List.mem_cons, List.mem_singleton, List.not_mem_nil, or_false,
      Prod.mk.injEq] at hft
    rcases hft with h | h | h | h | h <;> simp [h.2]
  refine ⟨?_, ?_, ?_, ?_, ?_⟩
  · simp only [List.mem_cons, List.mem_singleton, List.not_mem_nil, or_false,
      Prod.mk.injEq] at hft
    rcases hft with h | h | h | h | h <;> obtain ⟨h1, h2⟩ := h <;> subst h1 <;> subst h2 <;>
      simp only [gorm.Selector.generateExpr, selector.Requirement.Key, hfield,
        generateExprByField_equals_single] <;>
      cases gorm.atoi _ v <;> rfl
  · intro n hparse hlo hhi
    simp only [gorm.atoi, hparse, wrapBits_of_fits bits hbits n hlo hhi]
  · intro n hparse
    exact ⟨by simp only [gorm.atoi, hparse], wrapBits_range bits hbits n⟩
  · intro e hparse
    simp only [gorm.atoi, hparse]
  · intro h64
    subst h64
    cases hparse : Atoi v with
    | error e => simp only [gorm.atoi, hparse]
    | ok n =>
      have hr := Atoi_range v n hparse
      simp only [gorm.atoi, hparse]
      rw [wrapBits_of_fits 64 (by simp) n (by simpa using hr.1) (by simpa using hr.2)]

/-- C21 (code bug): for an integer column narrower than 64 bits, a literal that
is a decimal integer of the 64-bit range but lies outside the signed range of
the column is not rejected: the compiler accepts it and compiles the
requirement to a comparison with another number, the value wrapped into the
width of the column, which differs from the value of the literal. -/
theorem C21_out_of_width_literal_accepted {φ τ : Type} (s : gorm.Selector φ τ) (key v : String)
    (ft : gorm.FieldType) (bits : Nat) (n : Int)
    (hft : (ft, bits) ∈ [(gorm.FieldType.Int8, 8), (gorm.FieldType.Int16, 16),
      (gorm.FieldType.Int32, 32)])
    (hfield : s.fieldGetter key = some ft) (hparse : Atoi v = .ok n)
    (hout : n < -2 ^ (bits - 1) ∨ 2 ^ (bits - 1) ≤ n) :
    s.generateExpr { key := key, operator := selector.Equals, strValues := [v] }
        = .ok (gorm.Condition.int bits (gorm.Expr.Eq key (wrapBits bits n))) ∧
      wrapBits bits n ≠ n := by
  have hft2 : (ft, bits) ∈ [(gorm.FieldType.Int, 64), (gorm.FieldType.Int8, 8),
      (gorm.FieldType.Int16, 16), (gorm.FieldType.Int32, 32), (gorm.FieldType.Int64, 64)] := by
    simp only [List.mem_cons, List.mem_singleton, List.not_mem_nil, or_false] at hft ⊢
    rcases hft with h | h | h
    · exact Or.inr (Or.inl h)
    · exact Or.inr (Or.inr (Or.inl h))
    · exact Or.inr (Or.inr (Or.inr (Or.inl h)))
  have hgen := integer_coercion_by_width s key v ft bits hft2 hfield
  have hwrap := hgen.2.2.1 n hparse
  refine ⟨?_, ?_⟩
  · rw [hgen.1, hwrap.1]
    rfl
  · intro heq
    rw [heq] at hwrap
    rcases hout with h | h
    · exact absurd hwrap.2.1 (not_le.mpr h)
    · exact absurd hwrap.2.2 (not_lt.mpr h)

/-- Witness of C21: on the int8 column `tiny` the literal `300` compiles to
`tiny = 44`, while on the int column `count` a literal outside the range of the
column is rejected. -/
theorem C21_out_of_width_literal_accepted_witness :
    (sample.typedSelector.generateExpr
          { key := "tiny", operator := selector.Equals, strValues := ["300"] }
        = .ok (gorm.Condition.int 8 (gorm.Expr.Eq "tiny" (wrapBits 8 300))) ∧
      wrapBits 8 300 ≠ 300) ∧
    wrapBits 8 300 = 44 ∧
    sample.typedSelector.generateExpr
        { key := "count", operator := selector.Equals, strValues := ["9223372036854775808"] }
      = .error (GoError.other
          "strconv.Atoi: parsing \"9223372036854775808\": value out of range") :=
  ⟨C21_out_of_width_literal_accepted sample.typedSelector "tiny" "300" gorm.FieldType.Int8 8 300
      (by decide) rfl (by decide) (Or.inr (by decide)),
   by decide,
   by
    rw [(integer_coercion_by_width sample.typedSelector "count" "9223372036854775808"
      gorm.FieldType.Int 64 (by decide) rfl).1]
    decide⟩

/-! ## The selector of the gorm store: in and notin -/

/-- The loop over the values answers a list exactly when every value coerces,
and then the list holds, in order, what the coercion makes of each value. -/
theorem convertValues_ok_iff {T : Type} (fromString : String → Except GoError T)
    (values : List String) (result : List T) :
    gorm.convertValues fromString values = .ok result
      ↔ List.Forall₂ (fun value r => fromString value = .ok r) values result := by
  induction values generalizing result with
  | nil =>
    cases result with
    | nil => simp [gorm.convertValues]
    | cons r rs => simp [gorm.convertValues]
  | cons value more ih =>
    simp only [gorm.convertValues]
    cases hv : fromString value with
    | error e =>
      simp only
      constructor
      · intro h
        cases h
      · intro h
        cases h with
        | cons h1 _ => rw [hv] at h1; cases h1
    | ok r0 =>
      simp only
      cases hm : gorm.convertValues fromString more with
      | error e =>
        simp only
        constructor
        · intro h
          cases h
        · intro h
          cases h with
          | cons h1 h2 =>
            have := (ih _).mpr h2
            rw [hm] at this
            cases this
      | ok rs =>
        simp only
        constructor
        · intro h
          cases h
          exact List.Forall₂.cons hv ((ih rs).mp hm)
        · intro h
          cases h with
          | cons h1 h2 =>
            rw [hv] at h1
            cases h1
            have := (ih _).mpr h2
            rw [hm] at this
            cases this
            rfl

/-- The loop over the values fails with the error of a value that does not
coerce. -/
theorem convertValues_error {T : Type} (fromString : String → Except GoError T)
    (values : List String) (e : GoError) (h : gorm.convertValues fromString values = .error e) :
    ∃ value ∈ values, fromString value = .error e := by
  induction values with
  | nil => simp [gorm.convertValues] at h
  | cons value more ih =>
    simp only [gorm.convertValues] at h
    cases hv : fromString value with
    | error e0 =>
      rw [hv] at h
      simp only [Except.error.injEq] at h
      subst h
      exact ⟨value, by simp, hv⟩
    | ok r0 =>
      rw [hv] at h
      simp only at h
      cases hm : gorm.convertValues fromString more with
      | error e1 =>
        rw [hm] at h
        simp only [Except.error.injEq] at h
        subst h
        obtain ⟨w, hw, hwe⟩ := ih hm
        exact ⟨w, by simp [hw], hwe⟩
      | ok rs =>
        rw [hm] at h
        cases h

/-- Every value of a list that coerces value by value coerces. -/
theorem coerced_of_forall₂ {T : Type} (fromString : String → Except GoError T)
    (values : List String) (result : List T)
    (h : List.Forall₂ (fun value r => fromString value = .ok r) values result) :
    ∀ value ∈ values, ∃ r, fromString value = .ok r := by
  induction h with
  | nil => simp
  | cons h1 _ ih =>
    intro value hmem
    simp only [List.mem_cons] at hmem
    rcases hmem with h | h
    · subst h
      exact ⟨_, h1⟩
    · exact ih value h

/-- Counterexample to C22: on the string column `name` a requirement `in` with
no value at all is not rejected, it compiles to `name IN ()`; so does the
requirement the grammar makes of `name in ()`, whose only value is the empty
string. -/
theorem C22_counterexample_empty_list_accepted :
    sample.typedSelector.generateExpr
        { key := "name", operator := selector.In, strValues := [] }
      = .ok (gorm.Condition.string (gorm.Expr.In "name" [])) ∧
    sample.typedSelector.generateExpr
        { key := "name", operator := selector.NotIn, strValues := [] }
      = .ok (gorm.Condition.string (gorm.Expr.NotIn "name" [])) ∧
    sample.typedSelector.generateExpr
        { key := "name", operator := selector.In, strValues := [""] }
      = .ok (gorm.Condition.string (gorm.Expr.In "name" [""])) := by
  decide

/-- C22 (amended): for every requirement with operator in or notin on a column
whose field implements `Field[T]`, the compiler coerces each value, in order,
with the coercion of the column: if a value fails to coerce, compilation fails
with the error of such a value; if every value coerces, compilation yields the
In (resp. NotIn) condition over the coerced values. The compiler itself has no
check for an empty list: with no value it yields the condition over no
values. -/
theorem C22_in_notin_coerce_each_value {T : Type} (requirement : selector.Requirement)
    (column : String) (tIsBool : Bool) (fromString : String → Except GoError T)
    (hop : requirement.Operator = selector.In ∨ requirement.Operator = selector.NotIn) :
    (∀ e : GoError,
        gorm.generateExprByField requirement column true false tIsBool fromString = .error e →
        ∃ value ∈ requirement.Values, fromString value = .error e) ∧
      ((∃ value ∈ requirement.Values, ∃ e, fromString value = .error e) →
        ∃ e, gorm.generateExprByField requirement column true false tIsBool fromString
          = .error e) ∧
      (∀ result : List T,
        List.Forall₂ (fun value r => fromString value = .ok r) requirement.Values result →
        gorm.generateExprByField requirement column true false tIsBool fromString
          = .ok (if requirement.Operator = selector.In then gorm.Expr.In column result
              else gorm.Expr.NotIn column result)) ∧
      (requirement.Values = [] →
        gorm.generateExprByField requirement column true false tIsBool fromString
          = .ok (if requirement.Operator = selector.In then gorm.Expr.In column []
              else gorm.Expr.NotIn column [])) := by
  have hgen : gorm.generateExprByField requirement column true false tIsBool fromString
      = match gorm.convertValues fromString requirement.Values with
        | .error err => .error err
        | .ok result =>
          .ok (if requirement.Operator = selector.In then gorm.Expr.In column result
            else gorm.Expr.NotIn column result) := by
    rcases hop with h | h <;>
      simp [gorm.generateExprByField, h, selector.Equals, selector.DoubleEquals, selector.In,
        selector.NotEquals, selector.NotIn, selector.GreaterThan, selector.LessThan]
  have hok : ∀ result : List T,
      List.Forall₂ (fun value r => fromString value = .ok r) requirement.Values result →
      gorm.generateExprByField requirement column true false tIsBool fromString
        = .ok (if requirement.Operator = selector.In then gorm.Expr.In column result
            else gorm.Expr.NotIn column result) := by
    intro result hall
    rw [hgen, (convertValues_ok_iff fromString requirement.Values result).mpr hall]
  refine ⟨?_, ?_, hok, ?_⟩
  · intro e he
    rw [hgen] at he
    cases hc : gorm.convertValues fromString requirement.Values with
    | error e0 =>
      rw [hc] at he
      simp only [Except.error.injEq] at he
      subst he
      exact convertValues_error fromString _ _ hc
    | ok result =>
      rw [hc] at he
      cases he
  · rintro ⟨value, hmem, e, hve⟩
    rw [hgen]
    cases hc : gorm.convertValues fromString requirement.Values with
    | error e0 => exact ⟨e0, rfl⟩
    | ok result =>
      exfalso
      have hall := (convertValues_ok_iff fromString requirement.Values result).mp hc
      obtain ⟨r, hr⟩ := coerced_of_forall₂ fromString _ _ hall value hmem
      rw [hve] at hr
      cases hr
  · intro hnil
    apply hok
    rw [hnil]
    exact List.Forall₂.nil

/-- Witness of C22: on an integer coercion, `in (1, x)` fails with the error of
`x`, and `notin (1, 2)` yields the condition over 1 and 2. -/
theorem C22_in_notin_coerce_each_value_witness :
    (∃ e, gorm.generateExprByField
        { key := "count", operator := selector.In, strValues := ["1", "x"] } "count"
        true false false (gorm.atoi 64) = .error e) ∧
    gorm.generateExprByField
        { key := "count", operator := selector.NotIn, strValues := ["1", "2"] } "count"
        true false false (gorm.atoi 64)
      = .ok (gorm.Expr.NotIn "count" [1, 2]) :=
  ⟨(C22_in_notin_coerce_each_value
      { key := "count", operator := selector.In, strValues := ["1", "x"] } "count" false
      (gorm.atoi 64) (Or.inl rfl)).2.1
      ⟨"x", by decide, _, (by decide : gorm.atoi 64 "x"
        = .error (GoError.other "strconv.Atoi: parsing \"x\": invalid syntax"))⟩,
   (C22_in_notin_coerce_each_value
      { key := "count", operator := selector.NotIn, strValues := ["1", "2"] } "count" false
      (gorm.atoi 64) (Or.inr rfl)).2.2.1 [1, 2]
      (List.Forall₂.cons (by decide) (List.Forall₂.cons (by decide) List.Forall₂.nil))⟩

/-! ## The selector of the gorm store: exists and does-not-exist -/

/-- No field offers a function for the operators `exists` and `!`. -/
theorem generateExprByField_exists_unsupported {T : Type} (requirement : selector.Requirement)
    (column : String) (isField isBoolField tIsBool : Bool)
    (fromString : String → Except GoError T)
    (hop : requirement.Operator = selector.Exists ∨ requirement.Operator = selector.DoesNotExist) :
    gorm.generateExprByField requirement column isField isBoolField tIsBool fromString
      = .error (GoError.other ("the underlying storage don\x27t support operator \x27"
          ++ requirement.Operator ++ "\x27 for \x27" ++ requirement.Key ++ "\x27")) := by
  have hnot : requirement.Operator ∉
      (if isBoolField = true then [selector.Equals]
        else if isField = true then
          [selector.Equals, selector.DoubleEquals, selector.In, selector.NotEquals,
            selector.NotIn, selector.GreaterThan, selector.LessThan]
        else []) := by
    rcases hop with h | h <;> rw [h] <;> cases isBoolField <;> cases isField <;> decide
  simp only [gorm.generateExprByField]
  rw [if_pos hnot]

/-- Counterexample to C23: on the string column `name`, which the catalog
knows, the requirements `name` (exists) and `!name` produce no condition: the
compilation fails. -/
theorem C23_counterexample_exists_rejected :
    sample.typedSelector.fieldGetter "name" = some gorm.FieldType.String ∧
      sample.typedSelector.generateExpr
          { key := "name", operator := selector.Exists, strValues := [] }
        = .error (GoError.other
            "the underlying storage don\x27t support operator \x27exists\x27 for \x27name\x27") ∧
      sample.typedSelector.generateExpr
          { key := "name", operator := selector.DoesNotExist, strValues := [] }
        = .error (GoError.other
            "the underlying storage don\x27t support operator \x27!\x27 for \x27name\x27") := by
  decide

/-- C23 (amended): for every requirement with operator exists or ! on a key
present in the field catalog, the compiler produces no condition: it fails, with
the error that the underlying storage does not support the operator for the key
when the field is of a type the compiler knows, and takes no value from the
requirement: the error is the same whatever values the requirement holds. -/
theorem C23_exists_unsupported {φ τ : Type} (s : gorm.Selector φ τ) (key : String)
    (op : selector.Operator) (ft : gorm.FieldType)
    (hop : op = selector.Exists ∨ op = selector.DoesNotExist)
    (hfield : s.fieldGetter key = some ft) :
    (∃ err : GoError, ∀ values : List String,
        s.generateExpr { key := key, operator := op, strValues := values } = .error err) ∧
      (ft ≠ gorm.FieldType.Other → ∀ values : List String,
        s.generateExpr { key := key, operator := op, strValues := values }
          = .error (GoError.other ("the underlying storage don\x27t support operator \x27"
              ++ op ++ "\x27 for \x27" ++ key ++ "\x27"))) := by
  have hknown : ft ≠ gorm.FieldType.Other → ∀ values : List String,
      s.generateExpr { key := key, operator := op, strValues := values }
        = .error (GoError.other ("the underlying storage don\x27t support operator \x27"
            ++ op ++ "\x27 for \x27" ++ key ++ "\x27")) := by
    intro hne values
    cases ft <;>
      first
      | exact absurd rfl hne
      | (simp only [gorm.Selector.generateExpr, selector.Requirement.Key, hfield]
         rw [generateExprByField_exists_unsupported
           { key := key, operator := op, strValues := values } _ _ _ _ _ hop]
         rfl)
  refine ⟨?_, hknown⟩
  by_cases hother : ft = gorm.FieldType.Other
  · subst hother
    refine ⟨GoError.other ("don\x27t known how to apply the selector \x27"
      ++ (if op = selector.DoesNotExist then "!" ++ key else key)
      ++ "\x27 to the underlying storage"), ?_⟩
    intro values
    simp only [gorm.Selector.generateExpr, selector.Requirement.Key, hfield]
    rcases hop with h | h <;> subst h <;>
      simp [selector.Requirement.String, selector.Exists, selector.DoesNotExist]
  · exact ⟨_, hknown hother⟩

/-- Witness of C23: `exists` on the bool column `flag`, without a value and
with one. -/
theorem C23_exists_unsupported_witness :
    sample.typedSelector.generateExpr
        { key := "flag", operator := selector.Exists, strValues := [] }
      = .error (GoError.other ("the underlying storage don\x27t support operator \x27"
          ++ selector.Exists ++ "\x27 for \x27" ++ "flag" ++ "\x27")) ∧
    sample.typedSelector.generateExpr
        { key := "flag", operator := selector.Exists, strValues := ["true"] }
      = .error (GoError.other ("the underlying storage don\x27t support operator \x27"
          ++ selector.Exists ++ "\x27 for \x27" ++ "flag" ++ "\x27")) :=
  ⟨(C23_exists_unsupported sample.typedSelector "flag" selector.Exists gorm.FieldType.Bool
      (Or.inl rfl) rfl).2 (by decide) [],
   (C23_exists_unsupported sample.typedSelector "flag" selector.Exists gorm.FieldType.Bool
      (Or.inl rfl) rfl).2 (by decide) ["true"]⟩

end Gearbox

namespace Gearbox

/-! ## TaskHub: Register -/

/-- C24: Register returns an error and leaves the hub as it was when the hub is
running or when the task name of the describer is already registered; otherwise
it returns that task name and no error, and the registry it leaves binds the
task name to the describer and every other name as before. -/
theorem C24_register_guards {ρ ι : Type} (t : task.taskhub ρ ι) (desc : task.TaskDescriber ρ ι) :
    (t.running = true →
        (t.Register desc).1 = ("", some (GoError.other
          "the taskhub already running, register task is forbidden")) ∧
        (t.Register desc).2 = t) ∧
      (t.running = false → (∃ d, t.registry.lookup desc.TaskName = some d) →
        (t.Register desc).1 = ("", some (GoError.other
          ("task " ++ Quote desc.TaskName ++ " duplicate"))) ∧
        (t.Register desc).2 = t) ∧
      (t.running = false → t.registry.lookup desc.TaskName = none →
        (t.Register desc).1 = (desc.TaskName, none) ∧
        (t.Register desc).2.running = false ∧
        (t.Register desc).2.registry.lookup desc.TaskName = some desc ∧
        (∀ name, name ≠ desc.TaskName →
          (t.Register desc).2.registry.lookup name = t.registry.lookup name)) := by
  refine ⟨?_, ?_, ?_⟩
  · intro hrun
    simp [task.taskhub.Register, hrun]
  · rintro hrun ⟨d, hd⟩
    simp [task.taskhub.Register, hrun, hd]
  · intro hrun hnone
    have hreg : t.Register desc
        = ((desc.TaskName, none),
            { t with registry := (desc.TaskName, desc) :: t.registry }) := by
      simp [task.taskhub.Register, hrun, hnone]
    rw [hreg]
    refine ⟨rfl, hrun, ?_, ?_⟩
    · simp [List.lookup]
    · intro name hne
      simp only [List.lookup]
      rw [beq_eq_false_iff_ne.mpr hne]

/-- Witness of C24: a running hub refuses, an idle hub refuses the name it
holds and takes a new one. -/
theorem C24_register_guards_witness :
    (sample.runningHub.Register (sample.failingTask false)).1
        = ("", some (GoError.other "the taskhub already running, register task is forbidden")) ∧
      (sample.idleHub.Register (sample.okTask true)).1
        = ("", some (GoError.other ("task " ++ Quote "demo:ok" ++ " duplicate"))) ∧
      (sample.idleHub.Register (sample.failingTask false)).1 = ("demo:failing", none) :=
  ⟨((C24_register_guards sample.runningHub (sample.failingTask false)).1 rfl).1,
   ((C24_register_guards sample.idleHub (sample.okTask true)).2.1 rfl
      ⟨sample.okTask false, rfl⟩).1,
   ((C24_register_guards sample.idleHub (sample.failingTask false)).2.2 rfl rfl).1⟩

/-! ## TaskHub: acknowledging a message -/

/-- What the worker does with a message whose payload decodes, by the mode of
the task and the way the task func ends. -/
theorem handleMessage_cases {ρ ι : Type} (Scan : List UInt8 → Except GoError (task.EmitTaskRequest ι))
    (desc : task.TaskDescriber ρ ι) (payload : List UInt8) (req : task.EmitTaskRequest ι)
    (hscan : Scan payload = .ok req) :
    (∀ err, desc.Config.AckLate = false → desc.Func req.Input = .ret err →
        task.taskhub.handleMessage Scan desc payload
          = [task.WorkerCall.Ack, task.WorkerCall.Func req.Input]) ∧
      (∀ r, desc.Config.AckLate = false → desc.Func req.Input = .panic r →
        task.taskhub.handleMessage Scan desc payload
          = [task.WorkerCall.Ack, task.WorkerCall.Func req.Input, task.WorkerCall.Crash r]) ∧
      (∀ err, desc.Config.AckLate = true → desc.Func req.Input = .ret err →
        task.taskhub.handleMessage Scan desc payload
          = [task.WorkerCall.Func req.Input, task.WorkerCall.Ack]) ∧
      (∀ r, desc.Config.AckLate = true → desc.Func req.Input = .panic r →
        task.taskhub.handleMessage Scan desc payload
          = [task.WorkerCall.Func req.Input, task.WorkerCall.Ack, task.WorkerCall.Crash r]) := by
  refine ⟨?_, ?_, ?_, ?_⟩ <;> intro x hmode hfunc <;>
    simp [task.taskhub.handleMessage, hscan, hmode, hfunc]

/-- C25: for every received message whose payload decodes: when ackLate is
false the worker acknowledges the message and then calls the task func; when
ackLate is true it calls the task func and, once the func has returned (nil or
an error), acknowledges the message; in both modes and however the func ends,
the calls hold exactly one Ack and exactly one call of the func. -/
theorem C25_ack_before_or_after_handler {ρ ι : Type}
    (Scan : List UInt8 → Except GoError (task.EmitTaskRequest ι))
    (desc : task.TaskDescriber ρ ι) (payload : List UInt8) (req : task.EmitTaskRequest ι)
    (hscan : Scan payload = .ok req) :
    (desc.Config.AckLate = false →
        ∃ more, task.taskhub.handleMessage Scan desc payload
          = task.WorkerCall.Ack :: task.WorkerCall.Func req.Input :: more) ∧
      (desc.Config.AckLate = true → ∀ err, desc.Func req.Input = .ret err →
        task.taskhub.handleMessage Scan desc payload
          = [task.WorkerCall.Func req.Input, task.WorkerCall.Ack]) ∧
      ((task.taskhub.handleMessage Scan desc payload).filter
          (fun call => match call with
            | .Ack => true
            | _ => false)).length = 1 ∧
      (task.taskhub.handleMessage Scan desc payload).filter
          (fun call => match call with
            | .Func _ => true
            | _ => false)
        = [task.WorkerCall.Func req.Input] := by
  have hcases := handleMessage_cases Scan desc payload req hscan
  cases hmode : desc.Config.AckLate with
  | false =>
    cases hfunc : desc.Func req.Input with
    | ret err =>
      rw [hcases.1 err hmode hfunc]
      exact ⟨fun _ => ⟨[], rfl⟩, fun h => (by cases h), rfl, rfl⟩
    | panic r =>
      rw [hcases.2.1 r hmode hfunc]
      exact ⟨fun _ => ⟨[task.WorkerCall.Crash r], rfl⟩, fun h => (by cases h), rfl, rfl⟩
  | true =>
    cases hfunc : desc.Func req.Input with
    | ret err =>
      rw [hcases.2.2.1 err hmode hfunc]
      exact ⟨fun h => (by cases h), fun _ _ _ => rfl, rfl, rfl⟩
    | panic r =>
      rw [hcases.2.2.2 r hmode hfunc]
      exact ⟨fun h => (by cases h), fun _ _ h => (by cases h), rfl, rfl⟩

/-- Witness of C25: a task that returns an error, in both modes. -/
theorem C25_ack_before_or_after_handler_witness :
    (∃ more, task.taskhub.handleMessage sample.byteScan (sample.failingTask false) [5]
        = task.WorkerCall.Ack :: task.WorkerCall.Func 5 :: more) ∧
      task.taskhub.handleMessage sample.byteScan (sample.failingTask true) [5]
        = [task.WorkerCall.Func 5, task.WorkerCall.Ack] :=
  ⟨(C25_ack_before_or_after_handler sample.byteScan (sample.failingTask false) [5]
      { TaskName := "demo:ok", Input := 5 } rfl).1 rfl,
   (C25_ack_before_or_after_handler sample.byteScan (sample.failingTask true) [5]
      { TaskName := "demo:ok", Input := 5 } rfl).2.1 rfl (some (GoError.other "boom")) rfl⟩

/-- Counterexample to C26: with ackLate = true and a task func that panics,
the delivery itself acknowledges the message: the deferred Ack runs after the
panic and before the crash handlers. -/
theorem C26_counterexample_panic_still_acked :
    (sample.panickingTask true).Config.AckLate = true ∧
      (sample.panickingTask true).Func 5 = .panic "oops" ∧
      task.taskhub.handleMessage sample.byteScan (sample.panickingTask true) [5]
        = [task.WorkerCall.Func 5, task.WorkerCall.Ack, task.WorkerCall.Crash "oops"] ∧
      task.WorkerCall.Ack ∈
        task.taskhub.handleMessage sample.byteScan (sample.panickingTask true) [5] := by
  decide

/-- C26 (amended): with ackLate = true, a delivery whose task func panics with r
is acknowledged by that very delivery: the worker calls the func, then the
deferred Ack runs while the panic unwinds, then the crash catcher recovers the
panic and hands r to the crash handlers; nothing is left for a later delivery
to acknowledge. -/
theorem C26_ack_late_panic_acknowledged {ρ ι : Type}
    (Scan : List UInt8 → Except GoError (task.EmitTaskRequest ι))
    (desc : task.TaskDescriber ρ ι) (payload : List UInt8) (req : task.EmitTaskRequest ι) (r : ρ)
    (hscan : Scan payload = .ok req) (hlate : desc.Config.AckLate = true)
    (hpanic : desc.Func req.Input = .panic r) :
    task.taskhub.handleMessage Scan desc payload
        = [task.WorkerCall.Func req.Input, task.WorkerCall.Ack, task.WorkerCall.Crash r] ∧
      task.WorkerCall.Ack ∈ task.taskhub.handleMessage Scan desc payload := by
  have h := (handleMessage_cases Scan desc payload req hscan).2.2.2 r hlate hpanic
  rw [h]
  exact ⟨rfl, by simp⟩

/-- Witness of C26 on the task that panics with `oops`. -/
theorem C26_ack_late_panic_acknowledged_witness :
    task.taskhub.handleMessage sample.byteScan (sample.panickingTask true) [5]
        = [task.WorkerCall.Func 5, task.WorkerCall.Ack, task.WorkerCall.Crash "oops"] ∧
      task.WorkerCall.Ack ∈
        task.taskhub.handleMessage sample.byteScan (sample.panickingTask true) [5] :=
  C26_ack_late_panic_acknowledged sample.byteScan (sample.panickingTask true) [5]
    { TaskName := "demo:ok", Input := 5 } "oops" rfl rfl rfl

/-! ## watch: the typed channel -/

/-- C27 (code bug): for every message whose payload fails to decode, the channel
sends two events for that message, not one: the Error event with no object, and
then an event with the type of the message and a pointer to the object the
failed decoding left; it then acknowledges the message and goes on with the
later messages. For a message whose payload decodes it sends the one event with
the type of the message and the decoded object. -/
theorem C27_decode_failure_sends_two_events {T : Type}
    (Unmarshal : List UInt8 → Option GoError × T) (msg : watch.Message)
    (more : List (Option watch.Message)) :
    (∀ e, (Unmarshal msg.Payload).1 = some e →
        watch.channel.events (watch.channel.handle Unmarshal msg)
          = [{ Typ := watch.EventTypeError, Obj := none },
             { Typ := msg.Get "Type", Obj := some (Unmarshal msg.Payload).2 }]) ∧
      ((Unmarshal msg.Payload).1 = none →
        watch.channel.events (watch.channel.handle Unmarshal msg)
          = [{ Typ := msg.Get "Type", Obj := some (Unmarshal msg.Payload).2 }]) ∧
      watch.channel.run Unmarshal (some msg :: more)
        = watch.channel.handle Unmarshal msg ++ watch.channel.run Unmarshal more := by
  refine ⟨?_, ?_, rfl⟩
  · intro e he
    simp [watch.channel.handle, he, watch.channel.events]
  · intro he
    simp [watch.channel.handle, he, watch.channel.events]

/-- Witness of C27: a message of type `Created` with an empty payload yields
the Error event and a `Created` event that points to the zero object. -/
theorem C27_decode_failure_sends_two_events_witness :
    watch.channel.events (watch.channel.handle sample.byteUnmarshal sample.brokenMessage)
        = [{ Typ := watch.EventTypeError, Obj := none },
           { Typ := sample.brokenMessage.Get "Type",
             Obj := some (sample.byteUnmarshal sample.brokenMessage.Payload).2 }] ∧
      watch.channel.events (watch.channel.handle sample.byteUnmarshal sample.brokenMessage)
        = [{ Typ := "Error", Obj := none }, { Typ := "Created", Obj := some 0 }] ∧
      watch.channel.events (watch.channel.handle sample.byteUnmarshal sample.goodMessage)
        = [{ Typ := "Updated", Obj := some 7 }] :=
  ⟨(C27_decode_failure_sends_two_events sample.byteUnmarshal sample.brokenMessage []).1
      (GoError.other "unexpected end of JSON input") rfl,
   by decide, by decide⟩

end Gearbox

namespace Gearbox

/-! ## Scheme: a kind name is registered at most once -/

/-- Reading a map right after an assignment. -/
theorem lookup_cons_eq {κ ν : Type} [DecidableEq κ] (k k0 : κ) (v : ν) (m : List (κ × ν)) :
    List.lookup k ((k0, v) :: m) = if k = k0 then some v else List.lookup k m := by
  by_cases h : k = k0
  · subst h
    simp [List.lookup]
  · rw [if_neg h]
    simp only [List.lookup]
    rw [beq_eq_false_iff_ne.mpr h]

/-- A key the map does not bind is not among its keys. -/
theorem not_mem_keys_of_lookup_none {κ ν : Type} [DecidableEq κ] (k : κ) (m : List (κ × ν))
    (h : List.lookup k m = none) : k ∉ m.map Prod.fst := by
  induction m with
  | nil => simp
  | cons p more ih =>
    rcases p with ⟨k0, v⟩
    rw [lookup_cons_eq] at h
    by_cases hk : k = k0
    · rw [if_pos hk] at h
      cases h
    · rw [if_neg hk] at h
      simp only [List.map_cons, List.mem_cons, not_or]
      exact ⟨hk, ih h⟩

/-- The scheme `NewScheme` makes is consistent. -/
theorem NewScheme_consistent : apis.NewScheme.Consistent :=
  { once := by simp [apis.NewScheme]
    inverse := by intro rt kind; simp [apis.NewScheme]
    named := by intro rt kind h; simp [apis.NewScheme] at h }

/-- Registering a type under a name the scheme does not hold keeps the scheme
consistent. -/
theorem consistent_register (s : apis.Scheme) (rt : apis.RType) (hs : s.Consistent)
    (hfree : s.KindToType.lookup rt.Name = none) :
    apis.Scheme.Consistent
      { KindToType := (rt.Name, rt) :: s.KindToType
        typeToKind := (rt, rt.Name) :: s.typeToKind } := by
  have hunbound : s.typeToKind.lookup rt = none := by
    cases h : s.typeToKind.lookup rt with
    | none => rfl
    | some kind =>
      have hk := hs.named rt kind h
      have := (hs.inverse rt kind).mp h
      rw [hk, hfree] at this
      cases this
  refine { once := ?_, inverse := ?_, named := ?_ }
  · simp only [List.map_cons, List.nodup_cons]
    exact ⟨not_mem_keys_of_lookup_none _ _ hfree, hs.once⟩
  · intro r kind
    simp only [lookup_cons_eq]
    by_cases hr : r = rt
    · subst hr
      rw [if_pos rfl]
      by_cases hk : kind = r.Name
      · subst hk
        simp
      · rw [if_neg hk]
        constructor
        · intro h
          simp only [Option.some.injEq] at h
          exact absurd h.symm hk
        · intro h
          have := (hs.inverse r kind).mpr h
          rw [hunbound] at this
          cases this
    · rw [if_neg hr]
      by_cases hk : kind = rt.Name
      · subst hk
        rw [if_pos rfl]
        constructor
        · intro h
          have := (hs.inverse r rt.Name).mp h
          rw [hfree] at this
          cases this
        · intro h
          simp only [Option.some.injEq] at h
          exact absurd h.symm hr
      · rw [if_neg hk]
        exact hs.inverse r kind
  · intro r kind h
    rw [lookup_cons_eq] at h
    by_cases hr : r = rt
    · subst hr
      rw [if_pos rfl] at h
      simp only [Option.some.injEq] at h
      exact h.symm
    · rw [if_neg hr] at h
      exact hs.named r kind h

/-- A call of AddKnownTypes keeps the scheme consistent, whatever it returns. -/
theorem AddKnownTypes_consistent (types : List apis.KnownType) (s : apis.Scheme)
    (hs : s.Consistent) : (s.AddKnownTypes types).2.Consistent := by
  induction types generalizing s with
  | nil => exact hs
  | cons t more ih =>
    cases t with
    | value rt => exact hs
    | pointer rt =>
      simp only [apis.Scheme.AddKnownTypes]
      cases hfree : s.KindToType.lookup rt.Name with
      | some bound => exact hs
      | none => exact ih _ (consistent_register s rt hs hfree)

/-- Every reachable scheme is consistent. -/
theorem reachable_consistent (s : apis.Scheme) (h : apis.Scheme.Reachable s) : s.Consistent := by
  induction h with
  | new => exact NewScheme_consistent
  | add s types _ ih => exact AddKnownTypes_consistent types s ih

/-- A call of AddKnownTypes keeps every binding of a consistent scheme, in both
maps. -/
theorem AddKnownTypes_keeps (types : List apis.KnownType) (s : apis.Scheme)
    (hs : s.Consistent) :
    (∀ name rt, s.KindToType.lookup name = some rt →
        (s.AddKnownTypes types).2.KindToType.lookup name = some rt) ∧
      (∀ rt kind, s.typeToKind.lookup rt = some kind →
        (s.AddKnownTypes types).2.typeToKind.lookup rt = some kind) := by
  induction types generalizing s with
  | nil => exact ⟨fun _ _ h => h, fun _ _ h => h⟩
  | cons t more ih =>
    cases t with
    | value rt => exact ⟨fun _ _ h => h, fun _ _ h => h⟩
    | pointer rt =>
      simp only [apis.Scheme.AddKnownTypes]
      cases hfree : s.KindToType.lookup rt.Name with
      | some bound => exact ⟨fun _ _ h => h, fun _ _ h => h⟩
      | none =>
        have hnext := ih _ (consistent_register s rt hs hfree)
        refine ⟨?_, ?_⟩
        · intro name r h
          apply hnext.1
          rw [lookup_cons_eq]
          have hne : name ≠ rt.Name := by
            intro heq
            rw [heq, hfree] at h
            cases h
          rw [if_neg hne]
          exact h
        · intro r kind h
          apply hnext.2
          rw [lookup_cons_eq]
          have hne : r ≠ rt := by
            intro heq
            subst heq
            have hk := hs.named r kind h
            have := (hs.inverse r kind).mp h
            rw [hk, hfree] at this
            cases this
          rw [if_neg hne]
          exact h

/-- AddKnownTypes returns nil only when every argument is a pointer and the
names of the types are pairwise distinct and not yet registered. -/
theorem AddKnownTypes_nil_only_fresh (types : List apis.KnownType) (s : apis.Scheme)
    (h : (s.AddKnownTypes types).1 = none) :
    (∀ t ∈ types, ∃ rt, t = apis.KnownType.pointer rt) ∧
      (types.map (fun t => t.elem.Name)).Nodup ∧
      (∀ t ∈ types, s.KindToType.lookup t.elem.Name = none) := by
  induction types generalizing s with
  | nil => simp
  | cons t more ih =>
    cases t with
    | value rt => simp [apis.Scheme.AddKnownTypes] at h
    | pointer rt =>
      simp only [apis.Scheme.AddKnownTypes] at h
      cases hfree : s.KindToType.lookup rt.Name with
      | some bound =>
        rw [hfree] at h
        simp at h
      | none =>
        rw [hfree] at h
        obtain ⟨hptr, hnodup, hnew⟩ := ih _ h
        have hmore : ∀ t ∈ more, t.elem.Name ≠ rt.Name ∧
            s.KindToType.lookup t.elem.Name = none := by
          intro t ht
          have := hnew t ht
          rw [lookup_cons_eq] at this
          by_cases hn : t.elem.Name = rt.Name
          · rw [if_pos hn] at this
            cases this
          · rw [if_neg hn] at this
            exact ⟨hn, this⟩
        refine ⟨?_, ?_, ?_⟩
        · intro t ht
          simp only [List.mem_cons] at ht
          rcases ht with ht | ht
          · exact ⟨rt, ht⟩
          · exact hptr t ht
        · simp only [List.map_cons, List.nodup_cons, apis.KnownType.elem, List.mem_map, not_exists,
            not_and]
          refine ⟨?_, hnodup⟩
          intro t ht heq
          exact (hmore t ht).1 heq
        · intro t ht
          simp only [List.mem_cons] at ht
          rcases ht with ht | ht
          · subst ht
            exact hfree
          · exact (hmore t ht).2

/-- C28: in every reachable state of a Scheme no kind name is bound twice, a
type is bound to a kind exactly when the kind is bound to the type, and
ObjectKind of an object of a registered type returns the name of that type, the
name it was registered under; every call of AddKnownTypes keeps every existing
binding of both maps, and it returns nil only when every argument is a pointer
and the names of the argument types are pairwise distinct and not yet
registered, so a name already registered, by an earlier call or earlier in the
same list, makes it return an error. -/
theorem C28_kind_registered_once (s : apis.Scheme) (hreach : apis.Scheme.Reachable s)
    (types : List apis.KnownType) :
    (s.KindToType.map Prod.fst).Nodup ∧
      (∀ rt kind, s.typeToKind.lookup rt = some kind ↔ s.KindToType.lookup kind = some rt) ∧
      (∀ obj : apis.Object, (∃ kind, s.typeToKind.lookup obj.rtype = some kind) →
        s.ObjectKind obj = .ok obj.rtype.Name) ∧
      (∀ name rt, s.KindToType.lookup name = some rt →
        (s.AddKnownTypes types).2.KindToType.lookup name = some rt) ∧
      (∀ rt kind, s.typeToKind.lookup rt = some kind →
        (s.AddKnownTypes types).2.typeToKind.lookup rt = some kind) ∧
      ((s.AddKnownTypes types).1 = none →
        (∀ t ∈ types, ∃ rt, t = apis.KnownType.pointer rt) ∧
          (types.map (fun t => t.elem.Name)).Nodup ∧
          (∀ t ∈ types, s.KindToType.lookup t.elem.Name = none)) := by
  have hs := reachable_consistent s hreach
  refine ⟨hs.once, hs.inverse, ?_, (AddKnownTypes_keeps types s hs).1,
    (AddKnownTypes_keeps types s hs).2, AddKnownTypes_nil_only_fresh types s⟩
  rintro obj ⟨kind, hkind⟩
  have hname := hs.named obj.rtype kind hkind
  simp only [apis.Scheme.ObjectKind, hkind, hname]

/-- Witness of C28: after `Foo` of package `demo` is registered, ObjectKind of a
`demo.Foo` object is `Foo`, and registering `Bar` keeps the binding of `Foo`. -/
theorem C28_kind_registered_once_witness :
    (apis.NewScheme.AddKnownTypes [apis.KnownType.pointer sample.fooType]).2.ObjectKind
        sample.fooObj = .ok "Foo" ∧
      ((apis.NewScheme.AddKnownTypes [apis.KnownType.pointer sample.fooType]).2.AddKnownTypes
          [apis.KnownType.pointer sample.barType]).2.KindToType.lookup "Foo"
        = some sample.fooType ∧
      ((apis.NewScheme.AddKnownTypes [apis.KnownType.pointer sample.fooType]).2.AddKnownTypes
          [apis.KnownType.pointer sample.otherFooType]).1
        = some (GoError.other "type \"Foo\" already added") :=
  ⟨(C28_kind_registered_once
      (apis.NewScheme.AddKnownTypes [apis.KnownType.pointer sample.fooType]).2
      (apis.Scheme.Reachable.add _ _ apis.Scheme.Reachable.new) []).2.2.1
      sample.fooObj ⟨"Foo", rfl⟩,
   (C28_kind_registered_once
      (apis.NewScheme.AddKnownTypes [apis.KnownType.pointer sample.fooType]).2
      (apis.Scheme.Reachable.add _ _ apis.Scheme.Reachable.new)
      [apis.KnownType.pointer sample.barType]).2.2.2.1 "Foo" sample.fooType rfl,
   by decide⟩

end Gearbox

namespace Gearbox

/-! ## PredicateFunc: unset functions -/

/-- A Create call of the source on the handler has passed every predicate. -/
theorem handle_Create_passed (predicates : List controller.Predicate) (evt : rest.Event)
    (e : controller.CreateEvent)
    (h : controller.HandlerCall.Create e ∈ controller.source.handle predicates evt) :
    ∀ q ∈ predicates, q.Create e = true := by
  simp only [controller.source.handle] at h
  split at h
  · simp at h
  · split at h
    · split at h
      · rename_i hpass
        simp only [List.mem_singleton, controller.HandlerCall.Create.injEq] at h
        subst h
        exact (predicatesPass_iff (fun p => p.Create) predicates _).mp hpass
      · simp at h
    · split at h
      · split at h <;> simp at h
      · split at h
        · split at h <;> simp at h
        · simp at h

/-- An Update call of the source on the handler has passed every predicate. -/
theorem handle_Update_passed (predicates : List controller.Predicate) (evt : rest.Event)
    (e : controller.UpdateEvent)
    (h : controller.HandlerCall.Update e ∈ controller.source.handle predicates evt) :
    ∀ q ∈ predicates, q.Update e = true := by
  simp only [controller.source.handle] at h
  split at h
  · simp at h
  · split at h
    · split at h <;> simp at h
    · split at h
      · split at h
        · rename_i hpass
          simp only [List.mem_singleton, controller.HandlerCall.Update.injEq] at h
          subst h
          exact (predicatesPass_iff (fun p => p.Update) predicates _).mp hpass
        · simp at h
      · split at h
        · split at h <;> simp at h
        · simp at h

/-- A Delete call of the source on the handler has passed every predicate. -/
theorem handle_Delete_passed (predicates : List controller.Predicate) (evt : rest.Event)
    (e : controller.DeleteEvent)
    (h : controller.HandlerCall.Delete e ∈ controller.source.handle predicates evt) :
    ∀ q ∈ predicates, q.Delete e = true := by
  simp only [controller.source.handle] at h
  split at h
  · simp at h
  · split at h
    · split at h <;> simp at h
    · split at h
      · split at h <;> simp at h
      · split at h
        · split at h
          · rename_i hpass
            simp only [List.mem_singleton, controller.HandlerCall.Delete.injEq] at h
            subst h
            exact (predicatesPass_iff (fun p => p.Delete) predicates _).mp hpass
          · simp at h
        · simp at h

/-- The source never calls Generic on the handler. -/
theorem handle_no_Generic (predicates : List controller.Predicate) (evt : rest.Event)
    (e : controller.GenericEvent) :
    controller.HandlerCall.Generic e ∉ controller.source.handle predicates evt := by
  intro h
  simp only [controller.source.handle] at h
  split at h
  · simp at h
  · split at h
    · split at h <;> simp at h
    · split at h
      · split at h <;> simp at h
      · split at h
        · split at h <;> simp at h
        · simp at h

/-- For every PredicateFunc and every event kind whose function field is
unset, the method of that kind returns false for all events; so the watch
source whose predicates hold such a PredicateFunc never calls the Create, Delete
or Update method of the handler for an unset function, whatever events it
receives. The watch source never calls Generic, whatever its predicates. -/
theorem unset_predicate_func_blocks_watch_source (p : controller.PredicateFunc)
    (predicates : List controller.Predicate) (events : List rest.Event)
    (hmem : p.toPredicate ∈ predicates) :
    (p.CreateFunc = none → ∀ evt, p.Create evt = false) ∧
      (p.DeleteFunc = none → ∀ evt, p.Delete evt = false) ∧
      (p.UpdateFunc = none → ∀ evt, p.Update evt = false) ∧
      (p.GenericFunc = none → ∀ evt, p.Generic evt = false) ∧
      (p.CreateFunc = none →
        ∀ e, controller.HandlerCall.Create e ∉ controller.source.run predicates events) ∧
      (p.DeleteFunc = none →
        ∀ e, controller.HandlerCall.Delete e ∉ controller.source.run predicates events) ∧
      (p.UpdateFunc = none →
        ∀ e, controller.HandlerCall.Update e ∉ controller.source.run predicates events) ∧
      (∀ e, controller.HandlerCall.Generic e ∉ controller.source.run predicates events) := by
  have hc : p.CreateFunc = none → ∀ evt, p.Create evt = false := by
    intro h evt
    simp [controller.PredicateFunc.Create, h]
  have hd : p.DeleteFunc = none → ∀ evt, p.Delete evt = false := by
    intro h evt
    simp [controller.PredicateFunc.Delete, h]
  have hu : p.UpdateFunc = none → ∀ evt, p.Update evt = false := by
    intro h evt
    simp [controller.PredicateFunc.Update, h]
  have hg : p.GenericFunc = none → ∀ evt, p.Generic evt = false := by
    intro h evt
    simp [controller.PredicateFunc.Generic, h]
  refine ⟨hc, hd, hu, hg, ?_, ?_, ?_, ?_⟩
  · intro hnone e hin
    simp only [controller.source.run, List.mem_flatMap] at hin
    obtain ⟨evt, _, hev⟩ := hin
    have := handle_Create_passed predicates evt e hev p.toPredicate hmem
    have hfalse : p.toPredicate.Create e = false := hc hnone e
    rw [hfalse] at this
    cases this
  · intro hnone e hin
    simp only [controller.source.run, List.mem_flatMap] at hin
    obtain ⟨evt, _, hev⟩ := hin
    have := handle_Delete_passed predicates evt e hev p.toPredicate hmem
    have hfalse : p.toPredicate.Delete e = false := hd hnone e
    rw [hfalse] at this
    cases this
  · intro hnone e hin
    simp only [controller.source.run, List.mem_flatMap] at hin
    obtain ⟨evt, _, hev⟩ := hin
    have := handle_Update_passed predicates evt e hev p.toPredicate hmem
    have hfalse : p.toPredicate.Update e = false := hu hnone e
    rw [hfalse] at this
    cases this
  · intro e hin
    simp only [controller.source.run, List.mem_flatMap] at hin
    obtain ⟨evt, _, hev⟩ := hin
    exact handle_no_Generic predicates evt e hev

/-- On the watch source, a predicate that only sets its update function, next
to one that lets everything through: a Created event is dropped, an Updated
event passes. -/
theorem unset_predicate_func_blocks_watch_source_example :
    (∀ e, controller.HandlerCall.Create e ∉
        controller.source.run [sample.alwaysPredicate, sample.updateOnlyPredicate.toPredicate]
          [{ Typ := watch.EventTypeCreated, Obj := sample.fooObj },
           { Typ := watch.EventTypeUpdated, Obj := sample.fooObj }]) ∧
      controller.source.run [sample.alwaysPredicate, sample.updateOnlyPredicate.toPredicate]
          [{ Typ := watch.EventTypeCreated, Obj := sample.fooObj },
           { Typ := watch.EventTypeUpdated, Obj := sample.fooObj }]
        = [controller.HandlerCall.Update { ObjectNew := some sample.fooObj }] :=
  ⟨(unset_predicate_func_blocks_watch_source sample.updateOnlyPredicate
      [sample.alwaysPredicate, sample.updateOnlyPredicate.toPredicate]
      [{ Typ := watch.EventTypeCreated, Obj := sample.fooObj },
       { Typ := watch.EventTypeUpdated, Obj := sample.fooObj }] (by simp)).2.2.2.2.1 rfl,
   by decide⟩

/-- C29 (code bug): for every PredicateFunc whose GenericFunc is unset, the
Generic method returns false for all events, and yet a TimerSource, the source
that emits Generic events, given such a predicate calls Generic on the handler
at every tick: the predicate does not keep the event from the handler. -/
theorem C29_timer_source_ignores_unset_generic (p : controller.PredicateFunc)
    (predicates : List controller.Predicate) (hmem : p.toPredicate ∈ predicates)
    (hunset : p.GenericFunc = none) :
    (∀ evt, p.toPredicate.Generic evt = false) ∧
      (∃ q ∈ predicates, q.Generic {} = false) ∧
      controller.TimerSource.tick predicates = [controller.HandlerCall.Generic {}] := by
  have hfalse : ∀ evt, p.toPredicate.Generic evt = false := by
    intro evt
    simp [controller.PredicateFunc.toPredicate, controller.PredicateFunc.Generic, hunset]
  refine ⟨hfalse, ⟨p.toPredicate, hmem, hfalse {}⟩, ?_⟩
  simp [controller.TimerSource.tick]

/-- Witness of C29: a TimerSource whose only predicate is the zero
PredicateFunc still calls Generic on the handler. -/
theorem C29_timer_source_ignores_unset_generic_witness :
    sample.unsetPredicate.toPredicate.Generic {} = false ∧
      controller.TimerSource.tick [sample.unsetPredicate.toPredicate]
        = [controller.HandlerCall.Generic {}] :=
  ⟨(C29_timer_source_ignores_unset_generic sample.unsetPredicate
      [sample.unsetPredicate.toPredicate] (by simp) rfl).1 {},
   (C29_timer_source_ignores_unset_generic sample.unsetPredicate
      [sample.unsetPredicate.toPredicate] (by simp) rfl).2.2⟩

/-! ## Store.Update: the revision of the caller's object on the error paths -/

/-- The object the closure of Update leaves once the revision has parsed: the
revision field holds the next revision, whatever the UPDATE answers. -/
theorem updateOpFn_bumps {σ : Type} (s : gorm.store σ) (dao : List (String × String))
    (obj : Model) (db : σ) (i : Int) (hrvcol : s.rvFieldName ≠ "")
    (hparse : Atoi (util.GetStringField obj s.rvFieldName) = .ok i) :
    (s.updateOpFn dao obj db).2.1
      = util.SetStringField obj s.rvFieldName (Itoa (wrap64 (i + 1))) := by
  have hne := Atoi_ne_empty _ _ hparse
  simp only [gorm.store.updateOpFn, if_pos hrvcol, hparse]
  rw [if_pos ⟨hrvcol, hne⟩]
  cases s.dao.Updates dao s.columns
      (util.SetStringField obj s.rvFieldName (Itoa (wrap64 (i + 1)))) db with
  | error err => rfl
  | ok res => rfl

/-- C30: Update is not atomic on the object of the caller. For a store with a
revision column, with r the revision the object carries when the closure of
Update reads it (after the onUpdate handlers): if the first fetch succeeds and
Atoi accepts r as i, then after Update the revision field of the object holds
Itoa of the 64-bit i + 1 (Itoa (i + 1) when i is below the largest int),
whatever Update returns, an error of the conditional write or of the conflict
check included; if the first fetch fails, Update returns that error and the
object is unchanged; if r is not empty and Atoi rejects it, Update returns the
error that the revision must be a number and the revision field still holds
r. -/
theorem C30_update_not_atomic_on_object {σ : Type} (s : gorm.store σ) (key : String)
    (obj : Model) (db : σ) (hrvcol : s.rvFieldName ≠ "") :
    (∀ oldObj i, s.dao.First [(s.keyFieldName, key)] db = .ok oldObj →
        Atoi (util.GetStringField (s.runOnUpdate oldObj obj).2 s.rvFieldName) = .ok i →
        util.GetStringField (s.Update key obj db).obj s.rvFieldName = Itoa (wrap64 (i + 1)) ∧
          (i < 2 ^ 63 - 1 →
            util.GetStringField (s.Update key obj db).obj s.rvFieldName = Itoa (i + 1))) ∧
      (∀ err, s.dao.First [(s.keyFieldName, key)] db = .error err →
        (s.Update key obj db).err = some err ∧ (s.Update key obj db).obj = obj) ∧
      (∀ oldObj e, s.dao.First [(s.keyFieldName, key)] db = .ok oldObj →
        util.GetStringField (s.runOnUpdate oldObj obj).2 s.rvFieldName ≠ "" →
        Atoi (util.GetStringField (s.runOnUpdate oldObj obj).2 s.rvFieldName) = .error e →
        (s.Update key obj db).err = some (GoError.other "the revision must be number") ∧
          (s.Update key obj db).obj = (s.runOnUpdate oldObj obj).2 ∧
          util.GetStringField (s.Update key obj db).obj s.rvFieldName
            = util.GetStringField (s.runOnUpdate oldObj obj).2 s.rvFieldName) := by
  refine ⟨?_, ?_, ?_⟩
  · intro oldObj i hfetch hparse
    have hobj := (Update_after_fetch s key obj oldObj db hfetch).1
    have hmod := modify_obj_db s key (s.runOnUpdate oldObj obj).2 db s.updateOpFn
    have hbump := updateOpFn_bumps s (s.modifyDao key (s.runOnUpdate oldObj obj).2)
      (s.runOnUpdate oldObj obj).2 db i hrvcol hparse
    have hfield : util.GetStringField (s.Update key obj db).obj s.rvFieldName
        = Itoa (wrap64 (i + 1)) := by
      rw [hobj, hmod, hbump]
      simp [util.GetStringField, util.SetStringField]
    refine ⟨hfield, ?_⟩
    intro hhi
    rw [hfield, wrap64_succ i (Atoi_range _ _ hparse).1 hhi]
  · intro err hfetch
    have hupd : s.Update key obj db
        = { err := some err, obj := obj, db := db, events := [] } := by
      simp only [gorm.store.Update, hfetch]
    rw [hupd]
    exact ⟨rfl, rfl⟩
  · intro oldObj e hfetch hne hparse
    have hop : s.updateOpFn (s.modifyDao key (s.runOnUpdate oldObj obj).2)
        (s.runOnUpdate oldObj obj).2 db
        = (.error (GoError.other "the revision must be number"),
            (s.runOnUpdate oldObj obj).2, db) := by
      simp only [gorm.store.updateOpFn, if_pos hrvcol, hparse]
      rw [if_pos ⟨hrvcol, hne⟩]
    have hupd : s.Update key obj db
        = { err := some (GoError.other "the revision must be number")
            obj := (s.runOnUpdate oldObj obj).2, db := db, events := [] } := by
      simp only [gorm.store.Update, hfetch, gorm.store.modify, hop]
    rw [hupd]
    exact ⟨rfl, rfl, rfl⟩

/-- Witness of C30: the table holds `a` at revision 2 and the object carries
revision 1: Update answers the ConcurrentConflict error and the object now
carries revision 2; on an empty table the object keeps revision 1. -/
theorem C30_update_not_atomic_on_object_witness :
    util.GetStringField
        (sample.fooStore.Update "a" (sample.row "a" "1" "x") [sample.row "a" "2" "y"]).obj
        sample.fooStore.rvFieldName = Itoa (wrap64 (1 + 1)) ∧
      (sample.fooStore.Update "a" (sample.row "a" "1" "x") [sample.row "a" "2" "y"]).obj "rv"
        = "2" ∧
      (sample.fooStore.Update "a" (sample.row "a" "1" "x") [sample.row "a" "2" "y"]).err
        = some (GoError.storageStatus storage.NewConcurrentConclictError) ∧
      (sample.fooStore.Update "a" (sample.row "a" "1" "x") []).obj "rv" = "1" :=
  ⟨((C30_update_not_atomic_on_object sample.fooStore "a" (sample.row "a" "1" "x")
      [sample.row "a" "2" "y"] (by decide)).1 (sample.row "a" "2" "y") 1 rfl (by decide)).1,
   by decide, by decide, by decide⟩

end Gearbox
